import Mathlib

/-!
# Lepton CCI driver (`cci.c`): register layer, busy handshake, command layer

A shallow embedding of `pocketbeagle/pru_rpmsg_fb/app/src/cci.c`.

* The device behind the file descriptor is a deterministic machine `Bus σ`:
  it answers `ioctl`, `write` and `read` and moves to a new state.
* A `World σ` carries the device state, the chronological trace of the
  system calls made so far (with the answers), and the module-scope
  variable `cci_last_read_count`.
* `cci_wait_busy_clear` is an unbounded loop in C.  Here it takes a bound
  `fuel` on the number of polls of one call; when the bound is reached the
  operation is `blocked` in the world it has reached.
* Calls to the logger change nothing that the driver observes and are left
  out.
-/

namespace Lepton

/-! ## System calls on the device handle -/

/-- One system call on the device handle together with its answer.
`write buf ret`: the buffer passed and the value `write(2)` returned.
`read count res`: the byte count asked for and the bytes delivered
(`none` when `read(2)` returned `-1`). -/
inductive Event where
  | ioctl (request arg : Nat) (ret : Int)
  | write (buf : List Nat) (ret : Int)
  | read (count : Nat) (res : Option (List Nat))
  | sleep (seconds : Nat)
  deriving DecidableEq, Repr

/-- The device behind the file descriptor: answers and next state. -/
structure Bus (σ : Type) where
  ioctl : σ → Nat → Nat → Int × σ
  write : σ → List Nat → Int × σ
  read : σ → Nat → Option (List Nat) × σ

/-- Everything the driver can change: the device, the trace of calls, and
the static variable `cci_last_read_count` (`cci.c` line 7). -/
structure World (σ : Type) where
  dev : σ
  trace : List Event
  cci_last_read_count : Int

/-- Outcome of an operation that contains a handshake: it returned `val` in
world `w`, or it is still polling in world `w` when the poll bound ran out. -/
inductive Outcome (σ α : Type) where
  | done (val : α) (w : World σ)
  | blocked (w : World σ)

/-- The world an outcome has reached. -/
def Outcome.world {σ α : Type} : Outcome σ α → World σ
  | Outcome.done _ w => w
  | Outcome.blocked w => w

/-- Sequencing: the continuation runs only when the first part returned. -/
def Outcome.bind {σ α β : Type} (o : Outcome σ α)
    (f : α → World σ → Outcome σ β) : Outcome σ β :=
  match o with
  | Outcome.done a w => f a w
  | Outcome.blocked w => Outcome.blocked w

/-- Bytes a `read(2)` of `count` bytes delivers: at most `count`, each a byte. -/
def delivered (count : Nat) (res : Option (List Nat)) : Option (List Nat) :=
  res.map fun bs => (bs.take count).map (fun b => b % 256)

/-- Return value of `read(2)`: `-1` on error, else the number of bytes. -/
def readCount : Option (List Nat) → Int
  | none => -1
  | some bs => (bs.length : Int)

/-- Contents of the caller's buffer after `read(2)`: the delivered bytes
overwrite its front, the rest is left as it was. -/
def readInto (buf : List Nat) : Option (List Nat) → List Nat
  | none => buf
  | some bs => bs ++ buf.drop bs.length

/-- The call `write(fd, buf, sizeof(buf))`. -/
def sys_write {σ : Type} (bus : Bus σ) (w : World σ) (buf : List Nat) : Int × World σ :=
  let r := bus.write w.dev buf
  (r.1, { w with dev := r.2, trace := w.trace ++ [Event.write buf r.1] })

/-- The call `read(fd, buf, count)`: returns the count and the new buffer. -/
def sys_read {σ : Type} (bus : Bus σ) (w : World σ) (buf : List Nat) (count : Nat) :
    (Int × List Nat) × World σ :=
  let r := bus.read w.dev count
  let d := delivered count r.1
  ((readCount d, readInto buf d),
   { w with dev := r.2, trace := w.trace ++ [Event.read count d] })

/-- The call `ioctl(fd, request, arg)`. -/
def sys_ioctl {σ : Type} (bus : Bus σ) (w : World σ) (request arg : Nat) : Int × World σ :=
  let r := bus.ioctl w.dev request arg
  (r.1, { w with dev := r.2, trace := w.trace ++ [Event.ioctl request arg r.1] })

/-- The call `sleep(seconds)`. -/
def sys_sleep {σ : Type} (w : World σ) (seconds : Nat) : World σ :=
  { w with trace := w.trace ++ [Event.sleep seconds] }

/-! ## Constants of `cci.h` -/

/-- Modelled from the spec: `cci.h` is missing; STATUS register address. -/
def CCI_REG_STATUS : Nat := 0x0002
/-- Modelled from the spec: `cci.h` is missing; COMMAND register address. -/
def CCI_REG_COMMAND : Nat := 0x0004
/-- Modelled from the spec: `cci.h` is missing; DATA_LENGTH register address. -/
def CCI_REG_DATA_LENGTH : Nat := 0x0006
/-- Modelled from the spec: `cci.h` is missing; DATA_0 register address. -/
def CCI_REG_DATA_0 : Nat := 0x0008
/-- Modelled from the spec: `cci.h` is missing; data words are 2 bytes apart. -/
def CCI_WORD_LENGTH : Nat := 0x02
/-- Modelled from the spec: `cci.h` is missing; the camera's slave address. -/
def CCI_ADDRESS : Nat := 0x2A
/-- The ioctl request `I2C_SLAVE` of `linux/i2c-dev.h`. -/
def I2C_SLAVE : Nat := 0x0703

/-- Modelled from the spec: `cci.h` is missing; command ID. -/
def CCI_CMD_SYS_RUN_FFC : Nat := 0x0242
/-- Modelled from the spec: `cci.h` is missing; command ID. -/
def CCI_CMD_SYS_GET_UPTIME : Nat := 0x020C
/-- Modelled from the spec: `cci.h` is missing; command ID. -/
def CCI_CMD_SYS_SET_TELEMETRY_ENABLE_STATE : Nat := 0x0219
/-- Modelled from the spec: `cci.h` is missing; command ID. -/
def CCI_CMD_SYS_GET_TELEMETRY_ENABLE_STATE : Nat := 0x0218
/-- Modelled from the spec: `cci.h` is missing; command ID. -/
def CCI_CMD_SYS_SET_TELEMETRY_LOCATION : Nat := 0x0221
/-- Modelled from the spec: `cci.h` is missing; command ID. -/
def CCI_CMD_SYS_GET_TELEMETRY_LOCATION : Nat := 0x0220
/-- Modelled from the spec: `cci.h` is missing; command ID. -/
def CCI_CMD_RAD_SET_RADIOMETRY_ENABLE_STATE : Nat := 0x4E11
/-- Modelled from the spec: `cci.h` is missing; command ID. -/
def CCI_CMD_RAD_GET_RADIOMETRY_ENABLE_STATE : Nat := 0x4E10
/-- Modelled from the spec: `cci.h` is missing; command ID. -/
def CCI_CMD_RAD_SET_RADIOMETRY_TLINEAR_ENABLE_STATE : Nat := 0x4EC1
/-- Modelled from the spec: `cci.h` is missing; command ID. -/
def CCI_CMD_RAD_GET_RADIOMETRY_TLINEAR_ENABLE_STATE : Nat := 0x4EC0
/-- Modelled from the spec: `cci.h` is missing; command ID. -/
def CCI_CMD_AGC_GET_AGC_ENABLE_STATE : Nat := 0x0100
/-- Modelled from the spec: `cci.h` is missing; command ID. -/
def CCI_CMD_AGC_SET_AGC_ENABLE_STATE : Nat := 0x0101
/-- Modelled from the spec: `cci.h` is missing; command ID. -/
def CCI_CMD_AGC_GET_CALC_ENABLE_STATE : Nat := 0x0148
/-- Modelled from the spec: `cci.h` is missing; command ID. -/
def CCI_CMD_AGC_SET_CALC_ENABLE_STATE : Nat := 0x0149
/-- Modelled from the spec: `cci.h` is missing; command ID. -/
def CCI_CMD_OEM_GET_GPIO_MODE : Nat := 0x4854
/-- Modelled from the spec: `cci.h` is missing; command ID. -/
def CCI_CMD_OEM_SET_GPIO_MODE : Nat := 0x4855
/-- Modelled from the spec: `cci.h` is missing; command ID. -/
def CCI_CMD_OEM_RUN_REBOOT : Nat := 0x4840
/-- Modelled from the spec: `cci.h` is missing; the VSYNC GPIO mode. -/
def CCI_GPIO_MODE_VSYNC : Nat := 5

/-! ## Register layer -/

/-- `cci_init` (`cci.c` lines 12-20). -/
def cci_init {σ : Type} (bus : Bus σ) (w : World σ) : Int × World σ :=
  let r := sys_ioctl bus w I2C_SLAVE CCI_ADDRESS
  if r.1 < 0 then (-1, r.2) else (1, r.2)

/-- `cci_write_register` (`cci.c` lines 25-41).  The parameters are
`uint16_t`, the buffer elements `uint8_t`. -/
def cci_write_register {σ : Type} (bus : Bus σ) (w : World σ) (reg value : Nat) :
    Int × World σ :=
  let reg := reg % 65536
  let value := value % 65536
  let write_buf := [(reg >>> 8) &&& 0xff, reg &&& 0xff, (value >>> 8) &&& 0xff, value &&& 0xff]
  let r := sys_write bus w write_buf
  if r.1 ≠ 4 then (-1, r.2) else (1, r.2)

/-- `cci_read_register` (`cci.c` lines 48-67).  The result is `uint16_t`, so
`return -1` yields `0xFFFF`. -/
def cci_read_register {σ : Type} (bus : Bus σ) (w : World σ) (reg : Nat) : Nat × World σ :=
  let reg := reg % 65536
  let buf := [(reg >>> 8) % 256, reg &&& 0xff]
  let r := sys_write bus w buf
  if r.1 ≠ 2 then (((-1 : Int) % 65536).toNat, r.2)
  else
    let rd := sys_read bus r.2 buf 2
    let w2 : World σ :=
      if rd.1.1 ≠ 2 then { rd.2 with cci_last_read_count := 0 }
      else { rd.2 with cci_last_read_count := rd.1.1 }
    let buf := rd.1.2
    ((((buf.getD 0 0) <<< 8) ||| (buf.getD 1 0)) % 65536, w2)

/-! ## Busy handshake -/

/-- The `while` loop of `cci_wait_busy_clear` (`cci.c` lines 77-89); `buf` is
the local buffer at the loop test, `fuel` bounds the remaining polls. -/
def cci_wait_busy_clear_loop {σ : Type} (bus : Bus σ) :
    Nat → World σ → List Nat → Outcome σ Unit
  | fuel, w, buf =>
    if (buf.getD 1 0) &&& 0x07 ≠ 0x06 then
      match fuel with
      | 0 => Outcome.blocked w
      | fuel + 1 =>
        let buf := [0x00, 0x02]
        let r := sys_write bus w buf
        let rd := sys_read bus r.2 buf 2
        let w2 : World σ := { rd.2 with cci_last_read_count := rd.1.1 }
        cci_wait_busy_clear_loop bus fuel w2 rd.1.2
    else Outcome.done () w

/-- `cci_wait_busy_clear` (`cci.c` lines 72-90). -/
def cci_wait_busy_clear {σ : Type} (bus : Bus σ) (fuel : Nat) (w : World σ) :
    Outcome σ Unit :=
  cci_wait_busy_clear_loop bus fuel w [0x00, 0x07]

/-- Modelled from the spec: the macro of the missing `cci.h` that brackets
every command; it is a call of `cci_wait_busy_clear(fd)`. -/
def WAIT_FOR_BUSY_DEASSERT {σ : Type} (bus : Bus σ) (fuel : Nat) (w : World σ) :
    Outcome σ Unit :=
  cci_wait_busy_clear bus fuel w

/-! ## Command layer -/

/-- The expression `ms_word << 16 | ls_word` converted to the `uint32_t`
result.  The two `uint16_t` operands are promoted to 32-bit `int`; the
shift and the `|` act on the 32-bit pattern, which the conversion to
`uint32_t` keeps. -/
def word32 (ms_word ls_word : Nat) : Nat :=
  (((ms_word <<< 16) % 4294967296) ||| ls_word) % 4294967296

/-- `cci_run_ffc` (`cci.c` lines 96-101). -/
def cci_run_ffc {σ : Type} (bus : Bus σ) (fuel : Nat) (w : World σ) : Outcome σ Unit :=
  (WAIT_FOR_BUSY_DEASSERT bus fuel w).bind fun _ w =>
  let w := (cci_write_register bus w CCI_REG_COMMAND CCI_CMD_SYS_RUN_FFC).2
  WAIT_FOR_BUSY_DEASSERT bus fuel w

/-- `cci_get_uptime` (`cci.c` lines 106-115). -/
def cci_get_uptime {σ : Type} (bus : Bus σ) (fuel : Nat) (w : World σ) : Outcome σ Nat :=
  (WAIT_FOR_BUSY_DEASSERT bus fuel w).bind fun _ w =>
  let w := (cci_write_register bus w CCI_REG_DATA_LENGTH 2).2
  let w := (cci_write_register bus w CCI_REG_COMMAND CCI_CMD_SYS_GET_UPTIME).2
  (WAIT_FOR_BUSY_DEASSERT bus fuel w).bind fun _ w =>
  let ls_word := cci_read_register bus w CCI_REG_DATA_0
  let ms_word := cci_read_register bus ls_word.2 (CCI_REG_DATA_0 + CCI_WORD_LENGTH)
  Outcome.done (word32 ms_word.1 ls_word.1) ms_word.2

/-- `cci_set_telemetry_enable_state` (`cci.c` lines 121-130). -/
def cci_set_telemetry_enable_state {σ : Type} (bus : Bus σ) (fuel : Nat) (w : World σ) (state : Nat) :
    Outcome σ Unit :=
  let value := state % 4294967296
  (WAIT_FOR_BUSY_DEASSERT bus fuel w).bind fun _ w =>
  let w := (cci_write_register bus w CCI_REG_DATA_0 (value &&& 0xffff)).2
  let w := (cci_write_register bus w (CCI_REG_DATA_0 + CCI_WORD_LENGTH) ((value >>> 16) &&& 0xffff)).2
  let w := (cci_write_register bus w CCI_REG_COMMAND CCI_CMD_SYS_SET_TELEMETRY_ENABLE_STATE).2
  let w := (cci_write_register bus w CCI_REG_DATA_LENGTH 2).2
  WAIT_FOR_BUSY_DEASSERT bus fuel w

/-- `cci_get_telemetry_enable_state` (`cci.c` lines 135-144). -/
def cci_get_telemetry_enable_state {σ : Type} (bus : Bus σ) (fuel : Nat) (w : World σ) : Outcome σ Nat :=
  (WAIT_FOR_BUSY_DEASSERT bus fuel w).bind fun _ w =>
  let w := (cci_write_register bus w CCI_REG_DATA_LENGTH 2).2
  let w := (cci_write_register bus w CCI_REG_COMMAND CCI_CMD_SYS_GET_TELEMETRY_ENABLE_STATE).2
  (WAIT_FOR_BUSY_DEASSERT bus fuel w).bind fun _ w =>
  let ls_word := cci_read_register bus w CCI_REG_DATA_0
  let ms_word := cci_read_register bus ls_word.2 (CCI_REG_DATA_0 + CCI_WORD_LENGTH)
  Outcome.done (word32 ms_word.1 ls_word.1) ms_word.2

/-- `cci_set_telemetry_location` (`cci.c` lines 149-158). -/
def cci_set_telemetry_location {σ : Type} (bus : Bus σ) (fuel : Nat) (w : World σ) (location : Nat) :
    Outcome σ Unit :=
  let value := location % 4294967296
  (WAIT_FOR_BUSY_DEASSERT bus fuel w).bind fun _ w =>
  let w := (cci_write_register bus w CCI_REG_DATA_0 (value &&& 0xffff)).2
  let w := (cci_write_register bus w (CCI_REG_DATA_0 + CCI_WORD_LENGTH) ((value >>> 16) &&& 0xffff)).2
  let w := (cci_write_register bus w CCI_REG_COMMAND CCI_CMD_SYS_SET_TELEMETRY_LOCATION).2
  let w := (cci_write_register bus w CCI_REG_DATA_LENGTH 2).2
  WAIT_FOR_BUSY_DEASSERT bus fuel w

/-- `cci_get_telemetry_location` (`cci.c` lines 163-172). -/
def cci_get_telemetry_location {σ : Type} (bus : Bus σ) (fuel : Nat) (w : World σ) : Outcome σ Nat :=
  (WAIT_FOR_BUSY_DEASSERT bus fuel w).bind fun _ w =>
  let w := (cci_write_register bus w CCI_REG_DATA_LENGTH 2).2
  let w := (cci_write_register bus w CCI_REG_COMMAND CCI_CMD_SYS_GET_TELEMETRY_LOCATION).2
  (WAIT_FOR_BUSY_DEASSERT bus fuel w).bind fun _ w =>
  let ls_word := cci_read_register bus w CCI_REG_DATA_0
  let ms_word := cci_read_register bus ls_word.2 (CCI_REG_DATA_0 + CCI_WORD_LENGTH)
  Outcome.done (word32 ms_word.1 ls_word.1) ms_word.2

/-- `cci_set_radiometry_enable_state` (`cci.c` lines 177-186). -/
def cci_set_radiometry_enable_state {σ : Type} (bus : Bus σ) (fuel : Nat) (w : World σ) (state : Nat) :
    Outcome σ Unit :=
  let value := state % 4294967296
  (WAIT_FOR_BUSY_DEASSERT bus fuel w).bind fun _ w =>
  let w := (cci_write_register bus w CCI_REG_DATA_0 (value &&& 0xffff)).2
  let w := (cci_write_register bus w (CCI_REG_DATA_0 + CCI_WORD_LENGTH) ((value >>> 16) &&& 0xffff)).2
  let w := (cci_write_register bus w CCI_REG_COMMAND CCI_CMD_RAD_SET_RADIOMETRY_ENABLE_STATE).2
  let w := (cci_write_register bus w CCI_REG_DATA_LENGTH 2).2
  WAIT_FOR_BUSY_DEASSERT bus fuel w

/-- `cci_get_radiometry_enable_state` (`cci.c` lines 191-200). -/
def cci_get_radiometry_enable_state {σ : Type} (bus : Bus σ) (fuel : Nat) (w : World σ) : Outcome σ Nat :=
  (WAIT_FOR_BUSY_DEASSERT bus fuel w).bind fun _ w =>
  let w := (cci_write_register bus w CCI_REG_DATA_LENGTH 2).2
  let w := (cci_write_register bus w CCI_REG_COMMAND CCI_CMD_RAD_GET_RADIOMETRY_ENABLE_STATE).2
  (WAIT_FOR_BUSY_DEASSERT bus fuel w).bind fun _ w =>
  let ls_word := cci_read_register bus w CCI_REG_DATA_0
  let ms_word := cci_read_register bus ls_word.2 (CCI_REG_DATA_0 + CCI_WORD_LENGTH)
  Outcome.done (word32 ms_word.1 ls_word.1) ms_word.2

/-- `cci_set_radiometry_tlinear_enable_state` (`cci.c` lines 205-214). -/
def cci_set_radiometry_tlinear_enable_state {σ : Type} (bus : Bus σ) (fuel : Nat) (w : World σ) (state : Nat) :
    Outcome σ Unit :=
  let value := state % 4294967296
  (WAIT_FOR_BUSY_DEASSERT bus fuel w).bind fun _ w =>
  let w := (cci_write_register bus w CCI_REG_DATA_0 (value &&& 0xffff)).2
  let w := (cci_write_register bus w (CCI_REG_DATA_0 + CCI_WORD_LENGTH) ((value >>> 16) &&& 0xffff)).2
  let w := (cci_write_register bus w CCI_REG_COMMAND CCI_CMD_RAD_SET_RADIOMETRY_TLINEAR_ENABLE_STATE).2
  let w := (cci_write_register bus w CCI_REG_DATA_LENGTH 2).2
  WAIT_FOR_BUSY_DEASSERT bus fuel w

/-- `cci_get_radiometry_tlinear_enable_state` (`cci.c` lines 219-228). -/
def cci_get_radiometry_tlinear_enable_state {σ : Type} (bus : Bus σ) (fuel : Nat) (w : World σ) : Outcome σ Nat :=
  (WAIT_FOR_BUSY_DEASSERT bus fuel w).bind fun _ w =>
  let w := (cci_write_register bus w CCI_REG_DATA_LENGTH 2).2
  let w := (cci_write_register bus w CCI_REG_COMMAND CCI_CMD_RAD_GET_RADIOMETRY_TLINEAR_ENABLE_STATE).2
  (WAIT_FOR_BUSY_DEASSERT bus fuel w).bind fun _ w =>
  let ls_word := cci_read_register bus w CCI_REG_DATA_0
  let ms_word := cci_read_register bus ls_word.2 (CCI_REG_DATA_0 + CCI_WORD_LENGTH)
  Outcome.done (word32 ms_word.1 ls_word.1) ms_word.2

/-- `cci_get_agc_enable_state` (`cci.c` lines 233-242). -/
def cci_get_agc_enable_state {σ : Type} (bus : Bus σ) (fuel : Nat) (w : World σ) : Outcome σ Nat :=
  (WAIT_FOR_BUSY_DEASSERT bus fuel w).bind fun _ w =>
  let w := (cci_write_register bus w CCI_REG_DATA_LENGTH 2).2
  let w := (cci_write_register bus w CCI_REG_COMMAND CCI_CMD_AGC_GET_AGC_ENABLE_STATE).2
  (WAIT_FOR_BUSY_DEASSERT bus fuel w).bind fun _ w =>
  let ls_word := cci_read_register bus w CCI_REG_DATA_0
  let ms_word := cci_read_register bus ls_word.2 (CCI_REG_DATA_0 + CCI_WORD_LENGTH)
  Outcome.done (word32 ms_word.1 ls_word.1) ms_word.2

/-- `cci_set_agc_enable_state` (`cci.c` lines 247-256). -/
def cci_set_agc_enable_state {σ : Type} (bus : Bus σ) (fuel : Nat) (w : World σ) (state : Nat) :
    Outcome σ Unit :=
  let value := state % 4294967296
  (WAIT_FOR_BUSY_DEASSERT bus fuel w).bind fun _ w =>
  let w := (cci_write_register bus w CCI_REG_DATA_0 (value &&& 0xffff)).2
  let w := (cci_write_register bus w (CCI_REG_DATA_0 + CCI_WORD_LENGTH) ((value >>> 16) &&& 0xffff)).2
  let w := (cci_write_register bus w CCI_REG_COMMAND CCI_CMD_AGC_SET_AGC_ENABLE_STATE).2
  let w := (cci_write_register bus w CCI_REG_DATA_LENGTH 2).2
  WAIT_FOR_BUSY_DEASSERT bus fuel w

/-- `cci_get_agc_calc_enable_state` (`cci.c` lines 260-269). -/
def cci_get_agc_calc_enable_state {σ : Type} (bus : Bus σ) (fuel : Nat) (w : World σ) : Outcome σ Nat :=
  (WAIT_FOR_BUSY_DEASSERT bus fuel w).bind fun _ w =>
  let w := (cci_write_register bus w CCI_REG_DATA_LENGTH 2).2
  let w := (cci_write_register bus w CCI_REG_COMMAND CCI_CMD_AGC_GET_CALC_ENABLE_STATE).2
  (WAIT_FOR_BUSY_DEASSERT bus fuel w).bind fun _ w =>
  let ls_word := cci_read_register bus w CCI_REG_DATA_0
  let ms_word := cci_read_register bus ls_word.2 (CCI_REG_DATA_0 + CCI_WORD_LENGTH)
  Outcome.done (word32 ms_word.1 ls_word.1) ms_word.2

/-- `cci_set_agc_calc_enable_state` (`cci.c` lines 274-283). -/
def cci_set_agc_calc_enable_state {σ : Type} (bus : Bus σ) (fuel : Nat) (w : World σ) (state : Nat) :
    Outcome σ Unit :=
  let value := state % 4294967296
  (WAIT_FOR_BUSY_DEASSERT bus fuel w).bind fun _ w =>
  let w := (cci_write_register bus w CCI_REG_DATA_0 (value &&& 0xffff)).2
  let w := (cci_write_register bus w (CCI_REG_DATA_0 + CCI_WORD_LENGTH) ((value >>> 16) &&& 0xffff)).2
  let w := (cci_write_register bus w CCI_REG_COMMAND CCI_CMD_AGC_SET_CALC_ENABLE_STATE).2
  let w := (cci_write_register bus w CCI_REG_DATA_LENGTH 2).2
  WAIT_FOR_BUSY_DEASSERT bus fuel w

/-- `cci_get_gpio_mode` (`cci.c` lines 288-297). -/
def cci_get_gpio_mode {σ : Type} (bus : Bus σ) (fuel : Nat) (w : World σ) : Outcome σ Nat :=
  (WAIT_FOR_BUSY_DEASSERT bus fuel w).bind fun _ w =>
  let w := (cci_write_register bus w CCI_REG_DATA_LENGTH 2).2
  let w := (cci_write_register bus w CCI_REG_COMMAND CCI_CMD_OEM_GET_GPIO_MODE).2
  (WAIT_FOR_BUSY_DEASSERT bus fuel w).bind fun _ w =>
  let ls_word := cci_read_register bus w CCI_REG_DATA_0
  let ms_word := cci_read_register bus ls_word.2 (CCI_REG_DATA_0 + CCI_WORD_LENGTH)
  Outcome.done (word32 ms_word.1 ls_word.1) ms_word.2

/-- `cci_set_gpio_mode` (`cci.c` lines 299-308). -/
def cci_set_gpio_mode {σ : Type} (bus : Bus σ) (fuel : Nat) (w : World σ) (state : Nat) :
    Outcome σ Unit :=
  let value := state % 4294967296
  (WAIT_FOR_BUSY_DEASSERT bus fuel w).bind fun _ w =>
  let w := (cci_write_register bus w CCI_REG_DATA_0 (value &&& 0xffff)).2
  let w := (cci_write_register bus w (CCI_REG_DATA_0 + CCI_WORD_LENGTH) ((value >>> 16) &&& 0xffff)).2
  let w := (cci_write_register bus w CCI_REG_COMMAND CCI_CMD_OEM_SET_GPIO_MODE).2
  let w := (cci_write_register bus w CCI_REG_DATA_LENGTH 2).2
  WAIT_FOR_BUSY_DEASSERT bus fuel w

/-- `cc_run_oem_reboot` (`cci.c` lines 313-320). -/
def cc_run_oem_reboot {σ : Type} (bus : Bus σ) (fuel : Nat) (w : World σ) : Outcome σ Unit :=
  (WAIT_FOR_BUSY_DEASSERT bus fuel w).bind fun _ w =>
  let w := (cci_write_register bus w CCI_REG_COMMAND CCI_CMD_OEM_RUN_REBOOT).2
  let w := sys_sleep w 6
  WAIT_FOR_BUSY_DEASSERT bus fuel w

/-! ## The three families of command operations -/

/-- The operations that return a 32-bit value. -/
inductive GetOp where
  | uptime | telemetry_enable_state | telemetry_location | radiometry_enable_state
  | radiometry_tlinear_enable_state | agc_enable_state | agc_calc_enable_state | gpio_mode
  deriving DecidableEq, Repr

/-- The operations that take a 32-bit argument. -/
inductive SetOp where
  | telemetry_enable_state | telemetry_location | radiometry_enable_state
  | radiometry_tlinear_enable_state | agc_enable_state | agc_calc_enable_state | gpio_mode
  deriving DecidableEq, Repr

/-- The operations without payload. -/
inductive RunOp where
  | ffc | oem_reboot
  deriving DecidableEq, Repr

/-- The C function of a GET operation. -/
def GetOp.run {σ : Type} (op : GetOp) (bus : Bus σ) (fuel : Nat) (w : World σ) :
    Outcome σ Nat :=
  match op with
  | GetOp.uptime => cci_get_uptime bus fuel w
  | GetOp.telemetry_enable_state => cci_get_telemetry_enable_state bus fuel w
  | GetOp.telemetry_location => cci_get_telemetry_location bus fuel w
  | GetOp.radiometry_enable_state => cci_get_radiometry_enable_state bus fuel w
  | GetOp.radiometry_tlinear_enable_state => cci_get_radiometry_tlinear_enable_state bus fuel w
  | GetOp.agc_enable_state => cci_get_agc_enable_state bus fuel w
  | GetOp.agc_calc_enable_state => cci_get_agc_calc_enable_state bus fuel w
  | GetOp.gpio_mode => cci_get_gpio_mode bus fuel w

/-- The command ID a GET operation writes to COMMAND. -/
def GetOp.cmd : GetOp → Nat
  | GetOp.uptime => 0x020C
  | GetOp.telemetry_enable_state => 0x0218
  | GetOp.telemetry_location => 0x0220
  | GetOp.radiometry_enable_state => 0x4E10
  | GetOp.radiometry_tlinear_enable_state => 0x4EC0
  | GetOp.agc_enable_state => 0x0100
  | GetOp.agc_calc_enable_state => 0x0148
  | GetOp.gpio_mode => 0x4854

/-- The C function of a SET operation. -/
def SetOp.run {σ : Type} (op : SetOp) (bus : Bus σ) (fuel : Nat) (w : World σ) (arg : Nat) :
    Outcome σ Unit :=
  match op with
  | SetOp.telemetry_enable_state => cci_set_telemetry_enable_state bus fuel w arg
  | SetOp.telemetry_location => cci_set_telemetry_location bus fuel w arg
  | SetOp.radiometry_enable_state => cci_set_radiometry_enable_state bus fuel w arg
  | SetOp.radiometry_tlinear_enable_state => cci_set_radiometry_tlinear_enable_state bus fuel w arg
  | SetOp.agc_enable_state => cci_set_agc_enable_state bus fuel w arg
  | SetOp.agc_calc_enable_state => cci_set_agc_calc_enable_state bus fuel w arg
  | SetOp.gpio_mode => cci_set_gpio_mode bus fuel w arg

/-- The command ID a SET operation writes to COMMAND. -/
def SetOp.cmd : SetOp → Nat
  | SetOp.telemetry_enable_state => 0x0219
  | SetOp.telemetry_location => 0x0221
  | SetOp.radiometry_enable_state => 0x4E11
  | SetOp.radiometry_tlinear_enable_state => 0x4EC1
  | SetOp.agc_enable_state => 0x0101
  | SetOp.agc_calc_enable_state => 0x0149
  | SetOp.gpio_mode => 0x4855

/-- The GET operation that reads back what a SET operation sets. -/
def SetOp.getter : SetOp → GetOp
  | SetOp.telemetry_enable_state => GetOp.telemetry_enable_state
  | SetOp.telemetry_location => GetOp.telemetry_location
  | SetOp.radiometry_enable_state => GetOp.radiometry_enable_state
  | SetOp.radiometry_tlinear_enable_state => GetOp.radiometry_tlinear_enable_state
  | SetOp.agc_enable_state => GetOp.agc_enable_state
  | SetOp.agc_calc_enable_state => GetOp.agc_calc_enable_state
  | SetOp.gpio_mode => GetOp.gpio_mode

/-- The C function of a RUN operation. -/
def RunOp.run {σ : Type} (op : RunOp) (bus : Bus σ) (fuel : Nat) (w : World σ) :
    Outcome σ Unit :=
  match op with
  | RunOp.ffc => cci_run_ffc bus fuel w
  | RunOp.oem_reboot => cc_run_oem_reboot bus fuel w

/-- The command ID a RUN operation writes to COMMAND. -/
def RunOp.cmd : RunOp → Nat
  | RunOp.ffc => 0x0242
  | RunOp.oem_reboot => 0x4840

/-! ## The consumer program -/

/-- `main` of `reboot_lep.c` (lines 15-53).  `open_ret` is what
`open(i2c_dev, O_RDWR)` returned; the result of `cci_init` is not looked at;
`close(fd)` ends the life of the handle and is not recorded. -/
def main {σ : Type} (bus : Bus σ) (fuel : Nat) (w : World σ) (open_ret : Int) :
    Outcome σ Int :=
  let fd := open_ret
  if fd < 0 then Outcome.done (-1) w
  else
    let w := (cci_init bus w).2
    (cc_run_oem_reboot bus fuel w).bind fun _ w =>
    (cci_get_gpio_mode bus fuel w).bind fun resp w =>
    if resp ≠ 5 then
      (cci_set_gpio_mode bus fuel w CCI_GPIO_MODE_VSYNC).bind fun _ w =>
      (cci_get_gpio_mode bus fuel w).bind fun _ w =>
      Outcome.done 0 w
    else
      (cci_get_gpio_mode bus fuel w).bind fun _ w =>
      Outcome.done 0 w

/-- A scripted bus: the `i`-th write returns `wr i`, the `j`-th read answers
`rd j`, whatever is written.  The state counts the writes and reads so far. -/
def streamBus (wr : Nat → Int) (rd : Nat → Option (List Nat)) : Bus (Nat × Nat) where
  ioctl := fun s _ _ => (0, s)
  write := fun s _ => (wr s.1, (s.1 + 1, s.2))
  read := fun s _ => (rd s.2, (s.1, s.2 + 1))

/-- State of the register-file mock: the register contents and the register
selected by the last 2-byte address write. -/
structure RegFile where
  regs : Nat → Nat
  sel : Nat

/-- The register-file mock: a 4-byte frame stores its value at its register,
a 2-byte write selects the register that the next read returns big-endian,
and STATUS always reads `0x0006`.  Every write is accepted in full. -/
def regFileBus : Bus RegFile where
  ioctl := fun s _ _ => (0, s)
  write := fun s buf =>
    match buf with
    | [a, b, c, d] =>
      ((buf.length : Int),
       { s with regs := fun r => if r = a * 256 + b then c * 256 + d else s.regs r })
    | [a, b] => ((buf.length : Int), { s with sel := a * 256 + b })
    | _ => ((buf.length : Int), s)
  read := fun s count =>
    let v := if s.sel = CCI_REG_STATUS then 0x0006 else s.regs s.sel
    (some ([v / 256 % 256, v % 256].take count), s)

/-- The bus `bus` with every write of a 4-byte register frame rejected:
`write` returns -1 and the device stays as it was. -/
def rejectFrames {σ : Type} (bus : Bus σ) : Bus σ :=
  { bus with write := fun s buf => if buf.length = 4 then (-1, s) else bus.write s buf }

/-- A world in which nothing has happened yet. -/
def World.init {σ : Type} (dev : σ) : World σ :=
  { dev := dev, trace := [], cci_last_read_count := 0 }

/-! ## Vocabulary for traces -/

/-- The answer of a 2-byte STATUS read lets the handshake stop: both bytes
arrived and the low byte masked with `0x07` is `0x06`. -/
def readyRes : Option (List Nat) → Bool
  | some [_, b] => (b &&& 0x07) == 0x06
  | _ => false

/-- The trace is one completed handshake: polls (STATUS address write
`[0x00, 0x02]`, then a 2-byte read), of which the last one, and only the last
one, got a ready answer. -/
def handshakeTrace : List Event → Bool
  | Event.write buf _ :: Event.read count res :: rest =>
    buf == [0x00, 0x02] && count == 2 &&
      (if readyRes res then rest.isEmpty else handshakeTrace rest)
  | _ => false

/-- The trace consists of polls only, none of which got a ready answer. -/
def busyPolls : List Event → Bool
  | [] => true
  | Event.write buf _ :: Event.read count res :: rest =>
    buf == [0x00, 0x02] && count == 2 && !readyRes res && busyPolls rest
  | _ => false

/-- The event is the write of a 4-byte register frame. -/
def Event.isFrame : Event → Bool
  | Event.write buf _ => buf.length == 4
  | _ => false

/-- The 4-byte register frame for `(reg, value)`: address big-endian, then
value big-endian. -/
def frame (reg value : Nat) : List Nat :=
  [reg >>> 8, reg &&& 0xFF, value >>> 8, value &&& 0xFF]

/-- The (register, value) a write of a 4-byte frame carries. -/
def Event.decodeFrame : Event → Option (Nat × Nat)
  | Event.write [a, b, c, d] _ => some (a * 256 + b, c * 256 + d)
  | _ => none

/-- The register writes of a trace in order, each 4-byte frame decoded to
(register, value). -/
def registerWrites (t : List Event) : List (Nat × Nat) :=
  t.filterMap Event.decodeFrame

/-- The register writes of a SET operation between its two handshakes
(`cci.c` lines 125-128 and the like). -/
def setBody {σ : Type} (bus : Bus σ) (cmd arg : Nat) (w : World σ) : World σ :=
  let value := arg % 4294967296
  let w := (cci_write_register bus w CCI_REG_DATA_0 (value &&& 0xffff)).2
  let w := (cci_write_register bus w (CCI_REG_DATA_0 + CCI_WORD_LENGTH) ((value >>> 16) &&& 0xffff)).2
  let w := (cci_write_register bus w CCI_REG_COMMAND cmd).2
  (cci_write_register bus w CCI_REG_DATA_LENGTH 2).2

/-- The register writes of a GET operation between its two handshakes
(`cci.c` lines 109-110 and the like). -/
def getBody {σ : Type} (bus : Bus σ) (cmd : Nat) (w : World σ) : World σ :=
  let w := (cci_write_register bus w CCI_REG_DATA_LENGTH 2).2
  (cci_write_register bus w CCI_REG_COMMAND cmd).2

/-- The result reads of a GET operation after its closing handshake
(`cci.c` lines 112-114 and the like). -/
def getTail {σ : Type} (bus : Bus σ) (w : World σ) : Nat × World σ :=
  let ls_word := cci_read_register bus w CCI_REG_DATA_0
  let ms_word := cci_read_register bus ls_word.2 (CCI_REG_DATA_0 + CCI_WORD_LENGTH)
  (word32 ms_word.1 ls_word.1, ms_word.2)

/-- What a RUN operation does between its two handshakes (`cci.c` line 99,
lines 316-318). -/
def runBody {σ : Type} (bus : Bus σ) (op : RunOp) (w : World σ) : World σ :=
  match op with
  | RunOp.ffc => (cci_write_register bus w CCI_REG_COMMAND CCI_CMD_SYS_RUN_FFC).2
  | RunOp.oem_reboot =>
    sys_sleep (cci_write_register bus w CCI_REG_COMMAND CCI_CMD_OEM_RUN_REBOOT).2 6

/-- The polls a scripted bus sees when `k` polls start at write number `i` and
read number `j`. -/
def streamPolls (wr : Nat → Int) (rd : Nat → Option (List Nat)) : Nat → Nat → Nat → List Event
  | _, _, 0 => []
  | i, j, k + 1 =>
    Event.write [0x00, 0x02] (wr i) :: Event.read 2 (delivered 2 (rd j)) ::
      streamPolls wr rd (i + 1) (j + 1) k

/-- A command operation with its argument. -/
inductive CmdOp where
  | get (op : GetOp)
  | set (op : SetOp) (arg : Nat)
  | run (op : RunOp)

/-- Forget the value an operation returned. -/
def Outcome.void {σ α : Type} : Outcome σ α → Outcome σ Unit
  | Outcome.done _ w => Outcome.done () w
  | Outcome.blocked w => Outcome.blocked w

/-- Run a command operation, keeping only whether it returned and the world. -/
def CmdOp.exec {σ : Type} (c : CmdOp) (bus : Bus σ) (fuel : Nat) (w : World σ) :
    Outcome σ Unit :=
  match c with
  | CmdOp.get op => (op.run bus fuel w).void
  | CmdOp.set op arg => op.run bus fuel w arg
  | CmdOp.run op => op.run bus fuel w

/-- One pass through the body of the handshake loop (`cci.c` lines 78-88):
the buffer and the world after it. -/
def pollStep {σ : Type} (bus : Bus σ) (w : World σ) : List Nat × World σ :=
  let r := sys_write bus w [0x00, 0x02]
  let rd := sys_read bus r.2 [0x00, 0x02] 2
  (rd.1.2, { rd.2 with cci_last_read_count := rd.1.1 })

/-- What the bus delivers to the read of a poll started in world `w`. -/
def pollRes {σ : Type} (bus : Bus σ) (w : World σ) : Option (List Nat) :=
  delivered 2 (bus.read (bus.write w.dev [0x00, 0x02]).2 2).1

/-- The event is a STATUS address write, `write [0x00, 0x02]`. -/
def Event.isStatusWrite : Event → Bool
  | Event.write buf _ => buf == [0x00, 0x02]
  | _ => false

/-- The event is a 2-byte read. -/
def Event.isRead2 : Event → Bool
  | Event.read count _ => count == 2
  | _ => false

/-- The trace contains a STATUS poll (address write `[0x00, 0x02]`, then a
2-byte read) whose read delivered two bytes with `(low & 0x07) = 0x06`. -/
def statusReady (p : List Event) : Prop :=
  ∃ a ret b0 b1 b,
    p = a ++ Event.write [0x00, 0x02] ret :: Event.read 2 (some [b0, b1]) :: b ∧
      b1 &&& 0x07 = 0x06

/-- The common shape of the command operations: handshake, then `body`
(register writes), then handshake, then `tail` (result reads, if any). -/
def bracketed {σ : Type} (bus : Bus σ) (fuel : Nat) (w : World σ)
    (body tail : World σ → World σ) : Outcome σ Unit :=
  (WAIT_FOR_BUSY_DEASSERT bus fuel w).bind fun _ w1 =>
    (WAIT_FOR_BUSY_DEASSERT bus fuel (body w1)).bind fun _ w2 =>
      Outcome.done () (tail w2)

/-- What a RUN operation does after its COMMAND write and before its closing
handshake: nothing for the flat-field correction, `sleep(6)` for the reboot. -/
def RunOp.delay : RunOp → List Event
  | RunOp.ffc => []
  | RunOp.oem_reboot => [Event.sleep 6]

/-- The bytes of a 4-byte register frame that the event tries to write. -/
def Event.frameBytes : Event → Option (List Nat)
  | Event.write buf _ => if buf.length = 4 then some buf else none
  | _ => none

/-- The register frames a trace attempts, in order, byte for byte, whatever
the bus answered. -/
def framesAttempted (t : List Event) : List (List Nat) :=
  t.filterMap Event.frameBytes

/-- The operation returned (it is not still polling). -/
def Outcome.isDone {σ α : Type} : Outcome σ α → Bool
  | Outcome.done _ _ => true
  | Outcome.blocked _ => false

/-- What a command operation does between its two handshakes. -/
def CmdOp.body {σ : Type} (bus : Bus σ) : CmdOp → World σ → World σ
  | CmdOp.get op => getBody bus op.cmd
  | CmdOp.set op arg => setBody bus op.cmd arg
  | CmdOp.run op => runBody bus op

/-- What a command operation does after its closing handshake. -/
def CmdOp.tail {σ : Type} (bus : Bus σ) : CmdOp → World σ → World σ
  | CmdOp.get _ => fun w => (getTail bus w).2
  | CmdOp.set _ _ => fun w => w
  | CmdOp.run _ => fun w => w

/-- Two worlds on two buses correspond: the devices are related by `R` and the
same register frames have been attempted so far. -/
def simWorld {σ1 σ2 : Type} (R : σ1 → σ2 → Prop) (w1 : World σ1) (w2 : World σ2) : Prop :=
  R w1.dev w2.dev ∧ framesAttempted w1.trace = framesAttempted w2.trace

/-- Two buses answer the STATUS polls alike: from related device states a poll
(address write `[0x00, 0x02]`, then 2-byte read) delivers the same bytes on
both and leaves the devices related. -/
def sameStatusReads {σ1 σ2 : Type} (bus1 : Bus σ1) (bus2 : Bus σ2)
    (R : σ1 → σ2 → Prop) : Prop :=
  ∀ s1 s2, R s1 s2 →
    delivered 2 (bus1.read (bus1.write s1 [0x00, 0x02]).2 2).1 =
      delivered 2 (bus2.read (bus2.write s2 [0x00, 0x02]).2 2).1 ∧
    R (bus1.read (bus1.write s1 [0x00, 0x02]).2 2).2
      (bus2.read (bus2.write s2 [0x00, 0x02]).2 2).2

/-- The writes of 4-byte frames keep the devices of two buses related, whatever
number of bytes each of them accepts. -/
def framesKeepRelated {σ1 σ2 : Type} (bus1 : Bus σ1) (bus2 : Bus σ2)
    (R : σ1 → σ2 → Prop) : Prop :=
  ∀ s1 s2 buf, R s1 s2 → buf.length = 4 → R (bus1.write s1 buf).2 (bus2.write s2 buf).2

/-- The events a SET operation adds between its two handshakes on a bus that
accepts every write: DATA_0 <- low word of `V`, DATA_0+2 <- high word of `V`,
COMMAND <- `cmd`, DATA_LENGTH <- 2, in this order. -/
def setFrames (cmd V : Nat) : List Event :=
  [Event.write (frame 0x0008 (V &&& 0xFFFF)) 4,
   Event.write (frame 0x000A ((V >>> 16) &&& 0xFFFF)) 4,
   Event.write (frame 0x0004 cmd) 4,
   Event.write (frame 0x0006 2) 4]

/-- The events a GET operation adds between its two handshakes on a bus that
accepts every write: DATA_LENGTH <- 2, then COMMAND <- `cmd`. -/
def getFrames (cmd : Nat) : List Event :=
  [Event.write (frame 0x0006 2) 4, Event.write (frame 0x0004 cmd) 4]

/-- The events of a handshake that has used up its bound of `fuel` polls
without a ready answer: `fuel` polls, none answered ready. -/
def stillPolling (fuel : Nat) (t : List Event) : Prop :=
  busyPolls t = true ∧ t.length = 2 * fuel

/-- The events of the two result reads of a GET operation on a bus that
completes every transfer: address write `[0x00, 0x08]` and a read of the two
bytes `a0 a1`, then address write `[0x00, 0x0A]` and a read of `c0 c1`. -/
def resultReads (a0 a1 c0 c1 : Nat) : List Event :=
  [Event.write [0x00, 0x08] 2, Event.read 2 (some [a0, a1]),
   Event.write [0x00, 0x0A] 2, Event.read 2 (some [c0, c1])]

/-! ## Bit-level facts -/

theorem and_0xff (x : Nat) : x &&& 0xff = x % 256 := by
  have h := Nat.and_pow_two_sub_one_eq_mod x 8
  simpa using h

theorem and_0xffff (x : Nat) : x &&& 0xffff = x % 65536 := by
  have h := Nat.and_pow_two_sub_one_eq_mod x 16
  simpa using h

theorem shiftRight_8 (x : Nat) : x >>> 8 = x / 256 := by
  simp [Nat.shiftRight_eq_div_pow]

theorem shiftRight_16 (x : Nat) : x >>> 16 = x / 65536 := by
  simp [Nat.shiftRight_eq_div_pow]

theorem shiftLeft_8_or (a b : Nat) (hb : b < 256) : (a <<< 8) ||| b = a * 256 + b := by
  have h := Nat.mul_add_lt_is_or (show b < 2 ^ 8 by simpa using hb) a
  rw [Nat.shiftLeft_eq, Nat.mul_comm a, ← h]

theorem shiftLeft_16_or (a b : Nat) (hb : b < 65536) : (a <<< 16) ||| b = a * 65536 + b := by
  have h := Nat.mul_add_lt_is_or (show b < 2 ^ 16 by simpa using hb) a
  rw [Nat.shiftLeft_eq, Nat.mul_comm a, ← h]

/-- The 4-byte buffer `cci_write_register` builds, for 16-bit arguments. -/
theorem write_buf_eq (reg value : Nat) (hreg : reg < 65536) (hval : value < 65536) :
    [((reg % 65536) >>> 8) &&& 0xff, (reg % 65536) &&& 0xff,
      ((value % 65536) >>> 8) &&& 0xff, (value % 65536) &&& 0xff] =
    [reg >>> 8, reg &&& 0xFF, value >>> 8, value &&& 0xFF] := by
  rw [Nat.mod_eq_of_lt hreg, Nat.mod_eq_of_lt hval]
  simp only [and_0xff, shiftRight_8]
  have h1 : reg / 256 % 256 = reg / 256 := Nat.mod_eq_of_lt (by omega)
  have h2 : value / 256 % 256 = value / 256 := Nat.mod_eq_of_lt (by omega)
  rw [h1, h2]

/-! ## Register layer: wire format -/

/-- C1: for 16-bit `reg` and `value`, `cci_write_register` makes exactly one
system call, a write whose buffer is the 4-byte frame
`[reg >> 8, reg & 0xFF, value >> 8, value & 0xFF]`, whatever the bus answers
(the answer is only recorded). -/
theorem cci_write_register_frame {σ : Type} (bus : Bus σ) (w : World σ) (reg value : Nat)
    (hreg : reg < 65536) (hval : value < 65536) :
    (cci_write_register bus w reg value).2.trace =
      w.trace ++ [Event.write [reg >>> 8, reg &&& 0xFF, value >>> 8, value &&& 0xFF]
        (bus.write w.dev [reg >>> 8, reg &&& 0xFF, value >>> 8, value &&& 0xFF]).1] := by
  have hb := write_buf_eq reg value hreg hval
  unfold cci_write_register
  simp only [hb, sys_write]
  split <;> rfl

/-- C1 at COMMAND <- SET_TELEMETRY_LOCATION on a bus that rejects the write. -/
theorem cci_write_register_frame_witness :
    (0x0004 < 65536 ∧ 0x0221 < 65536) ∧
    (cci_write_register (streamBus (fun _ => -1) (fun _ => none)) (World.init (0, 0))
        0x0004 0x0221).2.trace =
      [Event.write [0x00, 0x04, 0x02, 0x21] (-1)] :=
  ⟨by decide,
   cci_write_register_frame (streamBus (fun _ => -1) (fun _ => none)) (World.init (0, 0))
     0x0004 0x0221 (by decide) (by decide)⟩

/-- The 2-byte address buffer `cci_read_register` builds, for a 16-bit address. -/
theorem addr_buf_eq (reg : Nat) (hreg : reg < 65536) :
    [((reg % 65536) >>> 8) % 256, (reg % 65536) &&& 0xff] = [reg >>> 8, reg &&& 0xFF] := by
  rw [Nat.mod_eq_of_lt hreg]
  simp only [shiftRight_8]
  have h1 : reg / 256 % 256 = reg / 256 := Nat.mod_eq_of_lt (by omega)
  rw [h1]

/-- C2: for a 16-bit `reg`, on a bus that accepts the 2-byte address write in
full and then delivers the two bytes `b0`, `b1`, `cci_read_register` first
writes exactly `[reg >> 8, reg & 0xFF]`, then reads 2 bytes, makes no other
call, and returns `b0 * 256 + b1`, which is `b0 << 8 | b1`. -/
theorem cci_read_register_value {σ : Type} (bus : Bus σ) (w : World σ) (reg b0 b1 : Nat)
    (hreg : reg < 65536) (hb0 : b0 < 256) (hb1 : b1 < 256)
    (hw : (bus.write w.dev [reg >>> 8, reg &&& 0xFF]).1 = 2)
    (hr : (bus.read (bus.write w.dev [reg >>> 8, reg &&& 0xFF]).2 2).1 = some [b0, b1]) :
    (cci_read_register bus w reg).1 = b0 * 256 + b1 ∧
    b0 * 256 + b1 = (b0 <<< 8) ||| b1 ∧
    (cci_read_register bus w reg).2.trace =
      w.trace ++ [Event.write [reg >>> 8, reg &&& 0xFF] 2, Event.read 2 (some [b0, b1])] := by
  have hb := addr_buf_eq reg hreg
  have hor := shiftLeft_8_or b0 b1 hb1
  have hm0 : b0 % 256 = b0 := Nat.mod_eq_of_lt hb0
  have hm1 : b1 % 256 = b1 := Nat.mod_eq_of_lt hb1
  have hlt : b0 * 256 + b1 < 65536 := by omega
  unfold cci_read_register
  simp only [hb, sys_write, sys_read, hw, hr, delivered, readCount, readInto]
  simp [hm0, hm1, hor, Nat.mod_eq_of_lt hlt]

/-- C2 at DATA_0 on the register-file mock holding `0xCDEF` there. -/
theorem cci_read_register_value_witness :
    (0x0008 < 65536 ∧ 0xCD < 256 ∧ 0xEF < 256) ∧
    (cci_read_register regFileBus
        (World.init ⟨fun r => if r = 0x0008 then 0xCDEF else 0, 0⟩) 0x0008).1 = 0xCD * 256 + 0xEF ∧
    0xCD * 256 + 0xEF = (0xCD <<< 8) ||| 0xEF ∧
    (cci_read_register regFileBus
        (World.init ⟨fun r => if r = 0x0008 then 0xCDEF else 0, 0⟩) 0x0008).2.trace =
      [Event.write [0x00, 0x08] 2, Event.read 2 (some [0xCD, 0xEF])] :=
  ⟨by decide,
   cci_read_register_value regFileBus
     (World.init ⟨fun r => if r = 0x0008 then 0xCDEF else 0, 0⟩) 0x0008 0xCD 0xEF
     (by decide) (by decide) (by decide) rfl rfl⟩

/-! ## Busy handshake: unfolding the loop -/

theorem pollStep_trace {σ : Type} (bus : Bus σ) (w : World σ) :
    (pollStep bus w).2.trace =
      w.trace ++ [Event.write [0x00, 0x02] (bus.write w.dev [0x00, 0x02]).1,
        Event.read 2 (pollRes bus w)] := by
  simp [pollStep, pollRes, sys_write, sys_read]

theorem pollStep_buf {σ : Type} (bus : Bus σ) (w : World σ) :
    (pollStep bus w).1 = readInto [0x00, 0x02] (pollRes bus w) := by
  simp [pollStep, pollRes, sys_write, sys_read]

/-- The loop test on the buffer after a poll is `readyRes` of what was delivered. -/
theorem ready_after_read (res : Option (List Nat)) :
    ((readInto [0x00, 0x02] (delivered 2 res)).getD 1 0 &&& 0x07 = 0x06) ↔
      readyRes (delivered 2 res) = true := by
  have h2 : ¬ (2 &&& 7 = 6) := by decide
  cases res with
  | none => simpa [delivered, readInto, readyRes] using h2
  | some bs =>
    cases bs with
    | nil => simpa [delivered, readInto, readyRes] using h2
    | cons x t =>
      cases t with
      | nil => simpa [delivered, readInto, readyRes] using h2
      | cons y t2 => simp [delivered, readInto, readyRes]

theorem pollStep_ready {σ : Type} (bus : Bus σ) (w : World σ) :
    ((pollStep bus w).1.getD 1 0 &&& 0x07 = 0x06) ↔ readyRes (pollRes bus w) = true := by
  rw [pollStep_buf]
  exact ready_after_read _

theorem loop_ready {σ : Type} (bus : Bus σ) (fuel : Nat) (w : World σ) (buf : List Nat)
    (h : buf.getD 1 0 &&& 0x07 = 0x06) :
    cci_wait_busy_clear_loop bus fuel w buf = Outcome.done () w := by
  cases fuel <;> simp only [cci_wait_busy_clear_loop, ne_eq, h, not_true_eq_false, ↓reduceIte]

theorem loop_zero {σ : Type} (bus : Bus σ) (w : World σ) (buf : List Nat)
    (h : ¬ buf.getD 1 0 &&& 0x07 = 0x06) :
    cci_wait_busy_clear_loop bus 0 w buf = Outcome.blocked w := by
  simp only [cci_wait_busy_clear_loop, ne_eq, h, not_false_eq_true, ↓reduceIte]

theorem loop_succ {σ : Type} (bus : Bus σ) (fuel : Nat) (w : World σ) (buf : List Nat)
    (h : ¬ buf.getD 1 0 &&& 0x07 = 0x06) :
    cci_wait_busy_clear_loop bus (fuel + 1) w buf =
      cci_wait_busy_clear_loop bus fuel (pollStep bus w).2 (pollStep bus w).1 := by
  simp only [cci_wait_busy_clear_loop, ne_eq, h, not_false_eq_true, ↓reduceIte, pollStep]

/-! ## Busy handshake: the shape of its trace -/

theorem handshakeTrace_poll (ret : Int) (res : Option (List Nat)) (rest : List Event) :
    handshakeTrace (Event.write [0x00, 0x02] ret :: Event.read 2 res :: rest) =
      (if readyRes res then rest.isEmpty else handshakeTrace rest) := by
  simp [handshakeTrace]

theorem busyPolls_poll (ret : Int) (res : Option (List Nat)) (rest : List Event) :
    busyPolls (Event.write [0x00, 0x02] ret :: Event.read 2 res :: rest) =
      (!readyRes res && busyPolls rest) := by
  simp [busyPolls]

/-- When the loop returns, either the buffer was ready at entry and nothing
happened, or the events it added form one completed handshake. -/
theorem loop_done {σ : Type} (bus : Bus σ) :
    ∀ (fuel : Nat) (w : World σ) (buf : List Nat) (w' : World σ),
      cci_wait_busy_clear_loop bus fuel w buf = Outcome.done () w' →
      (buf.getD 1 0 &&& 0x07 = 0x06 ∧ w' = w) ∨
      (¬ buf.getD 1 0 &&& 0x07 = 0x06 ∧
        ∃ t, w'.trace = w.trace ++ t ∧ handshakeTrace t = true) := by
  intro fuel
  induction fuel with
  | zero =>
    intro w buf w' hd
    by_cases h : buf.getD 1 0 &&& 0x07 = 0x06
    · rw [loop_ready bus 0 w buf h] at hd
      injection hd with _ hw
      exact Or.inl ⟨h, hw.symm⟩
    · rw [loop_zero bus w buf h] at hd
      cases hd
  | succ n ih =>
    intro w buf w' hd
    by_cases h : buf.getD 1 0 &&& 0x07 = 0x06
    · rw [loop_ready bus (n + 1) w buf h] at hd
      injection hd with _ hw
      exact Or.inl ⟨h, hw.symm⟩
    · rw [loop_succ bus n w buf h] at hd
      refine Or.inr ⟨h, ?_⟩
      rcases ih _ _ _ hd with ⟨hr, hw⟩ | ⟨hnr, t, ht, hh⟩
      · refine ⟨[Event.write [0x00, 0x02] (bus.write w.dev [0x00, 0x02]).1,
          Event.read 2 (pollRes bus w)], ?_, ?_⟩
        · rw [hw, pollStep_trace]
        · rw [pollStep_ready] at hr
          rw [handshakeTrace_poll, hr]
          rfl
      · refine ⟨Event.write [0x00, 0x02] (bus.write w.dev [0x00, 0x02]).1 ::
          Event.read 2 (pollRes bus w) :: t, ?_, ?_⟩
        · rw [ht, pollStep_trace, List.append_assoc]
          rfl
        · rw [pollStep_ready] at hnr
          rw [handshakeTrace_poll]
          simp [hnr, hh]

/-- When the loop runs out of polls, the events it added are exactly `fuel`
polls, none of them answered ready. -/
theorem loop_blocked {σ : Type} (bus : Bus σ) :
    ∀ (fuel : Nat) (w : World σ) (buf : List Nat) (w' : World σ),
      cci_wait_busy_clear_loop bus fuel w buf = Outcome.blocked w' →
      ¬ buf.getD 1 0 &&& 0x07 = 0x06 ∧
        ∃ t, w'.trace = w.trace ++ t ∧ busyPolls t = true ∧ t.length = 2 * fuel := by
  intro fuel
  induction fuel with
  | zero =>
    intro w buf w' hd
    by_cases h : buf.getD 1 0 &&& 0x07 = 0x06
    · rw [loop_ready bus 0 w buf h] at hd
      cases hd
    · rw [loop_zero bus w buf h] at hd
      injection hd with hw
      exact ⟨h, [], by simp [hw], rfl, rfl⟩
  | succ n ih =>
    intro w buf w' hd
    by_cases h : buf.getD 1 0 &&& 0x07 = 0x06
    · rw [loop_ready bus (n + 1) w buf h] at hd
      cases hd
    · rw [loop_succ bus n w buf h] at hd
      refine ⟨h, ?_⟩
      obtain ⟨hnr, t, ht, hb, hl⟩ := ih _ _ _ hd
      refine ⟨Event.write [0x00, 0x02] (bus.write w.dev [0x00, 0x02]).1 ::
        Event.read 2 (pollRes bus w) :: t, ?_, ?_, ?_⟩
      · rw [ht, pollStep_trace, List.append_assoc]
        rfl
      · rw [pollStep_ready] at hnr
        rw [busyPolls_poll]
        simp [hnr, hb]
      · simp [hl]
        omega

/-- The start value `{0x00, 0x07}` of the buffer is not ready. -/
theorem seed_not_ready : ¬ ([0x00, 0x07] : List Nat).getD 1 0 &&& 0x07 = 0x06 := by
  decide

/-- A handshake that returns has added one completed handshake to the trace. -/
theorem wait_done {σ : Type} (bus : Bus σ) (fuel : Nat) (w w' : World σ)
    (h : cci_wait_busy_clear bus fuel w = Outcome.done () w') :
    ∃ t, w'.trace = w.trace ++ t ∧ handshakeTrace t = true := by
  rcases loop_done bus fuel w _ w' h with ⟨hr, _⟩ | ⟨_, ht⟩
  · exact absurd hr seed_not_ready
  · exact ht

/-- A handshake that runs out of polls has added `fuel` unanswered polls. -/
theorem wait_blocked {σ : Type} (bus : Bus σ) (fuel : Nat) (w w' : World σ)
    (h : cci_wait_busy_clear bus fuel w = Outcome.blocked w') :
    ∃ t, w'.trace = w.trace ++ t ∧ busyPolls t = true ∧ t.length = 2 * fuel :=
  (loop_blocked bus fuel w _ w' h).2

/-! ## Command layer: every operation is bracketed by two handshakes -/

theorem setOp_run_eq {σ : Type} (op : SetOp) (bus : Bus σ) (fuel : Nat) (w : World σ)
    (arg : Nat) :
    op.run bus fuel w arg =
      (WAIT_FOR_BUSY_DEASSERT bus fuel w).bind fun _ w1 =>
        WAIT_FOR_BUSY_DEASSERT bus fuel (setBody bus op.cmd arg w1) := by
  cases op <;> rfl

theorem getOp_run_eq {σ : Type} (op : GetOp) (bus : Bus σ) (fuel : Nat) (w : World σ) :
    op.run bus fuel w =
      (WAIT_FOR_BUSY_DEASSERT bus fuel w).bind fun _ w1 =>
        (WAIT_FOR_BUSY_DEASSERT bus fuel (getBody bus op.cmd w1)).bind fun _ w2 =>
          Outcome.done (getTail bus w2).1 (getTail bus w2).2 := by
  cases op <;> rfl

theorem runOp_run_eq {σ : Type} (op : RunOp) (bus : Bus σ) (fuel : Nat) (w : World σ) :
    op.run bus fuel w =
      (WAIT_FOR_BUSY_DEASSERT bus fuel w).bind fun _ w1 =>
        WAIT_FOR_BUSY_DEASSERT bus fuel (runBody bus op w1) := by
  cases op <;> rfl

theorem bind_done {σ α β : Type} (o : Outcome σ α) (f : α → World σ → Outcome σ β)
    (v : β) (w' : World σ) (h : o.bind f = Outcome.done v w') :
    ∃ a w1, o = Outcome.done a w1 ∧ f a w1 = Outcome.done v w' := by
  cases o with
  | done a w1 => exact ⟨a, w1, rfl, h⟩
  | blocked w1 => cases h

theorem bind_blocked {σ α β : Type} (o : Outcome σ α) (f : α → World σ → Outcome σ β)
    (w' : World σ) (h : o.bind f = Outcome.blocked w') :
    o = Outcome.blocked w' ∨ ∃ a w1, o = Outcome.done a w1 ∧ f a w1 = Outcome.blocked w' := by
  cases o with
  | done a w1 => exact Or.inr ⟨a, w1, rfl, h⟩
  | blocked w1 =>
    left
    simpa [Outcome.bind] using h

/-! ## Register layer: effect on the trace -/

theorem frame_eq (reg value : Nat) (hreg : reg < 65536) (hval : value < 65536) :
    [((reg % 65536) >>> 8) &&& 0xff, (reg % 65536) &&& 0xff,
      ((value % 65536) >>> 8) &&& 0xff, (value % 65536) &&& 0xff] = frame reg value :=
  write_buf_eq reg value hreg hval

/-- One register write adds one event, the write of the frame. -/
theorem write_register_trace {σ : Type} (bus : Bus σ) (w : World σ) (reg value : Nat)
    (hreg : reg < 65536) (hval : value < 65536) :
    (cci_write_register bus w reg value).2.trace =
      w.trace ++ [Event.write (frame reg value) (bus.write w.dev (frame reg value)).1] := by
  have hb := frame_eq reg value hreg hval
  unfold cci_write_register
  simp only [hb, sys_write]
  split <;> rfl

theorem frame_length (reg value : Nat) : (frame reg value).length = 4 := rfl

/-- On a bus that accepts every write in full the recorded answer is 4. -/
theorem write_register_trace_acc {σ : Type} (bus : Bus σ) (w : World σ) (reg value : Nat)
    (hreg : reg < 65536) (hval : value < 65536)
    (hacc : ∀ s buf, (bus.write s buf).1 = (buf.length : Int)) :
    (cci_write_register bus w reg value).2.trace =
      w.trace ++ [Event.write (frame reg value) 4] := by
  rw [write_register_trace bus w reg value hreg hval, hacc, frame_length]
  rfl

theorem low_word_lt (v : Nat) : v &&& 0xffff < 65536 := by
  rw [and_0xffff]
  exact Nat.mod_lt _ (by decide)

theorem setOp_cmd_lt (op : SetOp) : op.cmd < 65536 := by
  cases op <;> decide

theorem getOp_cmd_lt (op : GetOp) : op.cmd < 65536 := by
  cases op <;> decide

theorem runOp_cmd_lt (op : RunOp) : op.cmd < 65536 := by
  cases op <;> decide

/-- The four register writes of a SET operation, on a bus that accepts every
write in full. -/
theorem setBody_trace {σ : Type} (bus : Bus σ) (cmd arg : Nat) (w : World σ)
    (hcmd : cmd < 65536) (harg : arg < 4294967296)
    (hacc : ∀ s buf, (bus.write s buf).1 = (buf.length : Int)) :
    (setBody bus cmd arg w).trace =
      w.trace ++ [Event.write (frame 0x0008 (arg &&& 0xFFFF)) 4,
        Event.write (frame 0x000A ((arg >>> 16) &&& 0xFFFF)) 4,
        Event.write (frame 0x0004 cmd) 4,
        Event.write (frame 0x0006 2) 4] := by
  unfold setBody
  simp only [Nat.mod_eq_of_lt harg]
  rw [write_register_trace_acc bus _ _ _ (by decide) (by decide) hacc,
    write_register_trace_acc bus _ _ _ (by decide) hcmd hacc,
    write_register_trace_acc bus _ _ _ (by decide) (low_word_lt _) hacc,
    write_register_trace_acc bus _ _ _ (by decide) (low_word_lt _) hacc]
  simp [CCI_REG_DATA_0, CCI_WORD_LENGTH, CCI_REG_COMMAND, CCI_REG_DATA_LENGTH]

/-! ## Traces of handshakes carry no register frame -/

theorem registerWrites_append (a b : List Event) :
    registerWrites (a ++ b) = registerWrites a ++ registerWrites b := by
  simp [registerWrites]

theorem decodeFrame_frame (reg value : Nat) (ret : Int) :
    (Event.write (frame reg value) ret).decodeFrame = some (reg, value) := by
  simp only [frame, Event.decodeFrame, and_0xff, shiftRight_8, Option.some.injEq, Prod.mk.injEq]
  constructor <;> omega

/-- Polls that start a trace are not register frames. -/
theorem poll_not_frame (ret : Int) (res : Option (List Nat)) :
    (Event.write [0x00, 0x02] ret).isFrame = false ∧ (Event.read 2 res).isFrame = false :=
  ⟨rfl, rfl⟩

theorem readyRes_iff (res : Option (List Nat)) :
    readyRes res = true ↔ ∃ b0 b1, res = some [b0, b1] ∧ b1 &&& 0x07 = 0x06 := by
  match res with
  | none => simp [readyRes]
  | some [] => simp [readyRes]
  | some [_] => simp [readyRes]
  | some [b0, b1] =>
    simp only [readyRes, beq_iff_eq, Option.some.injEq, List.cons.injEq, and_true]
    constructor
    · intro h
      exact ⟨b0, b1, ⟨rfl, rfl⟩, h⟩
    · rintro ⟨_, _, ⟨_, rfl⟩, h⟩
      exact h
  | some (_ :: _ :: _ :: _) => simp [readyRes]

theorem statusReady_append (p q : List Event) (h : statusReady p) : statusReady (p ++ q) := by
  obtain ⟨a, ret, b0, b1, b, hp, hr⟩ := h
  exact ⟨a, ret, b0, b1, b ++ q, by simp [hp], hr⟩

theorem statusReady_cons (e : Event) (p : List Event) (h : statusReady p) :
    statusReady (e :: p) := by
  obtain ⟨a, ret, b0, b1, b, hp, hr⟩ := h
  exact ⟨e :: a, ret, b0, b1, b, by simp [hp], hr⟩

/-- Every event of a completed handshake is a STATUS address write or a
2-byte read, and one of the polls got a ready answer. -/
theorem handshakeTrace_events :
    ∀ (n : Nat) (t : List Event), t.length ≤ n → handshakeTrace t = true →
      (∀ e ∈ t, (∃ ret, e = Event.write [0x00, 0x02] ret) ∨ (∃ res, e = Event.read 2 res)) ∧
      statusReady t := by
  intro n
  induction n with
  | zero =>
    intro t hl hh
    cases t with
    | nil => simp [handshakeTrace] at hh
    | cons a t => simp at hl
  | succ n ih =>
    intro t hl hh
    match t, hl, hh with
    | [], _, hh => simp [handshakeTrace] at hh
    | [_], _, hh => simp [handshakeTrace] at hh
    | Event.write buf ret :: Event.read count res :: rest, hl, hh =>
      simp only [handshakeTrace, Bool.and_eq_true, beq_iff_eq] at hh
      obtain ⟨⟨hbuf, hcount⟩, hrest⟩ := hh
      subst hbuf
      subst hcount
      by_cases hr : readyRes res = true
      · simp only [hr, if_true, List.isEmpty_iff] at hrest
        subst hrest
        obtain ⟨b0, b1, hres, hb⟩ := (readyRes_iff res).mp hr
        subst hres
        refine ⟨?_, [], ret, b0, b1, [], rfl, hb⟩
        intro e he
        simp only [List.mem_cons, List.mem_singleton, List.not_mem_nil, or_false] at he
        rcases he with rfl | rfl
        · exact Or.inl ⟨ret, rfl⟩
        · exact Or.inr ⟨_, rfl⟩
      · simp only [hr, Bool.false_eq_true, if_false] at hrest
        have hl2 : rest.length ≤ n := by
          simp only [List.length_cons] at hl
          omega
        obtain ⟨h1, hsr⟩ := ih rest hl2 hrest
        refine ⟨?_, statusReady_cons _ _ (statusReady_cons _ _ hsr)⟩
        intro e he
        simp only [List.mem_cons] at he
        rcases he with rfl | rfl | he
        · exact Or.inl ⟨ret, rfl⟩
        · exact Or.inr ⟨res, rfl⟩
        · exact h1 e he
    | Event.write _ _ :: Event.write _ _ :: _, _, hh => simp [handshakeTrace] at hh
    | Event.write _ _ :: Event.ioctl _ _ _ :: _, _, hh => simp [handshakeTrace] at hh
    | Event.write _ _ :: Event.sleep _ :: _, _, hh => simp [handshakeTrace] at hh
    | Event.read _ _ :: _ :: _, _, hh => simp [handshakeTrace] at hh
    | Event.ioctl _ _ _ :: _ :: _, _, hh => simp [handshakeTrace] at hh
    | Event.sleep _ :: _ :: _, _, hh => simp [handshakeTrace] at hh

/-- No event of a completed handshake is a register frame. -/
theorem handshakeTrace_no_frame (t : List Event) (h : handshakeTrace t = true) :
    ∀ e ∈ t, e.isFrame = false := by
  intro e he
  rcases (handshakeTrace_events t.length t (Nat.le_refl _) h).1 e he with ⟨ret, rfl⟩ | ⟨res, rfl⟩
  · rfl
  · rfl

theorem registerWrites_of_no_frame (t : List Event) (h : ∀ e ∈ t, e.isFrame = false) :
    registerWrites t = [] := by
  unfold registerWrites
  rw [List.filterMap_eq_nil_iff]
  intro e he
  have hf := h e he
  match e, hf with
  | Event.write [a, b, c, d] _, hf => simp [Event.isFrame] at hf
  | Event.write [] _, _ => rfl
  | Event.write [_] _, _ => rfl
  | Event.write [_, _] _, _ => rfl
  | Event.write [_, _, _] _, _ => rfl
  | Event.write (_ :: _ :: _ :: _ :: _ :: _) _, _ => rfl
  | Event.read _ _, _ => rfl
  | Event.ioctl _ _ _, _ => rfl
  | Event.sleep _, _ => rfl

theorem handshakeTrace_registerWrites (t : List Event) (h : handshakeTrace t = true) :
    registerWrites t = [] :=
  registerWrites_of_no_frame t (handshakeTrace_no_frame t h)

/-! ## Command layer: SET operations -/

theorem regFileBus_accepts (s : RegFile) (buf : List Nat) :
    (regFileBus.write s buf).1 = (buf.length : Int) := by
  simp only [regFileBus]
  split <;> rfl

/-! ## Command layer: GET operations -/

/-- The two register writes of a GET operation, on a bus that accepts every
write in full. -/
theorem getBody_trace {σ : Type} (bus : Bus σ) (cmd : Nat) (w : World σ)
    (hcmd : cmd < 65536)
    (hacc : ∀ s buf, (bus.write s buf).1 = (buf.length : Int)) :
    (getBody bus cmd w).trace =
      w.trace ++ [Event.write (frame 0x0006 2) 4, Event.write (frame 0x0004 cmd) 4] := by
  unfold getBody
  rw [write_register_trace_acc bus _ _ _ (by decide) hcmd hacc,
    write_register_trace_acc bus _ _ _ (by decide) (by decide) hacc]
  simp [CCI_REG_COMMAND, CCI_REG_DATA_LENGTH]

/-- A register read on a bus that completes every transfer: the address
write, then a read that delivers two bytes, whose big-endian value is
returned. -/
theorem read_register_full {σ : Type} (bus : Bus σ) (w : World σ) (reg : Nat)
    (hreg : reg < 65536)
    (hacc : ∀ s buf, (bus.write s buf).1 = (buf.length : Int))
    (hrd : ∀ s, ∃ x y, (bus.read s 2).1 = some [x, y]) :
    ∃ b0 b1, b0 < 256 ∧ b1 < 256 ∧
      (cci_read_register bus w reg).2.trace =
        w.trace ++ [Event.write [reg >>> 8, reg &&& 0xFF] 2, Event.read 2 (some [b0, b1])] ∧
      (cci_read_register bus w reg).1 = b0 * 256 + b1 := by
  have hb := addr_buf_eq reg hreg
  obtain ⟨x, y, hbs⟩ := hrd (bus.write w.dev [reg >>> 8, reg &&& 0xFF]).2
  have hw : (bus.write w.dev [reg >>> 8, reg &&& 0xFF]).1 = 2 := by
    rw [hacc]
    rfl
  refine ⟨x % 256, y % 256, Nat.mod_lt _ (by decide), Nat.mod_lt _ (by decide), ?_, ?_⟩
  · unfold cci_read_register
    simp only [hb, sys_write, sys_read, hw, hbs, delivered, readCount, readInto]
    simp
  · have hor := shiftLeft_8_or (x % 256) (y % 256) (Nat.mod_lt _ (by decide))
    have hlt : x % 256 * 256 + y % 256 < 65536 := by omega
    unfold cci_read_register
    simp only [hb, sys_write, sys_read, hw, hbs, delivered, readCount, readInto]
    simp [hor, Nat.mod_eq_of_lt hlt]

theorem regFileBus_delivers (s : RegFile) :
    ∃ x y, (regFileBus.read s 2).1 = some [x, y] :=
  ⟨_, _, rfl⟩

/-! ## Command layer: the value a GET operation returns -/

/-- A register read returns a 16-bit value. -/
theorem read_register_lt {σ : Type} (bus : Bus σ) (w : World σ) (reg : Nat) :
    (cci_read_register bus w reg).1 < 65536 := by
  unfold cci_read_register
  simp only
  split
  · show ((-1 : Int) % 65536).toNat < 65536
    decide
  · exact Nat.mod_lt _ (by decide)

/-- For 16-bit words the C expression `ms_word << 16 | ls_word` is
`ms_word * 65536 + ls_word`: nothing is cut off and no sign is extended. -/
theorem word32_eq (ms ls : Nat) (hms : ms < 65536) (hls : ls < 65536) :
    word32 ms ls = ms * 65536 + ls ∧ word32 ms ls = (ms <<< 16) ||| ls := by
  have hor := shiftLeft_16_or ms ls hls
  have hsh : ms <<< 16 = ms * 65536 := by simp [Nat.shiftLeft_eq]
  have h1 : ms * 65536 % 4294967296 = ms * 65536 := Nat.mod_eq_of_lt (by omega)
  have h2 : (ms * 65536 + ls) % 4294967296 = ms * 65536 + ls := Nat.mod_eq_of_lt (by omega)
  have hor2 : ms * 65536 ||| ls = ms * 65536 + ls := by
    rw [← hor, hsh]
  have e : (((ms <<< 16) % 4294967296) ||| ls) % 4294967296 = ms * 65536 + ls := by
    rw [hsh, h1, hor2, h2]
  unfold word32
  exact ⟨e, e.trans hor.symm⟩

/-! ## Busy handshake on a scripted STATUS stream -/

theorem stream_pollStep (wr : Nat → Int) (rd : Nat → Option (List Nat)) (i j : Nat)
    (t0 : List Event) (c : Int) :
    pollStep (streamBus wr rd) { dev := (i, j), trace := t0, cci_last_read_count := c } =
      (readInto [0x00, 0x02] (delivered 2 (rd j)),
       { dev := (i + 1, j + 1),
         trace := t0 ++ [Event.write [0x00, 0x02] (wr i), Event.read 2 (delivered 2 (rd j))],
         cci_last_read_count := readCount (delivered 2 (rd j)) }) := by
  simp [pollStep, sys_write, sys_read, streamBus]

theorem delivered_full (b0 b1 : Nat) (h0 : b0 < 256) (h1 : b1 < 256) :
    delivered 2 (some [b0, b1]) = some [b0, b1] := by
  simp [delivered, Nat.mod_eq_of_lt h0, Nat.mod_eq_of_lt h1]

theorem streamPolls_length (wr : Nat → Int) (rd : Nat → Option (List Nat)) :
    ∀ (k i j : Nat), (streamPolls wr rd i j k).length = 2 * k := by
  intro k
  induction k with
  | zero => intro i j; rfl
  | succ n ih =>
    intro i j
    simp only [streamPolls, List.length_cons, ih]
    omega

theorem streamPolls_writes (wr : Nat → Int) (rd : Nat → Option (List Nat)) :
    ∀ (k i j : Nat), (streamPolls wr rd i j k).countP Event.isStatusWrite = k := by
  intro k
  induction k with
  | zero => intro i j; rfl
  | succ n ih =>
    intro i j
    simp [streamPolls, List.countP_cons, ih, Event.isStatusWrite]

theorem streamPolls_reads (wr : Nat → Int) (rd : Nat → Option (List Nat)) :
    ∀ (k i j : Nat), (streamPolls wr rd i j k).countP Event.isRead2 = k := by
  intro k
  induction k with
  | zero => intro i j; rfl
  | succ n ih =>
    intro i j
    simp [streamPolls, List.countP_cons, ih, Event.isRead2]

/-- The loop on a scripted bus whose next `k - 1` reads are full and not
ready and whose `k`-th read is full and ready. -/
theorem stream_loop (wr : Nat → Int) (rd : Nat → Option (List Nat)) :
    ∀ (k fuel i j : Nat) (t0 : List Event) (c : Int) (buf : List Nat),
      ¬ buf.getD 1 0 &&& 0x07 = 0x06 → 1 ≤ k → k ≤ fuel →
      (∀ m, m + 1 < k → ∃ b0 b1, b0 < 256 ∧ b1 < 256 ∧
        rd (j + m) = some [b0, b1] ∧ b1 &&& 0x07 ≠ 0x06) →
      (∃ b0 b1, b0 < 256 ∧ b1 < 256 ∧
        rd (j + (k - 1)) = some [b0, b1] ∧ b1 &&& 0x07 = 0x06) →
      cci_wait_busy_clear_loop (streamBus wr rd) fuel
          { dev := (i, j), trace := t0, cci_last_read_count := c } buf =
        Outcome.done ()
          { dev := (i + k, j + k), trace := t0 ++ streamPolls wr rd i j k,
            cci_last_read_count := 2 } := by
  intro k
  induction k with
  | zero => intro fuel i j t0 c buf _ hk; omega
  | succ n ih =>
    intro fuel i j t0 c buf hbuf _ hfuel hbusy hready
    obtain ⟨f, rfl⟩ : ∃ f, fuel = f + 1 := ⟨fuel - 1, by omega⟩
    rw [loop_succ _ _ _ _ hbuf, stream_pollStep]
    cases n with
    | zero =>
      obtain ⟨b0, b1, h0, h1, hrd, hr⟩ := hready
      simp only [Nat.zero_add, Nat.sub_self, Nat.add_zero] at hrd
      rw [loop_ready]
      · simp [streamPolls, hrd, delivered_full b0 b1 h0 h1, readCount]
      · rw [hrd, delivered_full b0 b1 h0 h1]
        simpa [readInto] using hr
    | succ n2 =>
      obtain ⟨b0, b1, h0, h1, hrd, hr⟩ := hbusy 0 (by omega)
      simp only [Nat.add_zero] at hrd
      have hnext := ih f (i + 1) (j + 1)
        (t0 ++ [Event.write [0x00, 0x02] (wr i), Event.read 2 (delivered 2 (rd j))])
        (readCount (delivered 2 (rd j))) (readInto [0x00, 0x02] (delivered 2 (rd j)))
        (by rw [hrd, delivered_full b0 b1 h0 h1]; simpa [readInto] using hr)
        (by omega) (by omega)
        (by
          intro m hm
          have h := hbusy (m + 1) (by omega)
          rwa [show j + (m + 1) = j + 1 + m by omega] at h)
        (by
          rwa [show j + (n2 + 1 + 1 - 1) = j + 1 + (n2 + 1 - 1) by omega] at hready)
      rw [hnext]
      have e1 : i + 1 + (n2 + 1) = i + (n2 + 1 + 1) := by omega
      have e2 : j + 1 + (n2 + 1) = j + (n2 + 1 + 1) := by omega
      rw [e1, e2, List.append_assoc]
      rfl

/-- C6: for every `k >= 1` and every scripted stream of STATUS reads whose
first `k - 1` answers are full 2-byte reads with a low byte `b` such that
`(b & 0x07) != 0x06` and whose `k`-th answer is a full read with
`(b & 0x07) = 0x06`, whatever the writes return, `cci_wait_busy_clear`
(allowed at least `k` polls) returns after exactly `k` polls: the events it
adds are `k` STATUS address writes `[0x00, 0x02]` and `k` 2-byte reads,
alternating, and nothing else.  For `k = 1` it still performs one real read. -/
theorem wait_busy_clear_exactly_k_polls (wr : Nat → Int) (rd : Nat → Option (List Nat))
    (k fuel i j : Nat) (t0 : List Event) (c : Int)
    (hk : 1 ≤ k) (hfuel : k ≤ fuel)
    (hbusy : ∀ m, m + 1 < k → ∃ b0 b1, b0 < 256 ∧ b1 < 256 ∧
      rd (j + m) = some [b0, b1] ∧ b1 &&& 0x07 ≠ 0x06)
    (hready : ∃ b0 b1, b0 < 256 ∧ b1 < 256 ∧
      rd (j + (k - 1)) = some [b0, b1] ∧ b1 &&& 0x07 = 0x06) :
    cci_wait_busy_clear (streamBus wr rd) fuel
        { dev := (i, j), trace := t0, cci_last_read_count := c } =
      Outcome.done ()
        { dev := (i + k, j + k), trace := t0 ++ streamPolls wr rd i j k,
          cci_last_read_count := 2 } ∧
    (streamPolls wr rd i j k).length = 2 * k ∧
    (streamPolls wr rd i j k).countP Event.isStatusWrite = k ∧
    (streamPolls wr rd i j k).countP Event.isRead2 = k :=
  ⟨stream_loop wr rd k fuel i j t0 c _ seed_not_ready hk hfuel hbusy hready,
   streamPolls_length wr rd k i j, streamPolls_writes wr rd k i j,
   streamPolls_reads wr rd k i j⟩

/-- C6 at `k = 3` (two busy answers `0x07`, then `0x06`) and at `k = 1`
(ready from the start: still one real read). -/
theorem wait_busy_clear_exactly_k_polls_witness :
    (streamPolls (fun _ => 2) (fun m => if m < 2 then some [0x00, 0x07] else some [0x00, 0x06])
        0 0 3 =
      [Event.write [0x00, 0x02] 2, Event.read 2 (some [0x00, 0x07]),
       Event.write [0x00, 0x02] 2, Event.read 2 (some [0x00, 0x07]),
       Event.write [0x00, 0x02] 2, Event.read 2 (some [0x00, 0x06])]) ∧
    (cci_wait_busy_clear
        (streamBus (fun _ => 2) (fun m => if m < 2 then some [0x00, 0x07] else some [0x00, 0x06]))
        5 { dev := (0, 0), trace := [], cci_last_read_count := 0 } =
      Outcome.done ()
        { dev := (0 + 3, 0 + 3),
          trace := [] ++ streamPolls (fun _ => 2)
            (fun m => if m < 2 then some [0x00, 0x07] else some [0x00, 0x06]) 0 0 3,
          cci_last_read_count := 2 } ∧
      (streamPolls (fun _ => 2)
        (fun m => if m < 2 then some [0x00, 0x07] else some [0x00, 0x06]) 0 0 3).length = 2 * 3 ∧
      (streamPolls (fun _ => 2)
        (fun m => if m < 2 then some [0x00, 0x07] else some [0x00, 0x06]) 0 0 3).countP
          Event.isStatusWrite = 3 ∧
      (streamPolls (fun _ => 2)
        (fun m => if m < 2 then some [0x00, 0x07] else some [0x00, 0x06]) 0 0 3).countP
          Event.isRead2 = 3) ∧
    (cci_wait_busy_clear (streamBus (fun _ => 2) (fun _ => some [0x00, 0x06]))
        1 { dev := (0, 0), trace := [], cci_last_read_count := 0 } =
      Outcome.done ()
        { dev := (0 + 1, 0 + 1),
          trace := [] ++ streamPolls (fun _ => 2) (fun _ => some [0x00, 0x06]) 0 0 1,
          cci_last_read_count := 2 } ∧
      (streamPolls (fun _ => 2) (fun _ => some [0x00, 0x06]) 0 0 1).length = 2 * 1 ∧
      (streamPolls (fun _ => 2) (fun _ => some [0x00, 0x06]) 0 0 1).countP
          Event.isStatusWrite = 1 ∧
      (streamPolls (fun _ => 2) (fun _ => some [0x00, 0x06]) 0 0 1).countP
          Event.isRead2 = 1) :=
  ⟨rfl,
   wait_busy_clear_exactly_k_polls (fun _ => 2)
     (fun m => if m < 2 then some [0x00, 0x07] else some [0x00, 0x06]) 3 5 0 0 [] 0
     (by decide) (by decide)
     (by
       intro m hm
       have hm2 : m < 2 := by omega
       exact ⟨0x00, 0x07, by decide, by decide, by simp [hm2], by decide⟩)
     ⟨0x00, 0x06, by decide, by decide, rfl, by decide⟩,
   wait_busy_clear_exactly_k_polls (fun _ => 2) (fun _ => some [0x00, 0x06]) 1 1 0 0 [] 0
     (by decide) (by decide)
     (by
       intro m hm
       omega)
     ⟨0x00, 0x06, by decide, by decide, rfl, by decide⟩⟩

/-! ## Every command waits for a ready STATUS answer before its first frame -/

/-- Every event of a run of unanswered polls is a STATUS address write or a
2-byte read. -/
theorem busyPolls_events :
    ∀ (n : Nat) (t : List Event), t.length ≤ n → busyPolls t = true →
      ∀ e ∈ t, (∃ ret, e = Event.write [0x00, 0x02] ret) ∨ (∃ res, e = Event.read 2 res) := by
  intro n
  induction n with
  | zero =>
    intro t hl _ e he
    cases t with
    | nil => cases he
    | cons a t => simp at hl
  | succ n ih =>
    intro t hl hh
    match t, hl, hh with
    | [], _, _ => intro e he; cases he
    | [Event.write _ _], _, hh => simp [busyPolls] at hh
    | [Event.read _ _], _, hh => simp [busyPolls] at hh
    | [Event.ioctl _ _ _], _, hh => simp [busyPolls] at hh
    | [Event.sleep _], _, hh => simp [busyPolls] at hh
    | Event.write buf ret :: Event.read count res :: rest, hl, hh =>
      simp only [busyPolls, Bool.and_eq_true, beq_iff_eq] at hh
      obtain ⟨⟨⟨hbuf, hcount⟩, _⟩, hrest⟩ := hh
      subst hbuf
      subst hcount
      have hl2 : rest.length ≤ n := by
        simp only [List.length_cons] at hl
        omega
      intro e he
      simp only [List.mem_cons] at he
      rcases he with rfl | rfl | he
      · exact Or.inl ⟨ret, rfl⟩
      · exact Or.inr ⟨res, rfl⟩
      · exact ih rest hl2 hrest e he
    | Event.write _ _ :: Event.write _ _ :: _, _, hh => simp [busyPolls] at hh
    | Event.write _ _ :: Event.ioctl _ _ _ :: _, _, hh => simp [busyPolls] at hh
    | Event.write _ _ :: Event.sleep _ :: _, _, hh => simp [busyPolls] at hh
    | Event.read _ _ :: _ :: _, _, hh => simp [busyPolls] at hh
    | Event.ioctl _ _ _ :: _ :: _, _, hh => simp [busyPolls] at hh
    | Event.sleep _ :: _ :: _, _, hh => simp [busyPolls] at hh

/-- No event of a run of unanswered polls is a register frame. -/
theorem busyPolls_no_frame (t : List Event) (h : busyPolls t = true) :
    ∀ e ∈ t, e.isFrame = false := by
  intro e he
  rcases busyPolls_events t.length t (Nat.le_refl _) h e he with ⟨ret, rfl⟩ | ⟨res, rfl⟩
  · rfl
  · rfl

/-- A completed handshake contains a STATUS poll that was answered ready. -/
theorem handshakeTrace_ready (t : List Event) (h : handshakeTrace t = true) :
    statusReady t :=
  (handshakeTrace_events t.length t (Nat.le_refl _) h).2

/-- In a trace `h ++ rest` where `h` has no frame and, unless `rest` is empty,
contains a ready STATUS poll, every frame comes after a ready STATUS poll. -/
theorem frames_after_ready (h rest : List Event)
    (hnf : ∀ e ∈ h, e.isFrame = false)
    (hready : rest ≠ [] → statusReady h) :
    ∀ p e q, h ++ rest = p ++ e :: q → e.isFrame = true → statusReady p := by
  intro p e q heq hfr
  rcases List.append_eq_append_iff.mp heq with ⟨a, hp, hrest⟩ | ⟨c, hh, hc⟩
  · have hne : rest ≠ [] := by
      rw [hrest]
      simp
    rw [hp]
    exact statusReady_append _ _ (hready hne)
  · cases c with
    | nil =>
      have hne : rest ≠ [] := by
        simp only [List.nil_append] at hc
        rw [← hc]
        simp
      have hph : h = p := by simpa using hh
      rw [← hph]
      exact hready hne
    | cons x c2 =>
      simp only [List.cons_append, List.cons.injEq] at hc
      have hx : e ∈ h := by
        rw [hh, hc.1]
        simp
      rw [hnf e hx] at hfr
      cases hfr

/-! ## Every command operation has the bracketed shape -/

theorem write_register_ext {σ : Type} (bus : Bus σ) (w : World σ) (reg value : Nat) :
    ∃ e, e.isFrame = true ∧ (cci_write_register bus w reg value).2.trace = w.trace ++ [e] := by
  unfold cci_write_register
  simp only [sys_write]
  split <;> (refine ⟨_, ?_, rfl⟩; rfl)

theorem read_register_ext {σ : Type} (bus : Bus σ) (w : World σ) (reg : Nat) :
    ∃ r, (cci_read_register bus w reg).2.trace = w.trace ++ r ∧ ∀ e ∈ r, e.isFrame = false := by
  unfold cci_read_register
  simp only [sys_write, sys_read]
  split
  · refine ⟨_, rfl, ?_⟩
    intro e he
    simp only [List.mem_singleton] at he
    subst he
    rfl
  · split
    · refine ⟨[Event.write [(reg % 65536) >>> 8 % 256, reg % 65536 &&& 0xff]
          (bus.write w.dev [(reg % 65536) >>> 8 % 256, reg % 65536 &&& 0xff]).1,
        Event.read 2 (delivered 2
          (bus.read (bus.write w.dev [(reg % 65536) >>> 8 % 256, reg % 65536 &&& 0xff]).2 2).1)], by simp, ?_⟩
      intro e he
      simp only [List.mem_cons, List.mem_singleton, List.not_mem_nil, or_false] at he
      rcases he with rfl | rfl <;> rfl
    · refine ⟨[Event.write [(reg % 65536) >>> 8 % 256, reg % 65536 &&& 0xff]
          (bus.write w.dev [(reg % 65536) >>> 8 % 256, reg % 65536 &&& 0xff]).1,
        Event.read 2 (delivered 2
          (bus.read (bus.write w.dev [(reg % 65536) >>> 8 % 256, reg % 65536 &&& 0xff]).2 2).1)], by simp, ?_⟩
      intro e he
      simp only [List.mem_cons, List.mem_singleton, List.not_mem_nil, or_false] at he
      rcases he with rfl | rfl <;> rfl

theorem setBody_ext {σ : Type} (bus : Bus σ) (cmd arg : Nat) (w : World σ) :
    ∃ B, (setBody bus cmd arg w).trace = w.trace ++ B ∧ ∃ e ∈ B, e.isFrame = true := by
  unfold setBody
  simp only
  obtain ⟨e1, _, h1⟩ := write_register_ext bus w CCI_REG_DATA_0 (arg % 4294967296 &&& 0xffff)
  obtain ⟨e2, _, h2⟩ := write_register_ext bus
    (cci_write_register bus w CCI_REG_DATA_0 (arg % 4294967296 &&& 0xffff)).2
    (CCI_REG_DATA_0 + CCI_WORD_LENGTH) ((arg % 4294967296) >>> 16 &&& 0xffff)
  obtain ⟨e3, _, h3⟩ := write_register_ext bus
    (cci_write_register bus
      (cci_write_register bus w CCI_REG_DATA_0 (arg % 4294967296 &&& 0xffff)).2
      (CCI_REG_DATA_0 + CCI_WORD_LENGTH) ((arg % 4294967296) >>> 16 &&& 0xffff)).2
    CCI_REG_COMMAND cmd
  obtain ⟨e4, hf4, h4⟩ := write_register_ext bus
    (cci_write_register bus
      (cci_write_register bus
        (cci_write_register bus w CCI_REG_DATA_0 (arg % 4294967296 &&& 0xffff)).2
        (CCI_REG_DATA_0 + CCI_WORD_LENGTH) ((arg % 4294967296) >>> 16 &&& 0xffff)).2
      CCI_REG_COMMAND cmd).2
    CCI_REG_DATA_LENGTH 2
  refine ⟨[e1, e2, e3, e4], ?_, e4, by simp, hf4⟩
  rw [h4, h3, h2, h1]
  simp

theorem getBody_ext {σ : Type} (bus : Bus σ) (cmd : Nat) (w : World σ) :
    ∃ B, (getBody bus cmd w).trace = w.trace ++ B ∧ ∃ e ∈ B, e.isFrame = true := by
  unfold getBody
  simp only
  obtain ⟨e1, _, h1⟩ := write_register_ext bus w CCI_REG_DATA_LENGTH 2
  obtain ⟨e2, hf2, h2⟩ := write_register_ext bus
    (cci_write_register bus w CCI_REG_DATA_LENGTH 2).2 CCI_REG_COMMAND cmd
  refine ⟨[e1, e2], ?_, e2, by simp, hf2⟩
  rw [h2, h1]
  simp

theorem runBody_ext {σ : Type} (bus : Bus σ) (op : RunOp) (w : World σ) :
    ∃ B, (runBody bus op w).trace = w.trace ++ B ∧ ∃ e ∈ B, e.isFrame = true := by
  cases op with
  | ffc =>
    obtain ⟨e1, hf1, h1⟩ := write_register_ext bus w CCI_REG_COMMAND CCI_CMD_SYS_RUN_FFC
    exact ⟨[e1], h1, e1, by simp, hf1⟩
  | oem_reboot =>
    obtain ⟨e1, hf1, h1⟩ := write_register_ext bus w CCI_REG_COMMAND CCI_CMD_OEM_RUN_REBOOT
    refine ⟨[e1, Event.sleep 6], ?_, e1, by simp, hf1⟩
    simp only [runBody, sys_sleep, h1]
    simp

theorem getTail_ext {σ : Type} (bus : Bus σ) (w : World σ) :
    ∃ r, (getTail bus w).2.trace = w.trace ++ r ∧ ∀ e ∈ r, e.isFrame = false := by
  unfold getTail
  simp only
  obtain ⟨r1, h1, hf1⟩ := read_register_ext bus w CCI_REG_DATA_0
  obtain ⟨r2, h2, hf2⟩ := read_register_ext bus (cci_read_register bus w CCI_REG_DATA_0).2
    (CCI_REG_DATA_0 + CCI_WORD_LENGTH)
  refine ⟨r1 ++ r2, ?_, ?_⟩
  · rw [h2, h1, List.append_assoc]
  · intro e he
    rcases List.mem_append.mp he with h | h
    · exact hf1 e h
    · exact hf2 e h

theorem bind_done_unit {σ : Type} (o : Outcome σ Unit) :
    (o.bind fun _ w => Outcome.done () w) = o := by
  cases o <;> rfl

theorem void_bind {σ α β : Type} (o : Outcome σ α) (f : α → World σ → Outcome σ β) :
    (o.bind f).void = o.bind fun a w => (f a w).void := by
  cases o <;> rfl

/-- Every command operation is: handshake, a body that writes at least one
register frame, handshake, and a tail without register frames. -/
theorem exec_bracketed {σ : Type} (bus : Bus σ) (c : CmdOp) :
    ∃ body tail : World σ → World σ,
      (∀ w, ∃ B, (body w).trace = w.trace ++ B ∧ ∃ e ∈ B, e.isFrame = true) ∧
      (∀ w, ∃ r, (tail w).trace = w.trace ++ r ∧ ∀ e ∈ r, e.isFrame = false) ∧
      ∀ fuel w, c.exec bus fuel w = bracketed bus fuel w body tail := by
  cases c with
  | get op =>
    refine ⟨getBody bus op.cmd, fun w => (getTail bus w).2, getBody_ext bus op.cmd,
      getTail_ext bus, ?_⟩
    intro fuel w
    simp only [CmdOp.exec, getOp_run_eq, void_bind, bracketed]
    rfl
  | set op arg =>
    refine ⟨setBody bus op.cmd arg, fun w => w, setBody_ext bus op.cmd arg,
      fun w => ⟨[], by simp, by simp⟩, ?_⟩
    intro fuel w
    simp only [CmdOp.exec, setOp_run_eq, bracketed, bind_done_unit]
  | run op =>
    refine ⟨runBody bus op, fun w => w, runBody_ext bus op,
      fun w => ⟨[], by simp, by simp⟩, ?_⟩
    intro fuel w
    simp only [CmdOp.exec, runOp_run_eq, bracketed, bind_done_unit]

/-! ## Properties of the bracketed shape -/

/-- Whatever the outcome, the trace of a bracketed operation starts with
polls, and anything after them comes after a ready STATUS poll. -/
theorem bracketed_prefix {σ : Type} (bus : Bus σ) (fuel : Nat) (w : World σ)
    (body tail : World σ → World σ)
    (hbody : ∀ w, ∃ B, (body w).trace = w.trace ++ B ∧ ∃ e ∈ B, e.isFrame = true)
    (htail : ∀ w, ∃ r, (tail w).trace = w.trace ++ r ∧ ∀ e ∈ r, e.isFrame = false) :
    ∃ h rest, (bracketed bus fuel w body tail).world.trace = w.trace ++ (h ++ rest) ∧
      (∀ e ∈ h, e.isFrame = false) ∧ (rest ≠ [] → statusReady h) := by
  unfold bracketed
  cases hw1 : WAIT_FOR_BUSY_DEASSERT bus fuel w with
  | blocked w1 =>
    obtain ⟨t, ht, hb, _⟩ := wait_blocked bus fuel w w1 hw1
    refine ⟨t, [], ?_, busyPolls_no_frame t hb, fun h => absurd rfl h⟩
    simp [Outcome.bind, Outcome.world, ht]
  | done u w1 =>
    obtain ⟨h1, ht1, hh1⟩ := wait_done bus fuel w w1 hw1
    obtain ⟨B, hB, _⟩ := hbody w1
    cases hw2 : WAIT_FOR_BUSY_DEASSERT bus fuel (body w1) with
    | blocked w2 =>
      obtain ⟨t, ht, _, _⟩ := wait_blocked bus fuel _ w2 hw2
      refine ⟨h1, B ++ t, ?_, handshakeTrace_no_frame h1 hh1,
        fun _ => handshakeTrace_ready h1 hh1⟩
      simp [Outcome.bind, Outcome.world, hw2, ht, hB, ht1]
    | done u2 w2 =>
      obtain ⟨h2, ht2, _⟩ := wait_done bus fuel _ w2 hw2
      obtain ⟨r, hr, _⟩ := htail w2
      refine ⟨h1, B ++ h2 ++ r, ?_, handshakeTrace_no_frame h1 hh1,
        fun _ => handshakeTrace_ready h1 hh1⟩
      simp [Outcome.bind, Outcome.world, hw2, hr, ht2, hB, ht1]

/-- When a bracketed operation returns, its trace is: a part that holds the
register frames, a completed handshake, and a tail without frames. -/
theorem bracketed_done {σ : Type} (bus : Bus σ) (fuel : Nat) (w w' : World σ)
    (body tail : World σ → World σ)
    (hbody : ∀ w, ∃ B, (body w).trace = w.trace ++ B ∧ ∃ e ∈ B, e.isFrame = true)
    (htail : ∀ w, ∃ r, (tail w).trace = w.trace ++ r ∧ ∀ e ∈ r, e.isFrame = false)
    (hdone : bracketed bus fuel w body tail = Outcome.done () w') :
    ∃ p h r, w'.trace = w.trace ++ p ++ h ++ r ∧ handshakeTrace h = true ∧
      (∃ e ∈ p, e.isFrame = true) ∧ (∀ e ∈ r, e.isFrame = false) := by
  unfold bracketed at hdone
  obtain ⟨_, w1, hw1, hrest⟩ := bind_done _ _ _ _ hdone
  obtain ⟨_, w2, hw2, htl⟩ := bind_done _ _ _ _ hrest
  obtain ⟨h1, ht1, _⟩ := wait_done bus fuel w w1 hw1
  obtain ⟨h2, ht2, hh2⟩ := wait_done bus fuel _ w2 hw2
  obtain ⟨B, hB, e, heB, hfe⟩ := hbody w1
  obtain ⟨r, hr, hfr⟩ := htail w2
  injection htl with _ hw'
  refine ⟨h1 ++ B, h2, r, ?_, hh2, ⟨e, List.mem_append_right _ heB, hfe⟩, hfr⟩
  rw [← hw', hr, ht2, hB, ht1]
  simp

/-- On a bus whose every 2-byte read answers with low byte `0x07`, the loop
never stops: whatever the bound, it is still polling when the bound is hit. -/
theorem busy_loop_blocked {σ : Type} (bus : Bus σ)
    (hbusy : ∀ s, ∃ b0, b0 < 256 ∧ (bus.read s 2).1 = some [b0, 0x07]) :
    ∀ (fuel : Nat) (w : World σ) (buf : List Nat), ¬ buf.getD 1 0 &&& 0x07 = 0x06 →
      ∃ w', cci_wait_busy_clear_loop bus fuel w buf = Outcome.blocked w' := by
  intro fuel
  induction fuel with
  | zero =>
    intro w buf hbuf
    exact ⟨w, loop_zero bus w buf hbuf⟩
  | succ n ih =>
    intro w buf hbuf
    rw [loop_succ bus n w buf hbuf]
    apply ih
    rw [pollStep_ready, pollRes]
    obtain ⟨b0, h0, hrd⟩ := hbusy (bus.write w.dev [0x00, 0x02]).2
    rw [hrd, delivered_full b0 0x07 h0 (by decide)]
    simp [readyRes]

/-- A bracketed operation on an always-busy bus is blocked in its opening
handshake after exactly `fuel` polls. -/
theorem bracketed_busy {σ : Type} (bus : Bus σ) (fuel : Nat) (w : World σ)
    (body tail : World σ → World σ)
    (hbusy : ∀ s, ∃ b0, b0 < 256 ∧ (bus.read s 2).1 = some [b0, 0x07]) :
    ∃ w' t, bracketed bus fuel w body tail = Outcome.blocked w' ∧
      w'.trace = w.trace ++ t ∧ busyPolls t = true ∧ t.length = 2 * fuel := by
  obtain ⟨w', hw'⟩ := busy_loop_blocked bus hbusy fuel w [0x00, 0x07] seed_not_ready
  obtain ⟨t, ht, hb, hl⟩ := wait_blocked bus fuel w w' hw'
  refine ⟨w', t, ?_, ht, hb, hl⟩
  unfold bracketed WAIT_FOR_BUSY_DEASSERT cci_wait_busy_clear
  rw [hw']
  rfl

/-- A run of unanswered polls has as many STATUS address writes as reads,
and nothing else. -/
theorem busyPolls_counts :
    ∀ (n : Nat) (t : List Event), t.length ≤ n → busyPolls t = true →
      2 * t.countP Event.isStatusWrite = t.length ∧ 2 * t.countP Event.isRead2 = t.length := by
  intro n
  induction n with
  | zero =>
    intro t hl _
    cases t with
    | nil => exact ⟨rfl, rfl⟩
    | cons a t => simp at hl
  | succ n ih =>
    intro t hl hh
    match t, hl, hh with
    | [], _, _ => exact ⟨rfl, rfl⟩
    | [Event.write _ _], _, hh => simp [busyPolls] at hh
    | [Event.read _ _], _, hh => simp [busyPolls] at hh
    | [Event.ioctl _ _ _], _, hh => simp [busyPolls] at hh
    | [Event.sleep _], _, hh => simp [busyPolls] at hh
    | Event.write buf ret :: Event.read count res :: rest, hl, hh =>
      simp only [busyPolls, Bool.and_eq_true, beq_iff_eq] at hh
      obtain ⟨⟨⟨hbuf, hcount⟩, _⟩, hrest⟩ := hh
      subst hbuf
      subst hcount
      have hl2 : rest.length ≤ n := by
        simp only [List.length_cons] at hl
        omega
      obtain ⟨h1, h2⟩ := ih rest hl2 hrest
      constructor
      · simp [List.countP_cons, Event.isStatusWrite]
        omega
      · simp [List.countP_cons, Event.isRead2]
        omega
    | Event.write _ _ :: Event.write _ _ :: _, _, hh => simp [busyPolls] at hh
    | Event.write _ _ :: Event.ioctl _ _ _ :: _, _, hh => simp [busyPolls] at hh
    | Event.write _ _ :: Event.sleep _ :: _, _, hh => simp [busyPolls] at hh
    | Event.read _ _ :: _ :: _, _, hh => simp [busyPolls] at hh
    | Event.ioctl _ _ _ :: _ :: _, _, hh => simp [busyPolls] at hh
    | Event.sleep _ :: _ :: _, _, hh => simp [busyPolls] at hh

theorem busyPolls_writes (t : List Event) {n : Nat} (h : busyPolls t = true)
    (hl : t.length = 2 * n) : t.countP Event.isStatusWrite = n := by
  have h1 := (busyPolls_counts t.length t (Nat.le_refl _) h).1
  omega

theorem busyPolls_reads (t : List Event) {n : Nat} (h : busyPolls t = true)
    (hl : t.length = 2 * n) : t.countP Event.isRead2 = n := by
  have h1 := (busyPolls_counts t.length t (Nat.le_refl _) h).2
  omega

/-! ## Command layer: the handshake brackets every command -/

/-! ## Round trip against the register-file mock -/

theorem be16 (x : Nat) : (x >>> 8) * 256 + (x &&& 0xFF) = x := by
  rw [shiftRight_8, and_0xff]
  omega

theorem regfile_pollStep (w : World RegFile) :
    pollStep regFileBus w =
      ([0x00, 0x06],
       { dev := { w.dev with sel := 2 },
         trace := w.trace ++ [Event.write [0x00, 0x02] 2, Event.read 2 (some [0x00, 0x06])],
         cci_last_read_count := 2 }) := by
  simp [pollStep, sys_write, sys_read, regFileBus, CCI_REG_STATUS, delivered, readInto,
    readCount]

/-- On the mock a handshake returns after one poll and leaves the registers
as they were. -/
theorem regfile_wait (fuel : Nat) (w : World RegFile) (hfuel : 1 ≤ fuel) :
    ∃ w1, WAIT_FOR_BUSY_DEASSERT regFileBus fuel w = Outcome.done () w1 ∧
      w1.dev.regs = w.dev.regs := by
  obtain ⟨f, rfl⟩ : ∃ f, fuel = f + 1 := ⟨fuel - 1, by omega⟩
  unfold WAIT_FOR_BUSY_DEASSERT cci_wait_busy_clear
  rw [loop_succ _ _ _ _ seed_not_ready, regfile_pollStep,
    loop_ready _ _ _ _ (show ([0x00, 0x06] : List Nat).getD 1 0 &&& 0x07 = 0x06 by decide)]
  exact ⟨_, rfl, rfl⟩

/-- On the mock a register write stores the value at the register. -/
theorem regfile_write (w : World RegFile) (reg value : Nat)
    (hreg : reg < 65536) (hval : value < 65536) :
    (cci_write_register regFileBus w reg value).2.dev.regs =
      fun r => if r = reg then value else w.dev.regs r := by
  have hb := frame_eq reg value hreg hval
  have h1 := be16 reg
  have h2 := be16 value
  unfold cci_write_register
  simp only [hb, sys_write]
  split <;> simp [frame, regFileBus, h1, h2]

/-- On the mock a register read returns what the register holds. -/
theorem regfile_read (w : World RegFile) (reg : Nat)
    (hreg : reg < 65536) (hne : reg ≠ 2) :
    (cci_read_register regFileBus w reg).1 = w.dev.regs reg % 65536 ∧
      (cci_read_register regFileBus w reg).2.dev.regs = w.dev.regs := by
  have hb := addr_buf_eq reg hreg
  have h1 := be16 reg
  unfold cci_read_register
  simp only [hb, sys_write, sys_read]
  simp [regFileBus, h1, hne, CCI_REG_STATUS, delivered, readInto, readCount]
  rw [shiftLeft_8_or _ _ (Nat.mod_lt _ (by decide))]
  omega

theorem regfile_setBody (cmd x : Nat) (w : World RegFile)
    (hcmd : cmd < 65536) (hx : x < 4294967296) :
    (setBody regFileBus cmd x w).dev.regs 0x0008 = x &&& 0xffff ∧
      (setBody regFileBus cmd x w).dev.regs 0x000A = (x >>> 16) &&& 0xffff := by
  unfold setBody
  simp only [Nat.mod_eq_of_lt hx]
  rw [regfile_write _ _ _ (by decide) (by decide), regfile_write _ _ _ (by decide) hcmd,
    regfile_write _ _ _ (by decide) (low_word_lt _),
    regfile_write _ _ _ (by decide) (low_word_lt _)]
  simp [CCI_REG_DATA_0, CCI_WORD_LENGTH, CCI_REG_COMMAND, CCI_REG_DATA_LENGTH]

theorem regfile_getBody (cmd : Nat) (w : World RegFile) (hcmd : cmd < 65536) :
    (getBody regFileBus cmd w).dev.regs 0x0008 = w.dev.regs 0x0008 ∧
      (getBody regFileBus cmd w).dev.regs 0x000A = w.dev.regs 0x000A := by
  unfold getBody
  simp only
  rw [regfile_write _ _ _ (by decide) hcmd, regfile_write _ _ _ (by decide) (by decide)]
  simp [CCI_REG_COMMAND, CCI_REG_DATA_LENGTH]

theorem regfile_getTail (w : World RegFile) :
    (getTail regFileBus w).1 = word32 (w.dev.regs 0x000A % 65536) (w.dev.regs 0x0008 % 65536) := by
  have h1 := regfile_read w 0x0008 (by decide) (by decide)
  have h2 := regfile_read (cci_read_register regFileBus w 0x0008).2 0x000A (by decide)
    (by decide)
  unfold getTail
  simp only
  show word32 (cci_read_register regFileBus (cci_read_register regFileBus w 0x0008).2 0x000A).1
    (cci_read_register regFileBus w 0x0008).1 = _
  rw [h2.1, h1.2, h1.1]

/-- Splitting a 32-bit value into its two 16-bit words and joining them again
gives the value back. -/
theorem word32_split (x : Nat) (hx : x < 4294967296) :
    word32 (((x >>> 16) &&& 0xffff) % 65536) ((x &&& 0xffff) % 65536) = x := by
  rw [(word32_eq _ _ (Nat.mod_lt _ (by decide)) (Nat.mod_lt _ (by decide))).1,
    and_0xffff, and_0xffff, shiftRight_16]
  omega

/-- C8: against the register-file mock, for every SET/GET pair and every
32-bit value `x` (so also for 0, 1 and the GPIO mode VSYNC = 5), `SET(x)`
returns and the GET issued after it returns `x`. -/
theorem set_get_round_trip (op : SetOp) (x fuel : Nat) (w : World RegFile)
    (hx : x < 4294967296) (hfuel : 1 ≤ fuel) :
    ∃ w1 w2, op.run regFileBus fuel w x = Outcome.done () w1 ∧
      op.getter.run regFileBus fuel w1 = Outcome.done x w2 := by
  obtain ⟨wa, hwa, _⟩ := regfile_wait fuel w hfuel
  obtain ⟨wb, hwb, hrb⟩ := regfile_wait fuel (setBody regFileBus op.cmd x wa) hfuel
  obtain ⟨wc, hwc, hrc⟩ := regfile_wait fuel wb hfuel
  obtain ⟨wd, hwd, hrd⟩ := regfile_wait fuel (getBody regFileBus op.getter.cmd wc) hfuel
  have hset := regfile_setBody op.cmd x wa (setOp_cmd_lt op) hx
  have hget := regfile_getBody op.getter.cmd wc (getOp_cmd_lt op.getter)
  refine ⟨wb, (getTail regFileBus wd).2, ?_, ?_⟩
  · rw [setOp_run_eq, hwa]
    exact hwb
  · rw [getOp_run_eq, hwc]
    simp only [Outcome.bind, hwd]
    have hv : (getTail regFileBus wd).1 = x := by
      rw [regfile_getTail, hrd, hget.1, hget.2, hrc, hrb, hset.1, hset.2]
      exact word32_split x hx
    rw [hv]

/-- C8 at SET_GPIO_MODE(VSYNC = 5) followed by GET_GPIO_MODE. -/
theorem set_get_round_trip_witness :
    ((SetOp.gpio_mode.run regFileBus 1 (World.init ⟨fun _ => 0, 0⟩) 5).bind
        fun _ w1 => GetOp.gpio_mode.run regFileBus 1 w1).world.trace =
      [Event.write [0x00, 0x02] 2, Event.read 2 (some [0x00, 0x06]),
       Event.write [0x00, 0x08, 0x00, 0x05] 4, Event.write [0x00, 0x0A, 0x00, 0x00] 4,
       Event.write [0x00, 0x04, 0x48, 0x55] 4, Event.write [0x00, 0x06, 0x00, 0x02] 4,
       Event.write [0x00, 0x02] 2, Event.read 2 (some [0x00, 0x06]),
       Event.write [0x00, 0x02] 2, Event.read 2 (some [0x00, 0x06]),
       Event.write [0x00, 0x06, 0x00, 0x02] 4, Event.write [0x00, 0x04, 0x48, 0x54] 4,
       Event.write [0x00, 0x02] 2, Event.read 2 (some [0x00, 0x06]),
       Event.write [0x00, 0x08] 2, Event.read 2 (some [0x00, 0x05]),
       Event.write [0x00, 0x0A] 2, Event.read 2 (some [0x00, 0x00])] ∧
    ∃ w1 w2, SetOp.gpio_mode.run regFileBus 1 (World.init ⟨fun _ => 0, 0⟩) 5 =
        Outcome.done () w1 ∧
      SetOp.gpio_mode.getter.run regFileBus 1 w1 = Outcome.done 5 w2 :=
  ⟨rfl,
   set_get_round_trip SetOp.gpio_mode 5 1 (World.init ⟨fun _ => 0, 0⟩) (by decide) (by decide)⟩

/-! ## Register layer: failed transfers -/

/-- C9 (as amended): for a 16-bit `reg`, if the 2-byte address write is not
accepted in full, `cci_read_register` returns the sentinel `0xFFFF` and makes
no read; if the address write is accepted and the read delivers fewer than 2
bytes, the failure is signalled by `cci_last_read_count = 0`, while the value
returned is `buf[0] << 8 | buf[1]` of the 2-byte buffer (the address bytes,
overwritten from the front by the bytes delivered), no fixed sentinel. -/
theorem cci_read_register_failure {σ : Type} (bus : Bus σ) (w : World σ) (reg : Nat)
    (hreg : reg < 65536) :
    ((bus.write w.dev [reg >>> 8, reg &&& 0xFF]).1 ≠ 2 →
      (cci_read_register bus w reg).1 = 0xFFFF ∧
      (cci_read_register bus w reg).2.trace =
        w.trace ++ [Event.write [reg >>> 8, reg &&& 0xFF]
          (bus.write w.dev [reg >>> 8, reg &&& 0xFF]).1]) ∧
    ((bus.write w.dev [reg >>> 8, reg &&& 0xFF]).1 = 2 →
      readCount (delivered 2
        (bus.read (bus.write w.dev [reg >>> 8, reg &&& 0xFF]).2 2).1) ≠ 2 →
      (cci_read_register bus w reg).2.cci_last_read_count = 0 ∧
      (cci_read_register bus w reg).1 =
        (((readInto [reg >>> 8, reg &&& 0xFF] (delivered 2
            (bus.read (bus.write w.dev [reg >>> 8, reg &&& 0xFF]).2 2).1)).getD 0 0 <<< 8) |||
          (readInto [reg >>> 8, reg &&& 0xFF] (delivered 2
            (bus.read (bus.write w.dev [reg >>> 8, reg &&& 0xFF]).2 2).1)).getD 1 0) % 65536) := by
  have hb := addr_buf_eq reg hreg
  constructor
  · intro hw
    unfold cci_read_register
    simp only [hb, sys_write, hw, ne_eq, not_false_eq_true, if_true]
    exact ⟨by decide, trivial⟩
  · intro hw hr
    unfold cci_read_register
    simp only [hb, sys_write, sys_read, hw, ne_eq, not_true_eq_false, if_false, hr,
      not_false_eq_true, if_true]
    exact ⟨trivial, trivial⟩

/-- C9 (as amended) at DATA_0 on a bus that accepts only 1 byte of the address. -/
theorem cci_read_register_failure_witness :
    (0x0008 < 65536 ∧
      ((streamBus (fun _ => 1) (fun _ => none)).write (0, 0) [0x0008 >>> 8, 0x0008 &&& 0xFF]).1 ≠ 2) ∧
    (cci_read_register (streamBus (fun _ => 1) (fun _ => none)) (World.init (0, 0)) 0x0008).1 =
      0xFFFF ∧
    (cci_read_register (streamBus (fun _ => 1) (fun _ => none)) (World.init (0, 0)) 0x0008).2.trace =
      (World.init ((0, 0) : Nat × Nat)).trace ++ [Event.write [0x0008 >>> 8, 0x0008 &&& 0xFF]
        ((streamBus (fun _ => 1) (fun _ => none)).write (World.init ((0, 0) : Nat × Nat)).dev
          [0x0008 >>> 8, 0x0008 &&& 0xFF]).1] :=
  ⟨⟨by decide, by decide⟩,
   (cci_read_register_failure (streamBus (fun _ => 1) (fun _ => none)) (World.init (0, 0))
      0x0008 (by decide)).1 (by decide)⟩

/-- C9 fails as stated: the address write of DATA_0 is accepted in full, the
read delivers one byte `0x12` (fewer than 2), and `cci_read_register` returns
`0x1208`, not `0xFFFF`; with a read error it returns `0x0008`. -/
theorem cci_read_register_short_read_counterexample :
    (cci_read_register (streamBus (fun _ => 2) (fun _ => some [0x12])) (World.init (0, 0))
        0x0008).2.trace =
      [Event.write [0x00, 0x08] 2, Event.read 2 (some [0x12])] ∧
    (cci_read_register (streamBus (fun _ => 2) (fun _ => some [0x12])) (World.init (0, 0))
        0x0008).1 = 0x1208 ∧
    (cci_read_register (streamBus (fun _ => 2) (fun _ => none)) (World.init (0, 0))
        0x0008).2.trace =
      [Event.write [0x00, 0x08] 2, Event.read 2 none] ∧
    (cci_read_register (streamBus (fun _ => 2) (fun _ => none)) (World.init (0, 0))
        0x0008).1 = 0x0008 ∧
    (0x1208 : Nat) ≠ 0xFFFF ∧ (0x0008 : Nat) ≠ 0xFFFF :=
  ⟨rfl, rfl, rfl, rfl, by decide, by decide⟩

/-! ## Busy handshake: the terminal condition -/

/-- C11: for 16-bit `reg` and `value`, `cci_write_register` returns 1 if and
only if its bus write accepted all 4 bytes of the frame, and -1 otherwise (any
other return value of `write`, short or failed); in both cases the call adds
exactly one event, this one write, to the trace and leaves the device in the
state after it: nothing is retried. -/
theorem cci_write_register_result {σ : Type} (bus : Bus σ) (w : World σ) (reg value : Nat)
    (hreg : reg < 65536) (hval : value < 65536) :
    ((cci_write_register bus w reg value).1 = 1 ↔
      (bus.write w.dev (frame reg value)).1 = 4) ∧
    ((cci_write_register bus w reg value).1 = -1 ↔
      (bus.write w.dev (frame reg value)).1 ≠ 4) ∧
    (cci_write_register bus w reg value).2.trace =
      w.trace ++ [Event.write (frame reg value) (bus.write w.dev (frame reg value)).1] ∧
    (cci_write_register bus w reg value).2.dev = (bus.write w.dev (frame reg value)).2 := by
  have hb := frame_eq reg value hreg hval
  unfold cci_write_register
  simp only [hb, sys_write]
  by_cases h : (bus.write w.dev (frame reg value)).1 = 4
  · simp [h]
  · simp [h]

/-- C11 at COMMAND <- RUN_FFC: a bus that accepts 3 of the 4 bytes gives -1. -/
theorem cci_write_register_result_witness :
    (0x0004 < 65536 ∧ 0x0242 < 65536) ∧
    ((cci_write_register (streamBus (fun _ => 3) (fun _ => none)) (World.init (0, 0))
        0x0004 0x0242).1 = -1 ∧
      (cci_write_register (streamBus (fun _ => 3) (fun _ => none)) (World.init (0, 0))
        0x0004 0x0242).2.trace = [Event.write [0x00, 0x04, 0x02, 0x42] 3]) ∧
    ((cci_write_register (streamBus (fun _ => 3) (fun _ => none)) (World.init (0, 0))
        0x0004 0x0242).1 = 1 ↔
      ((streamBus (fun _ => 3) (fun _ => none)).write (World.init ((0, 0) : Nat × Nat)).dev
        (frame 0x0004 0x0242)).1 = 4) ∧
    ((cci_write_register (streamBus (fun _ => 3) (fun _ => none)) (World.init (0, 0))
        0x0004 0x0242).1 = -1 ↔
      ((streamBus (fun _ => 3) (fun _ => none)).write (World.init ((0, 0) : Nat × Nat)).dev
        (frame 0x0004 0x0242)).1 ≠ 4) ∧
    (cci_write_register (streamBus (fun _ => 3) (fun _ => none)) (World.init (0, 0))
        0x0004 0x0242).2.trace =
      (World.init ((0, 0) : Nat × Nat)).trace ++ [Event.write (frame 0x0004 0x0242)
        ((streamBus (fun _ => 3) (fun _ => none)).write (World.init ((0, 0) : Nat × Nat)).dev
          (frame 0x0004 0x0242)).1] ∧
    (cci_write_register (streamBus (fun _ => 3) (fun _ => none)) (World.init (0, 0))
        0x0004 0x0242).2.dev =
      ((streamBus (fun _ => 3) (fun _ => none)).write (World.init ((0, 0) : Nat × Nat)).dev
        (frame 0x0004 0x0242)).2 :=
  ⟨by decide, ⟨rfl, rfl⟩,
   cci_write_register_result (streamBus (fun _ => 3) (fun _ => none)) (World.init (0, 0))
     0x0004 0x0242 (by decide) (by decide)⟩

/-! ## Command layer: RUN operations -/

/-- Between its handshakes a RUN operation writes the COMMAND frame and, for
the reboot, sleeps 6 seconds. -/
theorem runBody_trace {σ : Type} (bus : Bus σ) (op : RunOp) (w : World σ) :
    ∃ ret, (runBody bus op w).trace =
      w.trace ++ (Event.write (frame 0x0004 op.cmd) ret :: op.delay) := by
  cases op with
  | ffc =>
    refine ⟨(bus.write w.dev (frame 0x0004 0x0242)).1, ?_⟩
    simp only [runBody, RunOp.delay]
    exact write_register_trace bus w 0x0004 0x0242 (by decide) (by decide)
  | oem_reboot =>
    refine ⟨(bus.write w.dev (frame 0x0004 0x4840)).1, ?_⟩
    simp only [runBody, RunOp.delay, sys_sleep]
    have h := write_register_trace bus w 0x0004 0x4840 (by decide) (by decide)
    show (cci_write_register bus w 0x0004 0x4840).2.trace ++ [Event.sleep 6] = _
    rw [h]
    simp [RunOp.cmd]

/-! ## Binding the slave address -/

theorem exec_eq_bracketed {σ : Type} (bus : Bus σ) (c : CmdOp) (fuel : Nat) (w : World σ) :
    c.exec bus fuel w = bracketed bus fuel w (c.body bus) (c.tail bus) := by
  cases c with
  | get op =>
    simp only [CmdOp.exec, getOp_run_eq, void_bind, bracketed, CmdOp.body, CmdOp.tail]
    rfl
  | set op arg =>
    simp only [CmdOp.exec, setOp_run_eq, bracketed, bind_done_unit, CmdOp.body, CmdOp.tail]
  | run op =>
    simp only [CmdOp.exec, runOp_run_eq, bracketed, bind_done_unit, CmdOp.body, CmdOp.tail]

theorem framesAttempted_append (a b : List Event) :
    framesAttempted (a ++ b) = framesAttempted a ++ framesAttempted b := by
  simp [framesAttempted]

theorem framesAttempted_of_no_frame (t : List Event) (h : ∀ e ∈ t, e.isFrame = false) :
    framesAttempted t = [] := by
  unfold framesAttempted
  rw [List.filterMap_eq_nil_iff]
  intro e he
  have hf := h e he
  cases e with
  | write buf ret =>
    simp only [Event.isFrame, beq_eq_false_iff_ne, ne_eq] at hf
    simp [Event.frameBytes, hf]
  | read _ _ => rfl
  | ioctl _ _ _ => rfl
  | sleep _ => rfl

/-- A register write attempts the same frame on every bus. -/
theorem write_register_attempt {σ : Type} (bus : Bus σ) (w : World σ) (reg value : Nat) :
    ∃ buf ret, buf.length = 4 ∧
      buf = [((reg % 65536) >>> 8) &&& 0xff, (reg % 65536) &&& 0xff,
        ((value % 65536) >>> 8) &&& 0xff, (value % 65536) &&& 0xff] ∧
      (cci_write_register bus w reg value).2.trace = w.trace ++ [Event.write buf ret] ∧
      (cci_write_register bus w reg value).2.dev = (bus.write w.dev buf).2 := by
  unfold cci_write_register
  simp only [sys_write]
  split <;> (refine ⟨_, _, ?_, rfl, rfl, rfl⟩; rfl)

/-- A register write keeps two worlds in correspondence when frame writes
keep the devices related. -/
theorem sim_write_register {σ1 σ2 : Type} (bus1 : Bus σ1) (bus2 : Bus σ2)
    (R : σ1 → σ2 → Prop)
    (hframe : ∀ s1 s2 buf, R s1 s2 → buf.length = 4 →
      R (bus1.write s1 buf).2 (bus2.write s2 buf).2)
    (w1 : World σ1) (w2 : World σ2) (reg value : Nat) (h : simWorld R w1 w2) :
    simWorld R (cci_write_register bus1 w1 reg value).2
      (cci_write_register bus2 w2 reg value).2 := by
  obtain ⟨b1, r1, hl1, hb1, ht1, hd1⟩ := write_register_attempt bus1 w1 reg value
  obtain ⟨b2, r2, _, hb2, ht2, hd2⟩ := write_register_attempt bus2 w2 reg value
  have hbb : b2 = b1 := by rw [hb1, hb2]
  subst hbb
  refine ⟨?_, ?_⟩
  · rw [hd1, hd2]
    exact hframe _ _ _ h.1 hl1
  · rw [ht1, ht2, framesAttempted_append, framesAttempted_append, h.2]
    simp [framesAttempted, Event.frameBytes, hl1]

theorem pollStep_dev {σ : Type} (bus : Bus σ) (w : World σ) :
    (pollStep bus w).2.dev = (bus.read (bus.write w.dev [0x00, 0x02]).2 2).2 := by
  simp [pollStep, sys_write, sys_read]

/-- A poll keeps two worlds in correspondence and fills the buffer alike. -/
theorem sim_pollStep {σ1 σ2 : Type} (bus1 : Bus σ1) (bus2 : Bus σ2) (R : σ1 → σ2 → Prop)
    (hpoll : sameStatusReads bus1 bus2 R)
    (w1 : World σ1) (w2 : World σ2) (h : simWorld R w1 w2) :
    (pollStep bus1 w1).1 = (pollStep bus2 w2).1 ∧
      simWorld R (pollStep bus1 w1).2 (pollStep bus2 w2).2 := by
  obtain ⟨hres, hR⟩ := hpoll w1.dev w2.dev h.1
  refine ⟨?_, ?_, ?_⟩
  · rw [pollStep_buf, pollStep_buf, pollRes, pollRes, hres]
  · rw [pollStep_dev, pollStep_dev]
    exact hR
  · rw [pollStep_trace, pollStep_trace, framesAttempted_append, framesAttempted_append, h.2]
    rfl

/-- The handshake loop returns on one bus exactly when it does on the other,
in corresponding worlds. -/
theorem sim_loop {σ1 σ2 : Type} (bus1 : Bus σ1) (bus2 : Bus σ2) (R : σ1 → σ2 → Prop)
    (hpoll : sameStatusReads bus1 bus2 R) :
    ∀ (fuel : Nat) (w1 : World σ1) (w2 : World σ2) (buf : List Nat), simWorld R w1 w2 →
      (cci_wait_busy_clear_loop bus1 fuel w1 buf).isDone =
        (cci_wait_busy_clear_loop bus2 fuel w2 buf).isDone ∧
      simWorld R (cci_wait_busy_clear_loop bus1 fuel w1 buf).world
        (cci_wait_busy_clear_loop bus2 fuel w2 buf).world := by
  intro fuel
  induction fuel with
  | zero =>
    intro w1 w2 buf h
    by_cases hb : buf.getD 1 0 &&& 0x07 = 0x06
    · rw [loop_ready bus1 0 w1 buf hb, loop_ready bus2 0 w2 buf hb]
      exact ⟨rfl, h⟩
    · rw [loop_zero bus1 w1 buf hb, loop_zero bus2 w2 buf hb]
      exact ⟨rfl, h⟩
  | succ n ih =>
    intro w1 w2 buf h
    by_cases hb : buf.getD 1 0 &&& 0x07 = 0x06
    · rw [loop_ready bus1 (n + 1) w1 buf hb, loop_ready bus2 (n + 1) w2 buf hb]
      exact ⟨rfl, h⟩
    · rw [loop_succ bus1 n w1 buf hb, loop_succ bus2 n w2 buf hb]
      obtain ⟨hbuf, hw⟩ := sim_pollStep bus1 bus2 R hpoll w1 w2 h
      rw [hbuf]
      exact ih _ _ _ hw

/-- The part between the handshakes keeps two worlds in correspondence. -/
theorem sim_body {σ1 σ2 : Type} (bus1 : Bus σ1) (bus2 : Bus σ2) (R : σ1 → σ2 → Prop)
    (hframe : framesKeepRelated bus1 bus2 R) (c : CmdOp)
    (w1 : World σ1) (w2 : World σ2) (h : simWorld R w1 w2) :
    simWorld R (c.body bus1 w1) (c.body bus2 w2) := by
  cases c with
  | get op =>
    simp only [CmdOp.body, getBody]
    exact sim_write_register bus1 bus2 R hframe _ _ _ _
      (sim_write_register bus1 bus2 R hframe _ _ _ _ h)
  | set op arg =>
    simp only [CmdOp.body, setBody]
    exact sim_write_register bus1 bus2 R hframe _ _ _ _
      (sim_write_register bus1 bus2 R hframe _ _ _ _
        (sim_write_register bus1 bus2 R hframe _ _ _ _
          (sim_write_register bus1 bus2 R hframe _ _ _ _ h)))
  | run op =>
    cases op with
    | ffc =>
      simp only [CmdOp.body, runBody]
      exact sim_write_register bus1 bus2 R hframe _ _ _ _ h
    | oem_reboot =>
      simp only [CmdOp.body, runBody]
      have hw := sim_write_register bus1 bus2 R hframe w1 w2 CCI_REG_COMMAND
        CCI_CMD_OEM_RUN_REBOOT h
      refine ⟨hw.1, ?_⟩
      simp only [sys_sleep, framesAttempted_append, hw.2]

/-- The part after the closing handshake attempts no frame. -/
theorem tail_framesAttempted {σ : Type} (bus : Bus σ) (c : CmdOp) (w : World σ) :
    framesAttempted (c.tail bus w).trace = framesAttempted w.trace := by
  cases c with
  | get op =>
    obtain ⟨r, hr, hnf⟩ := getTail_ext bus w
    simp only [CmdOp.tail]
    rw [hr, framesAttempted_append, framesAttempted_of_no_frame r hnf, List.append_nil]
  | set op arg => rfl
  | run op => rfl

/-- C14: the command layer does not abort a template on register-write
failures.  For every command operation and argument and any two buses that
answer the STATUS polls alike, however many bytes each of them accepts of a
4-byte register frame (also when every such write fails on one and succeeds on
the other), the operation attempts the same register frames on both, in the
same order and with the same bytes, and it returns on one exactly when it
returns on the other. -/
theorem frames_attempted_despite_write_failures {σ1 σ2 : Type} (bus1 : Bus σ1)
    (bus2 : Bus σ2) (R : σ1 → σ2 → Prop)
    (hpoll : sameStatusReads bus1 bus2 R) (hframe : framesKeepRelated bus1 bus2 R)
    (c : CmdOp) (fuel : Nat) (w1 : World σ1) (w2 : World σ2) (h : simWorld R w1 w2) :
    framesAttempted (c.exec bus1 fuel w1).world.trace =
      framesAttempted (c.exec bus2 fuel w2).world.trace ∧
    (c.exec bus1 fuel w1).isDone = (c.exec bus2 fuel w2).isDone := by
  rw [exec_eq_bracketed, exec_eq_bracketed]
  unfold bracketed WAIT_FOR_BUSY_DEASSERT cci_wait_busy_clear
  have hs1 := sim_loop bus1 bus2 R hpoll fuel w1 w2 [0x00, 0x07] h
  cases ho1 : cci_wait_busy_clear_loop bus1 fuel w1 [0x00, 0x07] with
  | blocked a1 =>
    cases ho2 : cci_wait_busy_clear_loop bus2 fuel w2 [0x00, 0x07] with
    | blocked a2 =>
      rw [ho1, ho2] at hs1
      exact ⟨hs1.2.2, rfl⟩
    | done u2 a2 =>
      rw [ho1, ho2] at hs1
      exact absurd hs1.1 (by simp [Outcome.isDone])
  | done u1 a1 =>
    cases ho2 : cci_wait_busy_clear_loop bus2 fuel w2 [0x00, 0x07] with
    | blocked a2 =>
      rw [ho1, ho2] at hs1
      exact absurd hs1.1 (by simp [Outcome.isDone])
    | done u2 a2 =>
      rw [ho1, ho2] at hs1
      have hb := sim_body bus1 bus2 R hframe c a1 a2 hs1.2
      have hs2 := sim_loop bus1 bus2 R hpoll fuel _ _ [0x00, 0x07] hb
      simp only [Outcome.bind]
      cases hp1 : cci_wait_busy_clear_loop bus1 fuel (c.body bus1 a1) [0x00, 0x07] with
      | blocked b1 =>
        cases hp2 : cci_wait_busy_clear_loop bus2 fuel (c.body bus2 a2) [0x00, 0x07] with
        | blocked b2 =>
          rw [hp1, hp2] at hs2
          exact ⟨hs2.2.2, rfl⟩
        | done v2 b2 =>
          rw [hp1, hp2] at hs2
          exact absurd hs2.1 (by simp [Outcome.isDone])
      | done v1 b1 =>
        cases hp2 : cci_wait_busy_clear_loop bus2 fuel (c.body bus2 a2) [0x00, 0x07] with
        | blocked b2 =>
          rw [hp1, hp2] at hs2
          exact absurd hs2.1 (by simp [Outcome.isDone])
        | done v2 b2 =>
          rw [hp1, hp2] at hs2
          refine ⟨?_, rfl⟩
          show framesAttempted (c.tail bus1 b1).trace = framesAttempted (c.tail bus2 b2).trace
          rw [tail_framesAttempted, tail_framesAttempted]
          exact hs2.2.2

/-- C14 at SET_TELEMETRY_LOCATION(1): on the register-file mock with every
frame write rejected the same four frames are attempted as on the mock that
accepts them. -/
theorem frames_attempted_despite_write_failures_witness :
    (sameStatusReads (rejectFrames regFileBus) regFileBus (fun _ _ => True) ∧
      framesKeepRelated (rejectFrames regFileBus) regFileBus (fun _ _ => True) ∧
      simWorld (fun _ _ => True) (World.init (⟨fun _ => 0, 0⟩ : RegFile))
        (World.init (⟨fun _ => 0, 0⟩ : RegFile))) ∧
    ((CmdOp.set SetOp.telemetry_location 1).exec (rejectFrames regFileBus) 1
        (World.init ⟨fun _ => 0, 0⟩)).world.trace =
      [Event.write [0x00, 0x02] 2, Event.read 2 (some [0x00, 0x06]),
       Event.write [0x00, 0x08, 0x00, 0x01] (-1), Event.write [0x00, 0x0A, 0x00, 0x00] (-1),
       Event.write [0x00, 0x04, 0x02, 0x21] (-1), Event.write [0x00, 0x06, 0x00, 0x02] (-1),
       Event.write [0x00, 0x02] 2, Event.read 2 (some [0x00, 0x06])] ∧
    framesAttempted ((CmdOp.set SetOp.telemetry_location 1).exec regFileBus 1
        (World.init ⟨fun _ => 0, 0⟩)).world.trace =
      [[0x00, 0x08, 0x00, 0x01], [0x00, 0x0A, 0x00, 0x00], [0x00, 0x04, 0x02, 0x21],
       [0x00, 0x06, 0x00, 0x02]] ∧
    framesAttempted ((CmdOp.set SetOp.telemetry_location 1).exec (rejectFrames regFileBus) 1
        (World.init ⟨fun _ => 0, 0⟩)).world.trace =
      framesAttempted ((CmdOp.set SetOp.telemetry_location 1).exec regFileBus 1
        (World.init ⟨fun _ => 0, 0⟩)).world.trace ∧
    ((CmdOp.set SetOp.telemetry_location 1).exec (rejectFrames regFileBus) 1
        (World.init ⟨fun _ => 0, 0⟩)).isDone =
      ((CmdOp.set SetOp.telemetry_location 1).exec regFileBus 1
        (World.init ⟨fun _ => 0, 0⟩)).isDone :=
  ⟨⟨fun _ _ _ => ⟨rfl, trivial⟩, fun _ _ _ _ _ => trivial, trivial, rfl⟩, rfl, rfl,
   frames_attempted_despite_write_failures (rejectFrames regFileBus) regFileBus
     (fun _ _ => True) (fun _ _ _ => ⟨rfl, trivial⟩) (fun _ _ _ _ _ => trivial)
     (CmdOp.set SetOp.telemetry_location 1) 1 (World.init ⟨fun _ => 0, 0⟩)
     (World.init ⟨fun _ => 0, 0⟩) ⟨trivial, rfl⟩⟩

/-! ## Busy handshake: under-reads -/

/-- C15: inside `cci_wait_busy_clear`, for every iteration of the loop whose
read delivers fewer than 2 bytes (an error, 0 bytes, or 1 byte of any value),
whatever the address write before it returned, the loop does not stop on this
iteration: the buffer test fails again, with no poll left the call is still
polling, and with polls left the next thing it does is one more STATUS poll
(address write `[0x00, 0x02]`, then a 2-byte read). -/
theorem under_read_polls_again {σ : Type} (bus : Bus σ) (w : World σ) (fuel : Nat)
    (buf : List Nat) (hbuf : ¬ buf.getD 1 0 &&& 0x07 = 0x06)
    (hshort : readCount (pollRes bus w) < 2) :
    ¬ ((pollStep bus w).1.getD 1 0 &&& 0x07 = 0x06) ∧
    cci_wait_busy_clear_loop bus 1 w buf = Outcome.blocked (pollStep bus w).2 ∧
    cci_wait_busy_clear_loop bus (fuel + 2) w buf =
      cci_wait_busy_clear_loop bus fuel (pollStep bus (pollStep bus w).2).2
        (pollStep bus (pollStep bus w).2).1 ∧
    (pollStep bus (pollStep bus w).2).2.trace =
      w.trace ++ [Event.write [0x00, 0x02] (bus.write w.dev [0x00, 0x02]).1,
        Event.read 2 (pollRes bus w),
        Event.write [0x00, 0x02] (bus.write (pollStep bus w).2.dev [0x00, 0x02]).1,
        Event.read 2 (pollRes bus (pollStep bus w).2)] := by
  have hnr : ¬ ((pollStep bus w).1.getD 1 0 &&& 0x07 = 0x06) := by
    rw [pollStep_ready, readyRes_iff]
    rintro ⟨b0, b1, hres, _⟩
    rw [hres] at hshort
    simp [readCount] at hshort
  refine ⟨hnr, ?_, ?_, ?_⟩
  · rw [loop_succ bus 0 w buf hbuf, loop_zero bus _ _ hnr]
  · rw [loop_succ bus (fuel + 1) w buf hbuf, loop_succ bus fuel _ _ hnr]
  · rw [pollStep_trace, pollStep_trace, List.append_assoc]
    rfl

/-- C15 at the short-read recovery: the first STATUS read delivers the single
byte `0x06`, the second the two bytes `0x00 0x06`; the handshake performs
exactly 2 polls and returns. -/
theorem under_read_polls_again_witness :
    (¬ ([0x00, 0x07] : List Nat).getD 1 0 &&& 0x07 = 0x06 ∧
      readCount (pollRes
        (streamBus (fun _ => 2) (fun m => if m = 0 then some [0x06] else some [0x00, 0x06]))
        (World.init (0, 0))) < 2) ∧
    cci_wait_busy_clear
        (streamBus (fun _ => 2) (fun m => if m = 0 then some [0x06] else some [0x00, 0x06]))
        2 (World.init (0, 0)) =
      Outcome.done ()
        { dev := (2, 2),
          trace := [Event.write [0x00, 0x02] 2, Event.read 2 (some [0x06]),
            Event.write [0x00, 0x02] 2, Event.read 2 (some [0x00, 0x06])],
          cci_last_read_count := 2 } ∧
    ¬ ((pollStep
        (streamBus (fun _ => 2) (fun m => if m = 0 then some [0x06] else some [0x00, 0x06]))
        (World.init (0, 0))).1.getD 1 0 &&& 0x07 = 0x06) ∧
    cci_wait_busy_clear_loop
        (streamBus (fun _ => 2) (fun m => if m = 0 then some [0x06] else some [0x00, 0x06]))
        1 (World.init (0, 0)) [0x00, 0x07] =
      Outcome.blocked (pollStep
        (streamBus (fun _ => 2) (fun m => if m = 0 then some [0x06] else some [0x00, 0x06]))
        (World.init (0, 0))).2 :=
  ⟨⟨by decide, by decide⟩, rfl,
   (under_read_polls_again
      (streamBus (fun _ => 2) (fun m => if m = 0 then some [0x06] else some [0x00, 0x06]))
      (World.init (0, 0)) 0 [0x00, 0x07] (by decide) (by decide)).1,
   (under_read_polls_again
      (streamBus (fun _ => 2) (fun m => if m = 0 then some [0x06] else some [0x00, 0x06]))
      (World.init (0, 0)) 0 [0x00, 0x07] (by decide) (by decide)).2.1⟩

/-! ## The diagnostic counter of `cci_read_register` -/

/-- C16 fails on the code: after a handshake has left `cci_last_read_count` at
2, a `cci_read_register` whose address write is accepted short (1 byte of 2)
returns `0xFFFF` without reading, and `cci_last_read_count` is still 2, not 0:
the early return does not touch the counter. -/
theorem last_read_count_stale_after_short_address_write :
    cci_wait_busy_clear
        (streamBus (fun i => if i = 0 then 2 else 1) (fun _ => some [0x00, 0x06]))
        1 (World.init (0, 0)) =
      Outcome.done ()
        { dev := (1, 1),
          trace := [Event.write [0x00, 0x02] 2, Event.read 2 (some [0x00, 0x06])],
          cci_last_read_count := 2 } ∧
    (cci_read_register
        (streamBus (fun i => if i = 0 then 2 else 1) (fun _ => some [0x00, 0x06]))
        { dev := (1, 1),
          trace := [Event.write [0x00, 0x02] 2, Event.read 2 (some [0x00, 0x06])],
          cci_last_read_count := 2 } 0x0008).1 = 0xFFFF ∧
    (cci_read_register
        (streamBus (fun i => if i = 0 then 2 else 1) (fun _ => some [0x00, 0x06]))
        { dev := (1, 1),
          trace := [Event.write [0x00, 0x02] 2, Event.read 2 (some [0x00, 0x06])],
          cci_last_read_count := 2 } 0x0008).2.trace =
      [Event.write [0x00, 0x02] 2, Event.read 2 (some [0x00, 0x06]),
       Event.write [0x00, 0x08] 1] ∧
    (cci_read_register
        (streamBus (fun i => if i = 0 then 2 else 1) (fun _ => some [0x00, 0x06]))
        { dev := (1, 1),
          trace := [Event.write [0x00, 0x02] 2, Event.read 2 (some [0x00, 0x06])],
          cci_last_read_count := 2 } 0x0008).2.cci_last_read_count = 2 :=
  ⟨rfl, rfl, rfl, rfl⟩

/-! ## The register writes of a command, whatever the bus answers -/

theorem setBody_frames {σ : Type} (bus : Bus σ) (cmd arg : Nat) (w : World σ)
    (hcmd : cmd < 65536) (harg : arg < 4294967296) :
    ∃ r1 r2 r3 r4, (setBody bus cmd arg w).trace =
      w.trace ++ [Event.write (frame 0x0008 (arg &&& 0xFFFF)) r1,
        Event.write (frame 0x000A ((arg >>> 16) &&& 0xFFFF)) r2,
        Event.write (frame 0x0004 cmd) r3,
        Event.write (frame 0x0006 2) r4] := by
  unfold setBody
  simp only [Nat.mod_eq_of_lt harg]
  rw [write_register_trace bus _ _ _ (by decide) (by decide),
    write_register_trace bus _ _ _ (by decide) hcmd,
    write_register_trace bus _ _ _ (by decide) (low_word_lt _),
    write_register_trace bus _ _ _ (by decide) (low_word_lt _)]
  refine ⟨?_, ?_, ?_, ?_, ?_⟩
  pick_goal 5
  · simp only [List.append_assoc, List.cons_append, List.nil_append, CCI_REG_DATA_0,
      CCI_WORD_LENGTH, CCI_REG_COMMAND, CCI_REG_DATA_LENGTH, Nat.reduceAdd]
    exact rfl

theorem getBody_frames {σ : Type} (bus : Bus σ) (cmd : Nat) (w : World σ)
    (hcmd : cmd < 65536) :
    ∃ r1 r2, (getBody bus cmd w).trace =
      w.trace ++ [Event.write (frame 0x0006 2) r1, Event.write (frame 0x0004 cmd) r2] := by
  unfold getBody
  rw [write_register_trace bus _ _ _ (by decide) hcmd,
    write_register_trace bus _ _ _ (by decide) (by decide)]
  refine ⟨?_, ?_, ?_⟩
  pick_goal 3
  · simp only [List.append_assoc, List.cons_append, List.nil_append, CCI_REG_DATA_0,
      CCI_WORD_LENGTH, CCI_REG_COMMAND, CCI_REG_DATA_LENGTH, Nat.reduceAdd]
    exact rfl

/-- The register writes of a RUN operation that returns. -/
theorem run_writes {σ : Type} (op : RunOp) (bus : Bus σ) (fuel : Nat) (w w' : World σ)
    (hdone : op.run bus fuel w = Outcome.done () w') :
    ∃ t, w'.trace = w.trace ++ t ∧ registerWrites t = [(0x0004, op.cmd)] := by
  rw [runOp_run_eq] at hdone
  obtain ⟨_, w1, hw1, hw2⟩ := bind_done _ _ _ _ hdone
  obtain ⟨h1, ht1, hh1⟩ := wait_done bus fuel w w1 hw1
  obtain ⟨h2, ht2, hh2⟩ := wait_done bus fuel _ w' hw2
  obtain ⟨ret, hbody⟩ := runBody_trace bus op w1
  refine ⟨h1 ++ (Event.write (frame 0x0004 op.cmd) ret :: op.delay) ++ h2, ?_, ?_⟩
  · rw [ht2, hbody, ht1]
    simp
  · rw [registerWrites_append, registerWrites_append, handshakeTrace_registerWrites h1 hh1,
      handshakeTrace_registerWrites h2 hh2]
    have hd := decodeFrame_frame 0x0004 op.cmd ret
    have hs : (Event.sleep 6).decodeFrame = none := rfl
    cases op <;> simp [registerWrites, List.filterMap_cons, hd, hs, RunOp.delay]

/-- The register writes of a GET operation that returns. -/
theorem get_writes {σ : Type} (op : GetOp) (bus : Bus σ) (fuel : Nat) (w w' : World σ)
    (v : Nat) (hdone : op.run bus fuel w = Outcome.done v w') :
    ∃ t, w'.trace = w.trace ++ t ∧ registerWrites t = [(0x0006, 2), (0x0004, op.cmd)] := by
  rw [getOp_run_eq] at hdone
  obtain ⟨_, w1, hw1, hrest⟩ := bind_done _ _ _ _ hdone
  obtain ⟨_, w2, hw2, htail⟩ := bind_done _ _ _ _ hrest
  obtain ⟨h1, ht1, hh1⟩ := wait_done bus fuel w w1 hw1
  obtain ⟨h2, ht2, hh2⟩ := wait_done bus fuel _ w2 hw2
  obtain ⟨r1, r2, hbody⟩ := getBody_frames bus op.cmd w1 (getOp_cmd_lt op)
  obtain ⟨r, hr, hnf⟩ := getTail_ext bus w2
  injection htail with _ hw'
  refine ⟨h1 ++ [Event.write (frame 0x0006 2) r1, Event.write (frame 0x0004 op.cmd) r2] ++
    h2 ++ r, ?_, ?_⟩
  · rw [← hw', hr, ht2, hbody, ht1]
    simp
  · rw [registerWrites_append, registerWrites_append, registerWrites_append,
      handshakeTrace_registerWrites h1 hh1, handshakeTrace_registerWrites h2 hh2,
      registerWrites_of_no_frame r hnf]
    simp [registerWrites, decodeFrame_frame]

/-- The register writes of a SET operation that returns. -/
theorem set_writes {σ : Type} (op : SetOp) (bus : Bus σ) (fuel : Nat) (w w' : World σ)
    (arg : Nat) (harg : arg < 4294967296)
    (hdone : op.run bus fuel w arg = Outcome.done () w') :
    ∃ t, w'.trace = w.trace ++ t ∧
      registerWrites t = [(0x0008, arg &&& 0xFFFF), (0x000A, (arg >>> 16) &&& 0xFFFF),
        (0x0004, op.cmd), (0x0006, 2)] := by
  rw [setOp_run_eq] at hdone
  obtain ⟨_, w1, hw1, hw2⟩ := bind_done _ _ _ _ hdone
  obtain ⟨h1, ht1, hh1⟩ := wait_done bus fuel w w1 hw1
  obtain ⟨h2, ht2, hh2⟩ := wait_done bus fuel _ w' hw2
  obtain ⟨r1, r2, r3, r4, hbody⟩ := setBody_frames bus op.cmd arg w1 (setOp_cmd_lt op) harg
  refine ⟨h1 ++ [Event.write (frame 0x0008 (arg &&& 0xFFFF)) r1,
        Event.write (frame 0x000A ((arg >>> 16) &&& 0xFFFF)) r2,
        Event.write (frame 0x0004 op.cmd) r3,
        Event.write (frame 0x0006 2) r4] ++ h2, ?_, ?_⟩
  · rw [ht2, hbody, ht1]
    simp
  · rw [registerWrites_append, registerWrites_append, handshakeTrace_registerWrites h1 hh1,
      handshakeTrace_registerWrites h2 hh2]
    simp [registerWrites, decodeFrame_frame]

/-! ## The consumer program -/

theorem cci_init_trace {σ : Type} (bus : Bus σ) (w : World σ) :
    ∃ ret, (cci_init bus w).2.trace = w.trace ++ [Event.ioctl 0x0703 0x2A ret] := by
  unfold cci_init
  simp only [sys_ioctl, I2C_SLAVE, CCI_ADDRESS]
  split <;> exact ⟨_, rfl⟩

/-! ## Register layer: what a short read returns -/

theorem and_0xff_lt (x : Nat) : x &&& 0xFF < 256 := by
  rw [and_0xff]
  exact Nat.mod_lt _ (by decide)

/-- C18: when the address write is accepted in full but the read delivers fewer
than 2 bytes, `cci_read_register` returns the bytes delivered followed by the
address bytes still in its buffer: for a read error or 0 bytes it returns `reg`
itself, for 1 byte `b` it returns `b * 256 + (reg & 0xFF)`. -/
theorem cci_read_register_stale_bytes {σ : Type} (bus : Bus σ) (w : World σ) (reg : Nat)
    (hreg : reg < 65536)
    (hw : (bus.write w.dev [reg >>> 8, reg &&& 0xFF]).1 = 2) :
    (((bus.read (bus.write w.dev [reg >>> 8, reg &&& 0xFF]).2 2).1 = none ∨
        (bus.read (bus.write w.dev [reg >>> 8, reg &&& 0xFF]).2 2).1 = some []) →
      (cci_read_register bus w reg).1 = reg) ∧
    (∀ b, b < 256 →
      (bus.read (bus.write w.dev [reg >>> 8, reg &&& 0xFF]).2 2).1 = some [b] →
      (cci_read_register bus w reg).1 = b * 256 + (reg &&& 0xFF)) := by
  have hb := addr_buf_eq reg hreg
  have hlo := and_0xff_lt reg
  have hreg2 : ((reg >>> 8) <<< 8 ||| (reg &&& 0xFF)) % 65536 = reg := by
    rw [shiftLeft_8_or _ _ hlo, be16 reg, Nat.mod_eq_of_lt hreg]
  constructor
  · intro hres
    unfold cci_read_register
    simp only [hb, sys_write, sys_read, hw]
    rcases hres with h | h <;> simp [h, delivered, readInto, hreg2]
  · intro b hbyte hres
    have hval : (b <<< 8 ||| (reg &&& 0xFF)) % 65536 = b * 256 + (reg &&& 0xFF) := by
      rw [shiftLeft_8_or _ _ hlo]
      exact Nat.mod_eq_of_lt (by omega)
    unfold cci_read_register
    simp only [hb, sys_write, sys_read, hw]
    simp [hres, delivered, readInto, Nat.mod_eq_of_lt hbyte, hval]

/-- C18 at DATA_0: a failed read yields `0x0008`, a read of the single byte
`0x12` yields `0x1208`. -/
theorem cci_read_register_stale_bytes_witness :
    (0x0008 < 65536 ∧
      ((streamBus (fun _ => 2) (fun _ => none)).write (World.init ((0, 0) : Nat × Nat)).dev
        [0x0008 >>> 8, 0x0008 &&& 0xFF]).1 = 2 ∧
      ((streamBus (fun _ => 2) (fun _ => none)).read
        ((streamBus (fun _ => 2) (fun _ => none)).write (World.init ((0, 0) : Nat × Nat)).dev
          [0x0008 >>> 8, 0x0008 &&& 0xFF]).2 2).1 = none) ∧
    (cci_read_register (streamBus (fun _ => 2) (fun _ => none)) (World.init (0, 0)) 0x0008).1 =
      0x0008 ∧
    (cci_read_register (streamBus (fun _ => 2) (fun _ => some [0x12])) (World.init (0, 0))
      0x0008).1 = 0x12 * 256 + (0x0008 &&& 0xFF) :=
  ⟨⟨by decide, rfl, rfl⟩,
   (cci_read_register_stale_bytes (streamBus (fun _ => 2) (fun _ => none)) (World.init (0, 0))
      0x0008 (by decide) rfl).1 (Or.inl rfl),
   (cci_read_register_stale_bytes (streamBus (fun _ => 2) (fun _ => some [0x12]))
      (World.init (0, 0)) 0x0008 (by decide) rfl).2 0x12 (by decide) rfl⟩

/-! ## The three ways a command operation can run -/

/-- An operation of the shape handshake, `body`, handshake, `k` runs in one of
three ways: it is still polling in the opening handshake and has done nothing
else; or the opening handshake returned, `body` ran and it is still polling in
the closing handshake; or both handshakes returned and it goes on with `k`. -/
theorem two_waits {σ α : Type} (bus : Bus σ) (fuel : Nat) (w : World σ)
    (body : World σ → World σ) (k : World σ → Outcome σ α) :
    (∃ w' t, cci_wait_busy_clear bus fuel w = Outcome.blocked w' ∧
      ((WAIT_FOR_BUSY_DEASSERT bus fuel w).bind fun _ w1 =>
        (WAIT_FOR_BUSY_DEASSERT bus fuel (body w1)).bind fun _ w2 => k w2) =
          Outcome.blocked w' ∧
      w'.trace = w.trace ++ t ∧ stillPolling fuel t) ∨
    (∃ w1 w' h1 t, cci_wait_busy_clear bus fuel w = Outcome.done () w1 ∧
      cci_wait_busy_clear bus fuel (body w1) = Outcome.blocked w' ∧
      ((WAIT_FOR_BUSY_DEASSERT bus fuel w).bind fun _ w1 =>
        (WAIT_FOR_BUSY_DEASSERT bus fuel (body w1)).bind fun _ w2 => k w2) =
          Outcome.blocked w' ∧
      handshakeTrace h1 = true ∧ w1.trace = w.trace ++ h1 ∧
      w'.trace = (body w1).trace ++ t ∧ stillPolling fuel t) ∨
    (∃ w1 w2 h1 h2, cci_wait_busy_clear bus fuel w = Outcome.done () w1 ∧
      cci_wait_busy_clear bus fuel (body w1) = Outcome.done () w2 ∧
      ((WAIT_FOR_BUSY_DEASSERT bus fuel w).bind fun _ w1 =>
        (WAIT_FOR_BUSY_DEASSERT bus fuel (body w1)).bind fun _ w2 => k w2) = k w2 ∧
      handshakeTrace h1 = true ∧ w1.trace = w.trace ++ h1 ∧
      handshakeTrace h2 = true ∧ w2.trace = (body w1).trace ++ h2) := by
  unfold WAIT_FOR_BUSY_DEASSERT
  cases hw1 : cci_wait_busy_clear bus fuel w with
  | blocked w' =>
    obtain ⟨t, ht, hb, hl⟩ := wait_blocked bus fuel w w' hw1
    exact Or.inl ⟨w', t, rfl, rfl, ht, hb, hl⟩
  | done u w1 =>
    obtain ⟨h1, ht1, hh1⟩ := wait_done bus fuel w w1 hw1
    cases hw2 : cci_wait_busy_clear bus fuel (body w1) with
    | blocked w' =>
      obtain ⟨t, ht, hb, hl⟩ := wait_blocked bus fuel _ w' hw2
      refine Or.inr (Or.inl ⟨w1, w', h1, t, rfl, hw2, ?_, hh1, ht1, ht, hb, hl⟩)
      simp only [Outcome.bind, hw2]
    | done u2 w2 =>
      obtain ⟨h2, ht2, hh2⟩ := wait_done bus fuel _ w2 hw2
      refine Or.inr (Or.inr ⟨w1, w2, h1, h2, rfl, hw2, ?_, hh1, ht1, hh2, ht2⟩)
      simp only [Outcome.bind, hw2]

theorem stillPolling_registerWrites (fuel : Nat) (t : List Event) (h : stillPolling fuel t) :
    registerWrites t = [] :=
  registerWrites_of_no_frame t (busyPolls_no_frame t h.1)

theorem setFrames_registerWrites (cmd V : Nat) :
    registerWrites (setFrames cmd V) =
      [(0x0008, V &&& 0xFFFF), (0x000A, (V >>> 16) &&& 0xFFFF), (0x0004, cmd), (0x0006, 2)] := by
  simp [registerWrites, setFrames, decodeFrame_frame]

theorem regfile_wait_returns (fuel : Nat) (hfuel : 1 ≤ fuel) :
    ∀ w0 : World RegFile, ∃ w1, cci_wait_busy_clear regFileBus fuel w0 = Outcome.done () w1 := by
  intro w0
  obtain ⟨w1, h, _⟩ := regfile_wait fuel w0 hfuel
  exact ⟨w1, h⟩

/-! ## Command layer: SET operations -/

/-- C3: for every SET operation and every 32-bit argument `V`, on a bus that
accepts every write, every run of the call is one of three: (a) it is still
polling in the opening handshake and has written no register; (b) the opening
handshake returned, exactly the four frames DATA_0 <- `V & 0xFFFF`,
DATA_0+2 <- `(V >> 16) & 0xFFFF`, COMMAND <- command ID, DATA_LENGTH <- 2 were
written in this order, and it is still polling in the closing handshake;
(c) it returned, and what it added is opening handshake, these four frames,
closing handshake.  In (b) and (c) the four are all the register writes of the
call.  If the handshake returns on this bus, the call returns, so (c) holds. -/
theorem set_register_write_sequence {σ : Type} (op : SetOp) (V : Nat) (bus : Bus σ)
    (fuel : Nat) (w : World σ)
    (hV : V < 4294967296)
    (hacc : ∀ s buf, (bus.write s buf).1 = (buf.length : Int)) :
    ((∃ w' t, op.run bus fuel w V = Outcome.blocked w' ∧
        w'.trace = w.trace ++ t ∧ stillPolling fuel t ∧ registerWrites t = []) ∨
     (∃ w' h1 t, op.run bus fuel w V = Outcome.blocked w' ∧ handshakeTrace h1 = true ∧
        w'.trace = w.trace ++ h1 ++ setFrames op.cmd V ++ t ∧ stillPolling fuel t ∧
        registerWrites (h1 ++ setFrames op.cmd V ++ t) =
          [(0x0008, V &&& 0xFFFF), (0x000A, (V >>> 16) &&& 0xFFFF), (0x0004, op.cmd),
           (0x0006, 2)]) ∨
     (∃ w' h1 h2, op.run bus fuel w V = Outcome.done () w' ∧ handshakeTrace h1 = true ∧
        handshakeTrace h2 = true ∧
        w'.trace = w.trace ++ h1 ++ setFrames op.cmd V ++ h2 ∧
        registerWrites (h1 ++ setFrames op.cmd V ++ h2) =
          [(0x0008, V &&& 0xFFFF), (0x000A, (V >>> 16) &&& 0xFFFF), (0x0004, op.cmd),
           (0x0006, 2)])) ∧
    ((∀ w0, ∃ w1, cci_wait_busy_clear bus fuel w0 = Outcome.done () w1) →
      ∃ w' h1 h2, op.run bus fuel w V = Outcome.done () w' ∧ handshakeTrace h1 = true ∧
        handshakeTrace h2 = true ∧
        w'.trace = w.trace ++ h1 ++ setFrames op.cmd V ++ h2 ∧
        registerWrites (h1 ++ setFrames op.cmd V ++ h2) =
          [(0x0008, V &&& 0xFFFF), (0x000A, (V >>> 16) &&& 0xFFFF), (0x0004, op.cmd),
           (0x0006, 2)]) := by
  have hbody : ∀ w1, (setBody bus op.cmd V w1).trace = w1.trace ++ setFrames op.cmd V :=
    fun w1 => setBody_trace bus op.cmd V w1 (setOp_cmd_lt op) hV hacc
  have hrun : op.run bus fuel w V =
      (WAIT_FOR_BUSY_DEASSERT bus fuel w).bind fun _ w1 =>
        (WAIT_FOR_BUSY_DEASSERT bus fuel (setBody bus op.cmd V w1)).bind fun _ w2 =>
          Outcome.done () w2 := by
    rw [setOp_run_eq]
    simp only [bind_done_unit]
  have hregs : ∀ a b : List Event, registerWrites a = [] → registerWrites b = [] →
      registerWrites (a ++ setFrames op.cmd V ++ b) =
        [(0x0008, V &&& 0xFFFF), (0x000A, (V >>> 16) &&& 0xFFFF), (0x0004, op.cmd),
         (0x0006, 2)] := by
    intro a b ha hb
    rw [registerWrites_append, registerWrites_append, ha, hb, setFrames_registerWrites]
    rfl
  have hcases := two_waits bus fuel w (setBody bus op.cmd V) (fun w2 => Outcome.done () w2)
  rw [← hrun] at hcases
  constructor
  · rcases hcases with ⟨w', t, _, ho, ht, hp⟩ | ⟨w1, w', h1, t, _, _, ho, hh1, ht1, ht, hp⟩ |
      ⟨w1, w2, h1, h2, _, _, ho, hh1, ht1, hh2, ht2⟩
    · exact Or.inl ⟨w', t, ho, ht, hp, stillPolling_registerWrites fuel t hp⟩
    · refine Or.inr (Or.inl ⟨w', h1, t, ho, hh1, ?_, hp, ?_⟩)
      · rw [ht, hbody, ht1]
      · exact hregs h1 t (handshakeTrace_registerWrites h1 hh1)
          (stillPolling_registerWrites fuel t hp)
    · refine Or.inr (Or.inr ⟨w2, h1, h2, ho, hh1, hh2, ?_, ?_⟩)
      · rw [ht2, hbody, ht1]
      · exact hregs h1 h2 (handshakeTrace_registerWrites h1 hh1)
          (handshakeTrace_registerWrites h2 hh2)
  · intro hterm
    rcases hcases with ⟨w', t, hb, _⟩ | ⟨w1, w', h1, t, _, hb, _⟩ |
      ⟨w1, w2, h1, h2, _, _, ho, hh1, ht1, hh2, ht2⟩
    · obtain ⟨x, hx⟩ := hterm w
      rw [hx] at hb
      cases hb
    · obtain ⟨x, hx⟩ := hterm (setBody bus op.cmd V w1)
      rw [hx] at hb
      cases hb
    · refine ⟨w2, h1, h2, ho, hh1, hh2, ?_, ?_⟩
      · rw [ht2, hbody, ht1]
      · exact hregs h1 h2 (handshakeTrace_registerWrites h1 hh1)
          (handshakeTrace_registerWrites h2 hh2)

/-- C3 at SET_TELEMETRY_LOCATION(1) on the register-file mock: the call
returns and the frames are DATA_0 <- 0x0001, DATA_0+2 <- 0x0000,
COMMAND <- 0x0221, DATA_LENGTH <- 0x0002. -/
theorem set_register_write_sequence_witness :
    ((1 : Nat) < 4294967296 ∧
      (∀ s buf, (regFileBus.write s buf).1 = (buf.length : Int)) ∧
      (∀ w0 : World RegFile, ∃ w1, cci_wait_busy_clear regFileBus 1 w0 = Outcome.done () w1)) ∧
    (SetOp.telemetry_location.run regFileBus 1 (World.init ⟨fun _ => 0, 0⟩) 1).world.trace =
      [Event.write [0x00, 0x02] 2, Event.read 2 (some [0x00, 0x06]),
       Event.write [0x00, 0x08, 0x00, 0x01] 4, Event.write [0x00, 0x0A, 0x00, 0x00] 4,
       Event.write [0x00, 0x04, 0x02, 0x21] 4, Event.write [0x00, 0x06, 0x00, 0x02] 4,
       Event.write [0x00, 0x02] 2, Event.read 2 (some [0x00, 0x06])] ∧
    ∃ w' h1 h2, SetOp.telemetry_location.run regFileBus 1 (World.init ⟨fun _ => 0, 0⟩) 1 =
        Outcome.done () w' ∧
      handshakeTrace h1 = true ∧ handshakeTrace h2 = true ∧
      w'.trace = (World.init (⟨fun _ => 0, 0⟩ : RegFile)).trace ++ h1 ++
        setFrames SetOp.telemetry_location.cmd 1 ++ h2 ∧
      registerWrites (h1 ++ setFrames SetOp.telemetry_location.cmd 1 ++ h2) =
        [(0x0008, 1 &&& 0xFFFF), (0x000A, (1 >>> 16) &&& 0xFFFF),
         (0x0004, SetOp.telemetry_location.cmd), (0x0006, 2)] :=
  ⟨⟨by decide, regFileBus_accepts, regfile_wait_returns 1 (by decide)⟩, rfl,
   (set_register_write_sequence SetOp.telemetry_location 1 regFileBus 1
     (World.init ⟨fun _ => 0, 0⟩) (by decide) regFileBus_accepts).2
     (regfile_wait_returns 1 (by decide))⟩

/-! ## Command layer: GET operations -/

/-- The result reads of a GET operation on a bus that completes every
transfer, and the value built from the bytes delivered. -/
theorem getTail_full {σ : Type} (bus : Bus σ) (w : World σ)
    (hacc : ∀ s buf, (bus.write s buf).1 = (buf.length : Int))
    (hrd : ∀ s, ∃ x y, (bus.read s 2).1 = some [x, y]) :
    ∃ a0 a1 c0 c1, a0 < 256 ∧ a1 < 256 ∧ c0 < 256 ∧ c1 < 256 ∧
      (getTail bus w).2.trace = w.trace ++ resultReads a0 a1 c0 c1 ∧
      (getTail bus w).1 = (c0 * 256 + c1) * 65536 + (a0 * 256 + a1) := by
  obtain ⟨a0, a1, ha0, ha1, hta, hva⟩ := read_register_full bus w 0x0008 (by decide) hacc hrd
  obtain ⟨c0, c1, hc0, hc1, htc, hvc⟩ :=
    read_register_full bus (cci_read_register bus w 0x0008).2 0x000A (by decide) hacc hrd
  refine ⟨a0, a1, c0, c1, ha0, ha1, hc0, hc1, ?_, ?_⟩
  · show (cci_read_register bus (cci_read_register bus w 0x0008).2 0x000A).2.trace = _
    rw [htc, hta]
    simp only [List.append_assoc, List.cons_append, List.nil_append, resultReads]
    rfl
  · show word32 (cci_read_register bus (cci_read_register bus w 0x0008).2 0x000A).1
      (cci_read_register bus w 0x0008).1 = _
    rw [hvc, hva]
    exact (word32_eq _ _ (by omega) (by omega)).1

/-- C4: for every GET operation, on a bus that completes every transfer, every
run of the call is one of three: (a) it is still polling in the opening
handshake and has accessed no other register; (b) the opening handshake
returned, exactly DATA_LENGTH <- 2 and then COMMAND <- command ID were written,
and it is still polling in the closing handshake, with no result read so far;
(c) it returned, and what it added is opening handshake, DATA_LENGTH <- 2,
COMMAND <- command ID, closing handshake, the read of DATA_0 and then the read
of DATA_0+2, nothing else.  If the handshake returns on this bus, the call
returns, so (c) holds. -/
theorem get_register_access_sequence {σ : Type} (op : GetOp) (bus : Bus σ)
    (fuel : Nat) (w : World σ)
    (hacc : ∀ s buf, (bus.write s buf).1 = (buf.length : Int))
    (hrd : ∀ s, ∃ x y, (bus.read s 2).1 = some [x, y]) :
    ((∃ w' t, op.run bus fuel w = Outcome.blocked w' ∧
        w'.trace = w.trace ++ t ∧ stillPolling fuel t) ∨
     (∃ w' h1 t, op.run bus fuel w = Outcome.blocked w' ∧ handshakeTrace h1 = true ∧
        w'.trace = w.trace ++ h1 ++ getFrames op.cmd ++ t ∧ stillPolling fuel t) ∨
     (∃ v w' h1 h2 a0 a1 c0 c1, op.run bus fuel w = Outcome.done v w' ∧
        handshakeTrace h1 = true ∧ handshakeTrace h2 = true ∧
        w'.trace = w.trace ++ h1 ++ getFrames op.cmd ++ h2 ++ resultReads a0 a1 c0 c1)) ∧
    ((∀ w0, ∃ w1, cci_wait_busy_clear bus fuel w0 = Outcome.done () w1) →
      ∃ v w' h1 h2 a0 a1 c0 c1, op.run bus fuel w = Outcome.done v w' ∧
        handshakeTrace h1 = true ∧ handshakeTrace h2 = true ∧
        w'.trace = w.trace ++ h1 ++ getFrames op.cmd ++ h2 ++ resultReads a0 a1 c0 c1) := by
  have hbody : ∀ w1, (getBody bus op.cmd w1).trace = w1.trace ++ getFrames op.cmd :=
    fun w1 => getBody_trace bus op.cmd w1 (getOp_cmd_lt op) hacc
  have hcases := two_waits bus fuel w (getBody bus op.cmd)
    (fun w2 => Outcome.done (getTail bus w2).1 (getTail bus w2).2)
  rw [← getOp_run_eq] at hcases
  have hdone : ∀ w1 w2 h1 h2,
      op.run bus fuel w = Outcome.done (getTail bus w2).1 (getTail bus w2).2 →
      handshakeTrace h1 = true → w1.trace = w.trace ++ h1 → handshakeTrace h2 = true →
      w2.trace = (getBody bus op.cmd w1).trace ++ h2 →
      ∃ v w' h1 h2 a0 a1 c0 c1, op.run bus fuel w = Outcome.done v w' ∧
        handshakeTrace h1 = true ∧ handshakeTrace h2 = true ∧
        w'.trace = w.trace ++ h1 ++ getFrames op.cmd ++ h2 ++ resultReads a0 a1 c0 c1 := by
    intro w1 w2 h1 h2 ho hh1 ht1 hh2 ht2
    obtain ⟨a0, a1, c0, c1, _, _, _, _, htail, _⟩ := getTail_full bus w2 hacc hrd
    refine ⟨_, _, h1, h2, a0, a1, c0, c1, ho, hh1, hh2, ?_⟩
    rw [htail, ht2, hbody, ht1]
  constructor
  · rcases hcases with ⟨w', t, _, ho, ht, hp⟩ | ⟨w1, w', h1, t, _, _, ho, hh1, ht1, ht, hp⟩ |
      ⟨w1, w2, h1, h2, _, _, ho, hh1, ht1, hh2, ht2⟩
    · exact Or.inl ⟨w', t, ho, ht, hp⟩
    · refine Or.inr (Or.inl ⟨w', h1, t, ho, hh1, ?_, hp⟩)
      rw [ht, hbody, ht1]
    · exact Or.inr (Or.inr (hdone w1 w2 h1 h2 ho hh1 ht1 hh2 ht2))
  · intro hterm
    rcases hcases with ⟨w', t, hb, _⟩ | ⟨w1, w', h1, t, _, hb, _⟩ |
      ⟨w1, w2, h1, h2, _, _, ho, hh1, ht1, hh2, ht2⟩
    · obtain ⟨x, hx⟩ := hterm w
      rw [hx] at hb
      cases hb
    · obtain ⟨x, hx⟩ := hterm (getBody bus op.cmd w1)
      rw [hx] at hb
      cases hb
    · exact hdone w1 w2 h1 h2 ho hh1 ht1 hh2 ht2

/-- C4 at GET_UPTIME on the register-file mock: the call returns. -/
theorem get_register_access_sequence_witness :
    ((∀ s buf, (regFileBus.write s buf).1 = (buf.length : Int)) ∧
      (∀ s, ∃ x y, (regFileBus.read s 2).1 = some [x, y]) ∧
      (∀ w0 : World RegFile, ∃ w1, cci_wait_busy_clear regFileBus 1 w0 = Outcome.done () w1)) ∧
    (GetOp.uptime.run regFileBus 1
        (World.init ⟨fun r => if r = 8 then 0xCDEF else if r = 10 then 0x00AB else 0, 0⟩)).world.trace =
      [Event.write [0x00, 0x02] 2, Event.read 2 (some [0x00, 0x06]),
       Event.write [0x00, 0x06, 0x00, 0x02] 4, Event.write [0x00, 0x04, 0x02, 0x0C] 4,
       Event.write [0x00, 0x02] 2, Event.read 2 (some [0x00, 0x06]),
       Event.write [0x00, 0x08] 2, Event.read 2 (some [0xCD, 0xEF]),
       Event.write [0x00, 0x0A] 2, Event.read 2 (some [0x00, 0xAB])] ∧
    ∃ v w' h1 h2 a0 a1 c0 c1,
      GetOp.uptime.run regFileBus 1
        (World.init ⟨fun r => if r = 8 then 0xCDEF else if r = 10 then 0x00AB else 0, 0⟩) =
        Outcome.done v w' ∧
      handshakeTrace h1 = true ∧ handshakeTrace h2 = true ∧
      w'.trace =
        (World.init (⟨fun r => if r = 8 then 0xCDEF else if r = 10 then 0x00AB else 0, 0⟩ :
          RegFile)).trace ++ h1 ++ getFrames GetOp.uptime.cmd ++ h2 ++
        resultReads a0 a1 c0 c1 :=
  ⟨⟨regFileBus_accepts, regFileBus_delivers, regfile_wait_returns 1 (by decide)⟩, rfl,
   (get_register_access_sequence GetOp.uptime regFileBus 1
     (World.init ⟨fun r => if r = 8 then 0xCDEF else if r = 10 then 0x00AB else 0, 0⟩)
     regFileBus_accepts regFileBus_delivers).2 (regfile_wait_returns 1 (by decide))⟩

/-! ## Command layer: the value a GET operation returns -/

/-- On the register-file mock a GET operation returns, and its value is the
word at DATA_0+2 times 65536 plus the word at DATA_0. -/
theorem regfile_get {fuel : Nat} (op : GetOp) (w0 : World RegFile) (ls ms : Nat)
    (hfuel : 1 ≤ fuel) (hls : ls < 65536) (hms : ms < 65536)
    (h8 : w0.dev.regs 0x0008 = ls) (h10 : w0.dev.regs 0x000A = ms) :
    ∃ w', op.run regFileBus fuel w0 = Outcome.done (ms * 65536 + ls) w' := by
  obtain ⟨wa, hwa, hra⟩ := regfile_wait fuel w0 hfuel
  obtain ⟨wb, hwb, hrb⟩ := regfile_wait fuel (getBody regFileBus op.cmd wa) hfuel
  have hget := regfile_getBody op.cmd wa (getOp_cmd_lt op)
  refine ⟨(getTail regFileBus wb).2, ?_⟩
  rw [getOp_run_eq, hwa]
  simp only [Outcome.bind, hwb]
  have hv : (getTail regFileBus wb).1 = ms * 65536 + ls := by
    rw [regfile_getTail, hrb, hget.1, hget.2, hra, h8, h10, Nat.mod_eq_of_lt hls,
      Nat.mod_eq_of_lt hms]
    exact (word32_eq ms ls hms hls).1
  rw [hv]

/-- C5: every run of a GET operation either is still polling in one of its
handshakes (and returns nothing), or returns `v = ms * 65536 + ls`, which is
`(ms << 16) | ls` and below `2^32`, where `ls` is the 16-bit word
`cci_read_register` returned for DATA_0 and `ms` the one it returned for
DATA_0+2, read in this order after the closing handshake; nothing of `ms` is
lost or sign-extended, also for `ms >= 0x8000`.  If the handshake returns on
the bus, the call returns this value.  On the register-file mock every pair of
16-bit words `ls`, `ms` in DATA_0, DATA_0+2 is returned as `ms * 65536 + ls`. -/
theorem get_return_value {σ : Type} (op : GetOp) (bus : Bus σ) (fuel : Nat)
    (w : World σ) :
    ((∃ w' p t, op.run bus fuel w = Outcome.blocked w' ∧ w'.trace = p ++ t ∧
        stillPolling fuel t) ∨
      ∃ (v : Nat) (w' w2 : World σ) (ls ms : Nat),
        op.run bus fuel w = Outcome.done v w' ∧
        (∃ p h, w2.trace = p ++ h ∧ handshakeTrace h = true) ∧
        ls = (cci_read_register bus w2 0x0008).1 ∧
        ms = (cci_read_register bus (cci_read_register bus w2 0x0008).2 0x000A).1 ∧
        w' = (cci_read_register bus (cci_read_register bus w2 0x0008).2 0x000A).2 ∧
        ls < 65536 ∧ ms < 65536 ∧
        v = ms * 65536 + ls ∧ v = (ms <<< 16) ||| ls ∧ v < 4294967296) ∧
    ((∀ w0, ∃ w1, cci_wait_busy_clear bus fuel w0 = Outcome.done () w1) →
      ∃ (v : Nat) (w' w2 : World σ) (ls ms : Nat),
        op.run bus fuel w = Outcome.done v w' ∧
        (∃ p h, w2.trace = p ++ h ∧ handshakeTrace h = true) ∧
        ls = (cci_read_register bus w2 0x0008).1 ∧
        ms = (cci_read_register bus (cci_read_register bus w2 0x0008).2 0x000A).1 ∧
        w' = (cci_read_register bus (cci_read_register bus w2 0x0008).2 0x000A).2 ∧
        ls < 65536 ∧ ms < 65536 ∧
        v = ms * 65536 + ls ∧ v = (ms <<< 16) ||| ls ∧ v < 4294967296) ∧
    (∀ (n ls ms : Nat) (w0 : World RegFile), 1 ≤ n → ls < 65536 → ms < 65536 →
      w0.dev.regs 0x0008 = ls → w0.dev.regs 0x000A = ms →
      ∃ w', op.run regFileBus n w0 = Outcome.done (ms * 65536 + ls) w') := by
  have hcases := two_waits bus fuel w (getBody bus op.cmd)
    (fun w2 => Outcome.done (getTail bus w2).1 (getTail bus w2).2)
  rw [← getOp_run_eq] at hcases
  have hdone : ∀ w1 w2 h2,
      op.run bus fuel w = Outcome.done (getTail bus w2).1 (getTail bus w2).2 →
      handshakeTrace h2 = true → w2.trace = (getBody bus op.cmd w1).trace ++ h2 →
      ∃ (v : Nat) (w' w2 : World σ) (ls ms : Nat),
        op.run bus fuel w = Outcome.done v w' ∧
        (∃ p h, w2.trace = p ++ h ∧ handshakeTrace h = true) ∧
        ls = (cci_read_register bus w2 0x0008).1 ∧
        ms = (cci_read_register bus (cci_read_register bus w2 0x0008).2 0x000A).1 ∧
        w' = (cci_read_register bus (cci_read_register bus w2 0x0008).2 0x000A).2 ∧
        ls < 65536 ∧ ms < 65536 ∧
        v = ms * 65536 + ls ∧ v = (ms <<< 16) ||| ls ∧ v < 4294967296 := by
    intro w1 w2 h2 ho hh2 ht2
    have hls := read_register_lt bus w2 0x0008
    have hms := read_register_lt bus (cci_read_register bus w2 0x0008).2 0x000A
    have hword := word32_eq _ _ hms hls
    refine ⟨_, _, w2, _, _, ho, ⟨_, h2, ht2, hh2⟩, rfl, rfl, rfl, hls, hms, hword.1,
      hword.2, ?_⟩
    show word32 (cci_read_register bus (cci_read_register bus w2 0x0008).2 0x000A).1
      (cci_read_register bus w2 0x0008).1 < _
    rw [hword.1]
    omega
  refine ⟨?_, ?_, ?_⟩
  · rcases hcases with ⟨w', t, _, ho, ht, hp⟩ | ⟨w1, w', h1, t, _, _, ho, _, _, ht, hp⟩ |
      ⟨w1, w2, h1, h2, _, _, ho, _, _, hh2, ht2⟩
    · exact Or.inl ⟨w', _, t, ho, ht, hp⟩
    · exact Or.inl ⟨w', _, t, ho, ht, hp⟩
    · exact Or.inr (hdone w1 w2 h2 ho hh2 ht2)
  · intro hterm
    rcases hcases with ⟨w', t, hb, _⟩ | ⟨w1, w', h1, t, _, hb, _⟩ |
      ⟨w1, w2, h1, h2, _, _, ho, _, _, hh2, ht2⟩
    · obtain ⟨x, hx⟩ := hterm w
      rw [hx] at hb
      cases hb
    · obtain ⟨x, hx⟩ := hterm (getBody bus op.cmd w1)
      rw [hx] at hb
      cases hb
    · exact hdone w1 w2 h2 ho hh2 ht2
  · intro n ls ms w0 hn hls hms h8 h10
    exact regfile_get op w0 ls ms hn hls hms h8 h10

/-- C5 at GET_UPTIME with DATA_0 = 0xCDEF and DATA_0+2 = 0x00AB on the
register-file mock: the call returns 0x00ABCDEF; and with DATA_0+2 = 0xFFFF
(above 0x8000) and DATA_0 = 0x1234 it returns 0xFFFF1234. -/
theorem get_return_value_witness :
    (∃ w', GetOp.uptime.run regFileBus 1
        (World.init ⟨fun r => if r = 8 then 0xCDEF else if r = 10 then 0x00AB else 0, 0⟩) =
      Outcome.done (0x00AB * 65536 + 0xCDEF) w') ∧
    (0x00AB * 65536 + 0xCDEF = 0x00ABCDEF) ∧
    (∃ w', GetOp.uptime.run regFileBus 1
        (World.init ⟨fun r => if r = 8 then 0x1234 else if r = 10 then 0xFFFF else 0, 0⟩) =
      Outcome.done (0xFFFF * 65536 + 0x1234) w') ∧
    (0xFFFF * 65536 + 0x1234 = 0xFFFF1234) :=
  ⟨(get_return_value GetOp.uptime regFileBus 1 (World.init ⟨fun _ => 0, 0⟩)).2.2 1 0xCDEF 0x00AB
     (World.init ⟨fun r => if r = 8 then 0xCDEF else if r = 10 then 0x00AB else 0, 0⟩)
     (by decide) (by decide) (by decide) rfl rfl,
   by decide,
   (get_return_value GetOp.uptime regFileBus 1 (World.init ⟨fun _ => 0, 0⟩)).2.2 1 0x1234 0xFFFF
     (World.init ⟨fun r => if r = 8 then 0x1234 else if r = 10 then 0xFFFF else 0, 0⟩)
     (by decide) (by decide) (by decide) rfl rfl,
   by decide⟩

/-! ## Command layer: RUN operations -/

theorem run_frame_registerWrites (op : RunOp) (ret : Int) (a b : List Event)
    (ha : registerWrites a = []) (hb : registerWrites b = []) :
    registerWrites (a ++ (Event.write (frame 0x0004 op.cmd) ret :: op.delay) ++ b) =
      [(0x0004, op.cmd)] := by
  rw [registerWrites_append, registerWrites_append, ha, hb]
  have hd := decodeFrame_frame 0x0004 op.cmd ret
  have hs : (Event.sleep 6).decodeFrame = none := rfl
  cases op <;> simp [registerWrites, List.filterMap_cons, hd, hs, RunOp.delay]

/-- C12: for both RUN operations (`cci_run_ffc` with 0x0242, `cc_run_oem_reboot`
with 0x4840) and every bus, every run of the call is one of three: (a) it is
still polling in the opening handshake and has written no register; (b) the
opening handshake returned, the single frame COMMAND <- command ID was written,
for the reboot `sleep(6)` followed, and it is still polling in the closing
handshake; (c) it returned, and what it added is opening handshake, the COMMAND
frame, for the reboot `sleep(6)`, closing handshake.  In (b) and (c) the
COMMAND write is the only register write (no DATA_LENGTH, no DATA_0) and the
6-second delay lies after it and before the first poll of the closing
handshake.  If the handshakes terminate on the bus, the call returns, so (c)
holds. -/
theorem run_register_write_sequence {σ : Type} (op : RunOp) (bus : Bus σ) (fuel : Nat)
    (w : World σ) :
    ((∃ w' t, op.run bus fuel w = Outcome.blocked w' ∧
        w'.trace = w.trace ++ t ∧ stillPolling fuel t ∧ registerWrites t = []) ∨
     (∃ (w' : World σ) (h1 t : List Event) (ret : Int),
        op.run bus fuel w = Outcome.blocked w' ∧ handshakeTrace h1 = true ∧
        w'.trace =
          w.trace ++ h1 ++ (Event.write (frame 0x0004 op.cmd) ret :: op.delay) ++ t ∧
        stillPolling fuel t ∧
        registerWrites (h1 ++ (Event.write (frame 0x0004 op.cmd) ret :: op.delay) ++ t) =
          [(0x0004, op.cmd)]) ∨
     (∃ (w' : World σ) (h1 h2 : List Event) (ret : Int),
        op.run bus fuel w = Outcome.done () w' ∧
        handshakeTrace h1 = true ∧ handshakeTrace h2 = true ∧
        w'.trace =
          w.trace ++ h1 ++ (Event.write (frame 0x0004 op.cmd) ret :: op.delay) ++ h2 ∧
        registerWrites (h1 ++ (Event.write (frame 0x0004 op.cmd) ret :: op.delay) ++ h2) =
          [(0x0004, op.cmd)])) ∧
    ((∀ w0, ∃ w1, cci_wait_busy_clear bus fuel w0 = Outcome.done () w1) →
      ∃ (w' : World σ) (h1 h2 : List Event) (ret : Int),
        op.run bus fuel w = Outcome.done () w' ∧
        handshakeTrace h1 = true ∧ handshakeTrace h2 = true ∧
        w'.trace =
          w.trace ++ h1 ++ (Event.write (frame 0x0004 op.cmd) ret :: op.delay) ++ h2 ∧
        registerWrites (h1 ++ (Event.write (frame 0x0004 op.cmd) ret :: op.delay) ++ h2) =
          [(0x0004, op.cmd)]) ∧
    (RunOp.ffc.cmd = 0x0242 ∧ RunOp.oem_reboot.cmd = 0x4840 ∧
      RunOp.ffc.delay = [] ∧ RunOp.oem_reboot.delay = [Event.sleep 6]) := by
  have hrun : op.run bus fuel w =
      (WAIT_FOR_BUSY_DEASSERT bus fuel w).bind fun _ w1 =>
        (WAIT_FOR_BUSY_DEASSERT bus fuel (runBody bus op w1)).bind fun _ w2 =>
          Outcome.done () w2 := by
    rw [runOp_run_eq]
    simp only [bind_done_unit]
  have hcases := two_waits bus fuel w (runBody bus op) (fun w2 => Outcome.done () w2)
  rw [← hrun] at hcases
  refine ⟨?_, ?_, rfl, rfl, rfl, rfl⟩
  · rcases hcases with ⟨w', t, _, ho, ht, hp⟩ | ⟨w1, w', h1, t, _, _, ho, hh1, ht1, ht, hp⟩ |
      ⟨w1, w2, h1, h2, _, _, ho, hh1, ht1, hh2, ht2⟩
    · exact Or.inl ⟨w', t, ho, ht, hp, stillPolling_registerWrites fuel t hp⟩
    · obtain ⟨ret, hbody⟩ := runBody_trace bus op w1
      refine Or.inr (Or.inl ⟨w', h1, t, ret, ho, hh1, ?_, hp, ?_⟩)
      · rw [ht, hbody, ht1]
      · exact run_frame_registerWrites op ret h1 t (handshakeTrace_registerWrites h1 hh1)
          (stillPolling_registerWrites fuel t hp)
    · obtain ⟨ret, hbody⟩ := runBody_trace bus op w1
      refine Or.inr (Or.inr ⟨w2, h1, h2, ret, ho, hh1, hh2, ?_, ?_⟩)
      · rw [ht2, hbody, ht1]
      · exact run_frame_registerWrites op ret h1 h2 (handshakeTrace_registerWrites h1 hh1)
          (handshakeTrace_registerWrites h2 hh2)
  · intro hterm
    rcases hcases with ⟨w', t, hb, _⟩ | ⟨w1, w', h1, t, _, hb, _⟩ |
      ⟨w1, w2, h1, h2, _, _, ho, hh1, ht1, hh2, ht2⟩
    · obtain ⟨x, hx⟩ := hterm w
      rw [hx] at hb
      cases hb
    · obtain ⟨x, hx⟩ := hterm (runBody bus op w1)
      rw [hx] at hb
      cases hb
    · obtain ⟨ret, hbody⟩ := runBody_trace bus op w1
      refine ⟨w2, h1, h2, ret, ho, hh1, hh2, ?_, ?_⟩
      · rw [ht2, hbody, ht1]
      · exact run_frame_registerWrites op ret h1 h2 (handshakeTrace_registerWrites h1 hh1)
          (handshakeTrace_registerWrites h2 hh2)

/-- C12 on the register-file mock, for the flat-field correction and for the
reboot: both calls return, with the single COMMAND frame and, for the reboot,
the delay before the closing handshake. -/
theorem run_register_write_sequence_witness :
    ((RunOp.ffc.run regFileBus 1 (World.init ⟨fun _ => 0, 0⟩)).world.trace =
      [Event.write [0x00, 0x02] 2, Event.read 2 (some [0x00, 0x06]),
       Event.write [0x00, 0x04, 0x02, 0x42] 4,
       Event.write [0x00, 0x02] 2, Event.read 2 (some [0x00, 0x06])]) ∧
    ((RunOp.oem_reboot.run regFileBus 1 (World.init ⟨fun _ => 0, 0⟩)).world.trace =
      [Event.write [0x00, 0x02] 2, Event.read 2 (some [0x00, 0x06]),
       Event.write [0x00, 0x04, 0x48, 0x40] 4, Event.sleep 6,
       Event.write [0x00, 0x02] 2, Event.read 2 (some [0x00, 0x06])]) ∧
    (∃ (w' : World RegFile) (h1 h2 : List Event) (ret : Int),
      RunOp.ffc.run regFileBus 1 (World.init ⟨fun _ => 0, 0⟩) = Outcome.done () w' ∧
      handshakeTrace h1 = true ∧ handshakeTrace h2 = true ∧
      w'.trace =
        (World.init (⟨fun _ => 0, 0⟩ : RegFile)).trace ++ h1 ++
          (Event.write (frame 0x0004 RunOp.ffc.cmd) ret :: RunOp.ffc.delay) ++ h2 ∧
      registerWrites (h1 ++ (Event.write (frame 0x0004 RunOp.ffc.cmd) ret :: RunOp.ffc.delay) ++ h2) =
        [(0x0004, RunOp.ffc.cmd)]) ∧
    (∃ (w' : World RegFile) (h1 h2 : List Event) (ret : Int),
      RunOp.oem_reboot.run regFileBus 1 (World.init ⟨fun _ => 0, 0⟩) = Outcome.done () w' ∧
      handshakeTrace h1 = true ∧ handshakeTrace h2 = true ∧
      w'.trace =
        (World.init (⟨fun _ => 0, 0⟩ : RegFile)).trace ++ h1 ++
          (Event.write (frame 0x0004 RunOp.oem_reboot.cmd) ret :: RunOp.oem_reboot.delay) ++ h2 ∧
      registerWrites (h1 ++ (Event.write (frame 0x0004 RunOp.oem_reboot.cmd) ret :: RunOp.oem_reboot.delay) ++ h2) =
        [(0x0004, RunOp.oem_reboot.cmd)]) :=
  ⟨rfl, rfl,
   (run_register_write_sequence RunOp.ffc regFileBus 1 (World.init ⟨fun _ => 0, 0⟩)).2.1
     (regfile_wait_returns 1 (by decide)),
   (run_register_write_sequence RunOp.oem_reboot regFileBus 1
     (World.init ⟨fun _ => 0, 0⟩)).2.1 (regfile_wait_returns 1 (by decide))⟩

/-! ## Command layer: the handshake brackets every command -/

theorem getBody_events {σ : Type} (bus : Bus σ) (cmd : Nat) (w : World σ) :
    ∃ B, (getBody bus cmd w).trace = w.trace ++ B ∧
      (∀ e ∈ B, e.isFrame = true ∨ e = Event.sleep 6) ∧ (∃ e ∈ B, e.isFrame = true) := by
  unfold getBody
  simp only
  obtain ⟨e1, hf1, h1⟩ := write_register_ext bus w CCI_REG_DATA_LENGTH 2
  obtain ⟨e2, hf2, h2⟩ := write_register_ext bus
    (cci_write_register bus w CCI_REG_DATA_LENGTH 2).2 CCI_REG_COMMAND cmd
  refine ⟨[e1, e2], ?_, ?_, e2, by simp, hf2⟩
  · rw [h2, h1]
    simp
  · intro e he
    simp only [List.mem_cons, List.mem_singleton, List.not_mem_nil, or_false] at he
    rcases he with rfl | rfl
    · exact Or.inl hf1
    · exact Or.inl hf2

theorem setBody_events {σ : Type} (bus : Bus σ) (cmd arg : Nat) (w : World σ) :
    ∃ B, (setBody bus cmd arg w).trace = w.trace ++ B ∧
      (∀ e ∈ B, e.isFrame = true ∨ e = Event.sleep 6) ∧ (∃ e ∈ B, e.isFrame = true) := by
  unfold setBody
  simp only
  obtain ⟨e1, hf1, h1⟩ := write_register_ext bus w CCI_REG_DATA_0 (arg % 4294967296 &&& 0xffff)
  obtain ⟨e2, hf2, h2⟩ := write_register_ext bus
    (cci_write_register bus w CCI_REG_DATA_0 (arg % 4294967296 &&& 0xffff)).2
    (CCI_REG_DATA_0 + CCI_WORD_LENGTH) ((arg % 4294967296) >>> 16 &&& 0xffff)
  obtain ⟨e3, hf3, h3⟩ := write_register_ext bus
    (cci_write_register bus
      (cci_write_register bus w CCI_REG_DATA_0 (arg % 4294967296 &&& 0xffff)).2
      (CCI_REG_DATA_0 + CCI_WORD_LENGTH) ((arg % 4294967296) >>> 16 &&& 0xffff)).2
    CCI_REG_COMMAND cmd
  obtain ⟨e4, hf4, h4⟩ := write_register_ext bus
    (cci_write_register bus
      (cci_write_register bus
        (cci_write_register bus w CCI_REG_DATA_0 (arg % 4294967296 &&& 0xffff)).2
        (CCI_REG_DATA_0 + CCI_WORD_LENGTH) ((arg % 4294967296) >>> 16 &&& 0xffff)).2
      CCI_REG_COMMAND cmd).2
    CCI_REG_DATA_LENGTH 2
  refine ⟨[e1, e2, e3, e4], ?_, ?_, e4, by simp, hf4⟩
  · rw [h4, h3, h2, h1]
    simp
  · intro e he
    simp only [List.mem_cons, List.mem_singleton, List.not_mem_nil, or_false] at he
    rcases he with rfl | rfl | rfl | rfl
    · exact Or.inl hf1
    · exact Or.inl hf2
    · exact Or.inl hf3
    · exact Or.inl hf4

theorem runBody_events {σ : Type} (bus : Bus σ) (op : RunOp) (w : World σ) :
    ∃ B, (runBody bus op w).trace = w.trace ++ B ∧
      (∀ e ∈ B, e.isFrame = true ∨ e = Event.sleep 6) ∧ (∃ e ∈ B, e.isFrame = true) := by
  cases op with
  | ffc =>
    obtain ⟨e1, hf1, h1⟩ := write_register_ext bus w CCI_REG_COMMAND CCI_CMD_SYS_RUN_FFC
    refine ⟨[e1], h1, ?_, e1, by simp, hf1⟩
    intro e he
    simp only [List.mem_singleton] at he
    subst he
    exact Or.inl hf1
  | oem_reboot =>
    obtain ⟨e1, hf1, h1⟩ := write_register_ext bus w CCI_REG_COMMAND CCI_CMD_OEM_RUN_REBOOT
    refine ⟨[e1, Event.sleep 6], ?_, ?_, e1, by simp, hf1⟩
    · simp only [runBody, sys_sleep, h1]
      simp
    · intro e he
      simp only [List.mem_cons, List.mem_singleton, List.not_mem_nil, or_false] at he
      rcases he with rfl | rfl
      · exact Or.inl hf1
      · exact Or.inr rfl

/-- Between its handshakes a command operation writes register frames, at
least one, and does nothing else but the reboot's `sleep(6)`. -/
theorem cmd_body_events {σ : Type} (bus : Bus σ) (c : CmdOp) (w : World σ) :
    ∃ B, (c.body bus w).trace = w.trace ++ B ∧
      (∀ e ∈ B, e.isFrame = true ∨ e = Event.sleep 6) ∧ (∃ e ∈ B, e.isFrame = true) := by
  cases c with
  | get op => exact getBody_events bus op.cmd w
  | set op arg => exact setBody_events bus op.cmd arg w
  | run op => exact runBody_events bus op w

/-- After its closing handshake a command operation writes no register frame;
only a GET operation does anything at all there (its result reads). -/
theorem cmd_tail_events {σ : Type} (bus : Bus σ) (c : CmdOp) (w : World σ) :
    ∃ r, (c.tail bus w).trace = w.trace ++ r ∧ (∀ e ∈ r, e.isFrame = false) ∧
      ((∀ op, c ≠ CmdOp.get op) → r = []) := by
  cases c with
  | get op =>
    obtain ⟨r, hr, hnf⟩ := getTail_ext bus w
    exact ⟨r, hr, hnf, fun h => absurd rfl (h op)⟩
  | set op arg => exact ⟨[], by simp [CmdOp.tail], by simp, fun _ => rfl⟩
  | run op => exact ⟨[], by simp [CmdOp.tail], by simp, fun _ => rfl⟩

/-- C7: with `WAIT_FOR_BUSY_DEASSERT()` a call of `cci_wait_busy_clear(fd)`,
for every command operation (GET, SET with any argument, RUN), every bus,
every bound on the polls and every start world:
(1) in the events the operation adds, whether it returns or is still
polling, every write of a 4-byte register frame comes after a STATUS poll
whose read delivered two bytes with `(low & 0x07) = 0x06`;
(2) every run is one of three: it is still polling in the opening handshake
and has done nothing else; or it added the opening handshake `h1`, then a part
`B` made of register frames only (and the reboot's `sleep(6)`), at least one,
and is still polling in the closing handshake, so it has neither returned nor
read a result; or it returned, and what it added is `h1`, `B`, a completed
closing handshake `h2` and a part `r` without any frame (the result reads of a
GET, nothing for SET and RUN): the closing handshake follows the last frame
and precedes the result reads and the return;
(3) if the handshake returns on the bus, the operation returns (third case);
(4) if every 2-byte read answers with low byte `0x07`, then for every bound
`N` the operation is still polling after `N` polls, and the events it added
are `N` STATUS address writes and `N` reads and no register frame, so no
COMMAND write. -/
theorem command_bracketed_by_handshakes {σ : Type} (bus : Bus σ) (c : CmdOp) (fuel : Nat)
    (w : World σ) :
    (∃ t, (c.exec bus fuel w).world.trace = w.trace ++ t ∧
      ∀ p e q, t = p ++ e :: q → e.isFrame = true → statusReady p) ∧
    ((∃ w' t, c.exec bus fuel w = Outcome.blocked w' ∧ w'.trace = w.trace ++ t ∧
        stillPolling fuel t) ∨
     (∃ (w' : World σ) (h1 B t : List Event),
        c.exec bus fuel w = Outcome.blocked w' ∧ handshakeTrace h1 = true ∧
        (∀ e ∈ B, e.isFrame = true ∨ e = Event.sleep 6) ∧ (∃ e ∈ B, e.isFrame = true) ∧
        w'.trace = w.trace ++ h1 ++ B ++ t ∧ stillPolling fuel t) ∨
     (∃ (w' : World σ) (h1 B h2 r : List Event),
        c.exec bus fuel w = Outcome.done () w' ∧
        handshakeTrace h1 = true ∧
        (∀ e ∈ B, e.isFrame = true ∨ e = Event.sleep 6) ∧ (∃ e ∈ B, e.isFrame = true) ∧
        handshakeTrace h2 = true ∧
        (∀ e ∈ r, e.isFrame = false) ∧ ((∀ op, c ≠ CmdOp.get op) → r = []) ∧
        w'.trace = w.trace ++ h1 ++ B ++ h2 ++ r)) ∧
    ((∀ w0, ∃ w1, cci_wait_busy_clear bus fuel w0 = Outcome.done () w1) →
      ∃ (w' : World σ) (h1 B h2 r : List Event),
        c.exec bus fuel w = Outcome.done () w' ∧
        handshakeTrace h1 = true ∧
        (∀ e ∈ B, e.isFrame = true ∨ e = Event.sleep 6) ∧ (∃ e ∈ B, e.isFrame = true) ∧
        handshakeTrace h2 = true ∧
        (∀ e ∈ r, e.isFrame = false) ∧ ((∀ op, c ≠ CmdOp.get op) → r = []) ∧
        w'.trace = w.trace ++ h1 ++ B ++ h2 ++ r) ∧
    ((∀ s, ∃ b0, b0 < 256 ∧ (bus.read s 2).1 = some [b0, 0x07]) →
      ∃ w' t, c.exec bus fuel w = Outcome.blocked w' ∧ w'.trace = w.trace ++ t ∧
        busyPolls t = true ∧ t.length = 2 * fuel ∧
        t.countP Event.isStatusWrite = fuel ∧ t.countP Event.isRead2 = fuel ∧
        (∀ e ∈ t, e.isFrame = false)) := by
  obtain ⟨body, tail, hbody, htail, hexec⟩ := exec_bracketed bus c
  have hcases := two_waits bus fuel w (c.body bus) (fun w2 => Outcome.done () (c.tail bus w2))
  have hex : c.exec bus fuel w =
      (WAIT_FOR_BUSY_DEASSERT bus fuel w).bind fun _ w1 =>
        (WAIT_FOR_BUSY_DEASSERT bus fuel (c.body bus w1)).bind fun _ w2 =>
          Outcome.done () (c.tail bus w2) := exec_eq_bracketed bus c fuel w
  rw [← hex] at hcases
  have hdone : ∀ w1 w2 h1 h2, c.exec bus fuel w = Outcome.done () (c.tail bus w2) →
      handshakeTrace h1 = true → w1.trace = w.trace ++ h1 → handshakeTrace h2 = true →
      w2.trace = (c.body bus w1).trace ++ h2 →
      ∃ (w' : World σ) (h1 B h2 r : List Event),
        c.exec bus fuel w = Outcome.done () w' ∧
        handshakeTrace h1 = true ∧
        (∀ e ∈ B, e.isFrame = true ∨ e = Event.sleep 6) ∧ (∃ e ∈ B, e.isFrame = true) ∧
        handshakeTrace h2 = true ∧
        (∀ e ∈ r, e.isFrame = false) ∧ ((∀ op, c ≠ CmdOp.get op) → r = []) ∧
        w'.trace = w.trace ++ h1 ++ B ++ h2 ++ r := by
    intro w1 w2 h1 h2 ho hh1 ht1 hh2 ht2
    obtain ⟨B, hB, hBf, hBe⟩ := cmd_body_events bus c w1
    obtain ⟨r, hr, hrf, hre⟩ := cmd_tail_events bus c w2
    refine ⟨_, h1, B, h2, r, ho, hh1, hBf, hBe, hh2, hrf, hre, ?_⟩
    rw [hr, ht2, hB, ht1]
  refine ⟨?_, ?_, ?_, ?_⟩
  · rw [hexec fuel w]
    obtain ⟨h, rest, ht, hnf, hready⟩ := bracketed_prefix bus fuel w body tail hbody htail
    exact ⟨h ++ rest, ht, frames_after_ready h rest hnf hready⟩
  · rcases hcases with ⟨w', t, _, ho, ht, hp⟩ | ⟨w1, w', h1, t, _, _, ho, hh1, ht1, ht, hp⟩ |
      ⟨w1, w2, h1, h2, _, _, ho, hh1, ht1, hh2, ht2⟩
    · exact Or.inl ⟨w', t, ho, ht, hp⟩
    · obtain ⟨B, hB, hBf, hBe⟩ := cmd_body_events bus c w1
      refine Or.inr (Or.inl ⟨w', h1, B, t, ho, hh1, hBf, hBe, ?_, hp⟩)
      rw [ht, hB, ht1]
    · exact Or.inr (Or.inr (hdone w1 w2 h1 h2 ho hh1 ht1 hh2 ht2))
  · intro hterm
    rcases hcases with ⟨w', t, hb, _⟩ | ⟨w1, w', h1, t, _, hb, _⟩ |
      ⟨w1, w2, h1, h2, _, _, ho, hh1, ht1, hh2, ht2⟩
    · obtain ⟨x, hx⟩ := hterm w
      rw [hx] at hb
      cases hb
    · obtain ⟨x, hx⟩ := hterm (c.body bus w1)
      rw [hx] at hb
      cases hb
    · exact hdone w1 w2 h1 h2 ho hh1 ht1 hh2 ht2
  · intro hbusy
    rw [hexec fuel w]
    obtain ⟨w', t, hb, ht, hp, hl⟩ := bracketed_busy bus fuel w body tail hbusy
    exact ⟨w', t, hb, ht, hp, hl, busyPolls_writes t hp hl, busyPolls_reads t hp hl,
      busyPolls_no_frame t hp⟩

/-- C7 on a bus whose STATUS always reads `0x07`: the reboot command, allowed
3 polls, is still polling after 3 polls and has written no frame; and on the
register-file mock GET_UPTIME returns with its result reads after the closing
handshake. -/
theorem command_bracketed_by_handshakes_witness :
    ((CmdOp.run RunOp.oem_reboot).exec (streamBus (fun _ => 2) (fun _ => some [0x00, 0x07])) 3
        (World.init (0, 0))).world.trace =
      [Event.write [0x00, 0x02] 2, Event.read 2 (some [0x00, 0x07]),
       Event.write [0x00, 0x02] 2, Event.read 2 (some [0x00, 0x07]),
       Event.write [0x00, 0x02] 2, Event.read 2 (some [0x00, 0x07])] ∧
    (∃ w' t, (CmdOp.run RunOp.oem_reboot).exec
        (streamBus (fun _ => 2) (fun _ => some [0x00, 0x07])) 3 (World.init (0, 0)) =
          Outcome.blocked w' ∧
      w'.trace = (World.init ((0, 0) : Nat × Nat)).trace ++ t ∧
      busyPolls t = true ∧ t.length = 2 * 3 ∧
      t.countP Event.isStatusWrite = 3 ∧ t.countP Event.isRead2 = 3 ∧
      (∀ e ∈ t, e.isFrame = false)) ∧
    ((CmdOp.get GetOp.uptime).exec regFileBus 1 (World.init ⟨fun _ => 0, 0⟩)).world.trace =
      [Event.write [0x00, 0x02] 2, Event.read 2 (some [0x00, 0x06]),
       Event.write [0x00, 0x06, 0x00, 0x02] 4, Event.write [0x00, 0x04, 0x02, 0x0C] 4,
       Event.write [0x00, 0x02] 2, Event.read 2 (some [0x00, 0x06]),
       Event.write [0x00, 0x08] 2, Event.read 2 (some [0x00, 0x00]),
       Event.write [0x00, 0x0A] 2, Event.read 2 (some [0x00, 0x00])] ∧
    (∃ (w' : World RegFile) (h1 B h2 r : List Event),
      (CmdOp.get GetOp.uptime).exec regFileBus 1 (World.init ⟨fun _ => 0, 0⟩) =
        Outcome.done () w' ∧
      handshakeTrace h1 = true ∧
      (∀ e ∈ B, e.isFrame = true ∨ e = Event.sleep 6) ∧ (∃ e ∈ B, e.isFrame = true) ∧
      handshakeTrace h2 = true ∧
      (∀ e ∈ r, e.isFrame = false) ∧
      ((∀ op, CmdOp.get GetOp.uptime ≠ CmdOp.get op) → r = []) ∧
      w'.trace = (World.init (⟨fun _ => 0, 0⟩ : RegFile)).trace ++ h1 ++ B ++ h2 ++ r) :=
  ⟨rfl,
   (command_bracketed_by_handshakes (streamBus (fun _ => 2) (fun _ => some [0x00, 0x07]))
      (CmdOp.run RunOp.oem_reboot) 3 (World.init (0, 0))).2.2.2
     (fun _ => ⟨0x00, by decide, rfl⟩),
   rfl,
   (command_bracketed_by_handshakes regFileBus (CmdOp.get GetOp.uptime) 1
      (World.init ⟨fun _ => 0, 0⟩)).2.2.1 (regfile_wait_returns 1 (by decide))⟩

/-! ## The register writes of a command at any point of its run -/

/-- An operation of the shape handshake, `body`, handshake, `k` that is still
polling has written either nothing or all register writes of `body`. -/
theorem blocked_stage {σ α : Type} (bus : Bus σ) (fuel : Nat) (w w' : World σ)
    (body : World σ → World σ) (k : World σ → Outcome σ α) (L : List (Nat × Nat))
    (hbody : ∀ w1, ∃ B, (body w1).trace = w1.trace ++ B ∧ registerWrites B = L)
    (hk : ∀ w2, (k w2).isDone = true)
    (hb : ((WAIT_FOR_BUSY_DEASSERT bus fuel w).bind fun _ w1 =>
        (WAIT_FOR_BUSY_DEASSERT bus fuel (body w1)).bind fun _ w2 => k w2) =
          Outcome.blocked w') :
    ∃ t, w'.trace = w.trace ++ t ∧ (registerWrites t = [] ∨ registerWrites t = L) := by
  rcases two_waits bus fuel w body k with ⟨x, t, _, ho, ht, hp⟩ |
    ⟨w1, x, h1, t, _, _, ho, hh1, ht1, ht, hp⟩ | ⟨w1, w2, h1, h2, _, _, ho, _⟩
  · rw [hb] at ho
    injection ho with hx
    subst hx
    exact ⟨t, ht, Or.inl (stillPolling_registerWrites fuel t hp)⟩
  · rw [hb] at ho
    injection ho with hx
    subst hx
    obtain ⟨B, hB, hL⟩ := hbody w1
    refine ⟨h1 ++ B ++ t, ?_, Or.inr ?_⟩
    · rw [ht, hB, ht1]
      simp
    · rw [registerWrites_append, registerWrites_append, handshakeTrace_registerWrites h1 hh1,
        stillPolling_registerWrites fuel t hp, hL]
      simp
  · rw [hb] at ho
    have := hk w2
    rw [← ho] at this
    cases this

/-- If the handshake returns on the bus, an operation of the shape handshake,
`body`, handshake, `k` gets as far as `k`. -/
theorem reaches_k {σ α : Type} (bus : Bus σ) (fuel : Nat) (w : World σ)
    (body : World σ → World σ) (k : World σ → Outcome σ α)
    (hterm : ∀ w0, ∃ w1, cci_wait_busy_clear bus fuel w0 = Outcome.done () w1) :
    ∃ w2, ((WAIT_FOR_BUSY_DEASSERT bus fuel w).bind fun _ w1 =>
        (WAIT_FOR_BUSY_DEASSERT bus fuel (body w1)).bind fun _ w2 => k w2) = k w2 := by
  rcases two_waits bus fuel w body k with ⟨x, t, hb, _⟩ | ⟨w1, x, h1, t, _, hb, _⟩ |
    ⟨w1, w2, h1, h2, _, _, ho, _⟩
  · obtain ⟨y, hy⟩ := hterm w
    rw [hy] at hb
    cases hb
  · obtain ⟨y, hy⟩ := hterm (body w1)
    rw [hy] at hb
    cases hb
  · exact ⟨w2, ho⟩

/-- Every run of a RUN operation: still polling with no register written or
with COMMAND written, or returned with COMMAND written. -/
theorem run_stage {σ : Type} (op : RunOp) (bus : Bus σ) (fuel : Nat) (w : World σ) :
    (∃ w' t, op.run bus fuel w = Outcome.blocked w' ∧ w'.trace = w.trace ++ t ∧
      (registerWrites t = [] ∨ registerWrites t = [(0x0004, op.cmd)])) ∨
    (∃ w' t, op.run bus fuel w = Outcome.done () w' ∧ w'.trace = w.trace ++ t ∧
      registerWrites t = [(0x0004, op.cmd)]) := by
  cases ho : op.run bus fuel w with
  | done u w' =>
    obtain ⟨t, ht, hr⟩ := run_writes op bus fuel w w' ho
    exact Or.inr ⟨w', t, rfl, ht, hr⟩
  | blocked w' =>
    have hrun : op.run bus fuel w =
        (WAIT_FOR_BUSY_DEASSERT bus fuel w).bind fun _ w1 =>
          (WAIT_FOR_BUSY_DEASSERT bus fuel (runBody bus op w1)).bind fun _ w2 =>
            Outcome.done () w2 := by
      rw [runOp_run_eq]
      simp only [bind_done_unit]
    rw [hrun] at ho
    obtain ⟨t, ht, hr⟩ := blocked_stage bus fuel w w' (runBody bus op)
      (fun w2 => Outcome.done () w2) [(0x0004, op.cmd)]
      (fun w1 => by
        obtain ⟨ret, hbody⟩ := runBody_trace bus op w1
        refine ⟨_, hbody, ?_⟩
        have h := run_frame_registerWrites op ret [] [] rfl rfl
        simpa using h)
      (fun _ => rfl) ho
    exact Or.inl ⟨w', t, rfl, ht, hr⟩

/-- Every run of a GET operation: still polling with no register written or
with DATA_LENGTH and COMMAND written, or returned with both written. -/
theorem get_stage {σ : Type} (op : GetOp) (bus : Bus σ) (fuel : Nat) (w : World σ) :
    (∃ w' t, op.run bus fuel w = Outcome.blocked w' ∧ w'.trace = w.trace ++ t ∧
      (registerWrites t = [] ∨ registerWrites t = [(0x0006, 2), (0x0004, op.cmd)])) ∨
    (∃ v w' t, op.run bus fuel w = Outcome.done v w' ∧ w'.trace = w.trace ++ t ∧
      registerWrites t = [(0x0006, 2), (0x0004, op.cmd)]) := by
  cases ho : op.run bus fuel w with
  | done v w' =>
    obtain ⟨t, ht, hr⟩ := get_writes op bus fuel w w' v ho
    exact Or.inr ⟨v, w', t, rfl, ht, hr⟩
  | blocked w' =>
    rw [getOp_run_eq] at ho
    obtain ⟨t, ht, hr⟩ := blocked_stage bus fuel w w' (getBody bus op.cmd)
      (fun w2 => Outcome.done (getTail bus w2).1 (getTail bus w2).2)
      [(0x0006, 2), (0x0004, op.cmd)]
      (fun w1 => by
        obtain ⟨r1, r2, hbody⟩ := getBody_frames bus op.cmd w1 (getOp_cmd_lt op)
        refine ⟨_, hbody, ?_⟩
        simp [registerWrites, decodeFrame_frame])
      (fun _ => rfl) ho
    exact Or.inl ⟨w', t, rfl, ht, hr⟩

/-- Every run of a SET operation: still polling with no register written or
with its four frames written, or returned with the four written. -/
theorem set_stage {σ : Type} (op : SetOp) (bus : Bus σ) (fuel : Nat) (w : World σ)
    (arg : Nat) (harg : arg < 4294967296) :
    (∃ w' t, op.run bus fuel w arg = Outcome.blocked w' ∧ w'.trace = w.trace ++ t ∧
      (registerWrites t = [] ∨
        registerWrites t = [(0x0008, arg &&& 0xFFFF), (0x000A, (arg >>> 16) &&& 0xFFFF),
          (0x0004, op.cmd), (0x0006, 2)])) ∨
    (∃ w' t, op.run bus fuel w arg = Outcome.done () w' ∧ w'.trace = w.trace ++ t ∧
      registerWrites t = [(0x0008, arg &&& 0xFFFF), (0x000A, (arg >>> 16) &&& 0xFFFF),
        (0x0004, op.cmd), (0x0006, 2)]) := by
  cases ho : op.run bus fuel w arg with
  | done u w' =>
    obtain ⟨t, ht, hr⟩ := set_writes op bus fuel w w' arg harg ho
    exact Or.inr ⟨w', t, rfl, ht, hr⟩
  | blocked w' =>
    have hrun : op.run bus fuel w arg =
        (WAIT_FOR_BUSY_DEASSERT bus fuel w).bind fun _ w1 =>
          (WAIT_FOR_BUSY_DEASSERT bus fuel (setBody bus op.cmd arg w1)).bind fun _ w2 =>
            Outcome.done () w2 := by
      rw [setOp_run_eq]
      simp only [bind_done_unit]
    rw [hrun] at ho
    obtain ⟨t, ht, hr⟩ := blocked_stage bus fuel w w' (setBody bus op.cmd arg)
      (fun w2 => Outcome.done () w2)
      [(0x0008, arg &&& 0xFFFF), (0x000A, (arg >>> 16) &&& 0xFFFF), (0x0004, op.cmd),
        (0x0006, 2)]
      (fun w1 => by
        obtain ⟨r1, r2, r3, r4, hbody⟩ := setBody_frames bus op.cmd arg w1 (setOp_cmd_lt op) harg
        refine ⟨_, hbody, ?_⟩
        simp [registerWrites, decodeFrame_frame])
      (fun _ => rfl) ho
    exact Or.inl ⟨w', t, rfl, ht, hr⟩

/-- If the handshake returns on the bus, every command function returns. -/
theorem run_returns {σ : Type} (op : RunOp) (bus : Bus σ) (fuel : Nat) (w : World σ)
    (hterm : ∀ w0, ∃ w1, cci_wait_busy_clear bus fuel w0 = Outcome.done () w1) :
    ∃ w', op.run bus fuel w = Outcome.done () w' := by
  obtain ⟨w2, h⟩ := reaches_k bus fuel w (runBody bus op) (fun w2 => Outcome.done () w2) hterm
  refine ⟨w2, ?_⟩
  rw [runOp_run_eq, ← h]
  simp only [bind_done_unit]

theorem get_returns {σ : Type} (op : GetOp) (bus : Bus σ) (fuel : Nat) (w : World σ)
    (hterm : ∀ w0, ∃ w1, cci_wait_busy_clear bus fuel w0 = Outcome.done () w1) :
    ∃ v w', op.run bus fuel w = Outcome.done v w' := by
  obtain ⟨w2, h⟩ := reaches_k bus fuel w (getBody bus op.cmd)
    (fun w2 => Outcome.done (getTail bus w2).1 (getTail bus w2).2) hterm
  refine ⟨(getTail bus w2).1, (getTail bus w2).2, ?_⟩
  rw [getOp_run_eq]
  exact h

theorem set_returns {σ : Type} (op : SetOp) (bus : Bus σ) (fuel : Nat) (w : World σ)
    (arg : Nat)
    (hterm : ∀ w0, ∃ w1, cci_wait_busy_clear bus fuel w0 = Outcome.done () w1) :
    ∃ w', op.run bus fuel w arg = Outcome.done () w' := by
  obtain ⟨w2, h⟩ := reaches_k bus fuel w (setBody bus op.cmd arg)
    (fun w2 => Outcome.done () w2) hterm
  refine ⟨w2, ?_⟩
  rw [setOp_run_eq, ← h]
  simp only [bind_done_unit]

/-! ## The consumer program -/

theorem main_eq {σ : Type} (bus : Bus σ) (fuel : Nat) (w : World σ) (open_ret : Int)
    (hopen : 0 ≤ open_ret) :
    main bus fuel w open_ret =
      (RunOp.oem_reboot.run bus fuel (cci_init bus w).2).bind fun _ w1 =>
      (GetOp.gpio_mode.run bus fuel w1).bind fun resp w2 =>
      if resp ≠ 5 then
        (SetOp.gpio_mode.run bus fuel w2 5).bind fun _ w3 =>
        (GetOp.gpio_mode.run bus fuel w3).bind fun _ w4 => Outcome.done 0 w4
      else (GetOp.gpio_mode.run bus fuel w2).bind fun _ w4 => Outcome.done 0 w4 := by
  unfold main
  simp only [not_lt.mpr hopen, if_false]
  rfl

theorem registerWrites_ioctl (request arg : Nat) (ret : Int) (t : List Event) :
    registerWrites (Event.ioctl request arg ret :: t) = registerWrites t := rfl

/-- Where a run of `main` stands, told by the register writes it has made. -/
theorem main_stages {σ : Type} (bus : Bus σ) (fuel : Nat) (w : World σ) (open_ret : Int)
    (hopen : 0 ≤ open_ret) :
    ∃ t, (main bus fuel w open_ret).world.trace = w.trace ++ t ∧
     (((main bus fuel w open_ret).isDone = false ∧
        (registerWrites t = [] ∨ registerWrites t = [(0x0004, 0x4840)] ∨
          registerWrites t = [(0x0004, 0x4840), (0x0006, 2), (0x0004, 0x4854)])) ∨
      (∃ w1 w2, cc_run_oem_reboot bus fuel (cci_init bus w).2 = Outcome.done () w1 ∧
        cci_get_gpio_mode bus fuel w1 = Outcome.done 5 w2 ∧
        registerWrites t = [(0x0004, 0x4840), (0x0006, 2), (0x0004, 0x4854), (0x0006, 2), (0x0004, 0x4854)]) ∨
      (∃ w1 w2 resp, cc_run_oem_reboot bus fuel (cci_init bus w).2 = Outcome.done () w1 ∧
        cci_get_gpio_mode bus fuel w1 = Outcome.done resp w2 ∧ resp ≠ 5 ∧
        (((main bus fuel w open_ret).isDone = false ∧ registerWrites t =
          [(0x0004, 0x4840), (0x0006, 2), (0x0004, 0x4854),
          (0x0008, 5), (0x000A, 0), (0x0004, 0x4855), (0x0006, 2)]) ∨
         registerWrites t =
          [(0x0004, 0x4840), (0x0006, 2), (0x0004, 0x4854),
          (0x0008, 5), (0x000A, 0), (0x0004, 0x4855), (0x0006, 2),
          (0x0006, 2), (0x0004, 0x4854)]))) := by
  obtain ⟨iret, hinit⟩ := cci_init_trace bus w
  have hmain := main_eq bus fuel w open_ret hopen
  rcases run_stage RunOp.oem_reboot bus fuel (cci_init bus w).2 with
    ⟨w', t1, hrb, ht1, hr1⟩ | ⟨w1, t1, hrb, ht1, hr1⟩
  · have hm : main bus fuel w open_ret = Outcome.blocked w' := by
      rw [hmain, hrb]
      rfl
    refine ⟨Event.ioctl 0x0703 0x2A iret :: t1, ?_, Or.inl ⟨?_, ?_⟩⟩
    · rw [hm]
      show w'.trace = _
      rw [ht1, hinit]
      simp
    · rw [hm]
      rfl
    · rw [registerWrites_ioctl]
      rcases hr1 with h | h
      · exact Or.inl h
      · exact Or.inr (Or.inl h)
  · rcases get_stage GetOp.gpio_mode bus fuel w1 with
      ⟨w', t2, hg1, ht2, hr2⟩ | ⟨resp, w2, t2, hg1, ht2, hr2⟩
    · have hm : main bus fuel w open_ret = Outcome.blocked w' := by
        rw [hmain, hrb]
        simp only [Outcome.bind, hg1]
      refine ⟨Event.ioctl 0x0703 0x2A iret :: (t1 ++ t2), ?_, Or.inl ⟨?_, ?_⟩⟩
      · rw [hm]
        show w'.trace = _
        rw [ht2, ht1, hinit]
        simp
      · rw [hm]
        rfl
      · rw [registerWrites_ioctl, registerWrites_append, hr1]
        rcases hr2 with h | h
        · rw [h]
          exact Or.inr (Or.inl rfl)
        · rw [h]
          exact Or.inr (Or.inr rfl)
    · by_cases h5 : resp = 5
      · subst h5
        rcases get_stage GetOp.gpio_mode bus fuel w2 with
          ⟨w', t3, hg2, ht3, hr3⟩ | ⟨v, w3, t3, hg2, ht3, hr3⟩
        · have hm : main bus fuel w open_ret = Outcome.blocked w' := by
            rw [hmain, hrb]
            simp only [Outcome.bind, hg1, ne_eq, not_true_eq_false, if_false, hg2]
          refine ⟨Event.ioctl 0x0703 0x2A iret :: (t1 ++ t2 ++ t3), ?_, ?_⟩
          · rw [hm]
            show w'.trace = _
            rw [ht3, ht2, ht1, hinit]
            simp
          · rw [registerWrites_ioctl, registerWrites_append, registerWrites_append, hr1, hr2]
            rcases hr3 with h | h
            · rw [h]
              exact Or.inl ⟨by rw [hm]; rfl, Or.inr (Or.inr rfl)⟩
            · rw [h]
              exact Or.inr (Or.inl ⟨w1, w2, hrb, hg1, rfl⟩)
        · have hm : main bus fuel w open_ret = Outcome.done 0 w3 := by
            rw [hmain, hrb]
            simp only [Outcome.bind, hg1, ne_eq, not_true_eq_false, if_false, hg2]
          refine ⟨Event.ioctl 0x0703 0x2A iret :: (t1 ++ t2 ++ t3), ?_, ?_⟩
          · rw [hm]
            show w3.trace = _
            rw [ht3, ht2, ht1, hinit]
            simp
          · rw [registerWrites_ioctl, registerWrites_append, registerWrites_append, hr1, hr2,
              hr3]
            exact Or.inr (Or.inl ⟨w1, w2, hrb, hg1, rfl⟩)
      · rcases set_stage SetOp.gpio_mode bus fuel w2 5 (by decide) with
          ⟨w', t3, hs, ht3, hr3⟩ | ⟨w3, t3, hs, ht3, hr3⟩
        · have hm : main bus fuel w open_ret = Outcome.blocked w' := by
            rw [hmain, hrb]
            simp only [Outcome.bind, hg1, ne_eq, h5, not_false_eq_true, if_true, hs]
          refine ⟨Event.ioctl 0x0703 0x2A iret :: (t1 ++ t2 ++ t3), ?_, ?_⟩
          · rw [hm]
            show w'.trace = _
            rw [ht3, ht2, ht1, hinit]
            simp
          · rw [registerWrites_ioctl, registerWrites_append, registerWrites_append, hr1, hr2]
            rcases hr3 with h | h
            · rw [h]
              exact Or.inl ⟨by rw [hm]; rfl, Or.inr (Or.inr rfl)⟩
            · rw [h]
              exact Or.inr (Or.inr ⟨w1, w2, resp, hrb, hg1, h5,
                Or.inl ⟨by rw [hm]; rfl, rfl⟩⟩)
        · rcases get_stage GetOp.gpio_mode bus fuel w3 with
            ⟨w', t4, hg2, ht4, hr4⟩ | ⟨v, w4, t4, hg2, ht4, hr4⟩
          · have hm : main bus fuel w open_ret = Outcome.blocked w' := by
              rw [hmain, hrb]
              simp only [Outcome.bind, hg1, ne_eq, h5, not_false_eq_true, if_true, hs, hg2]
            refine ⟨Event.ioctl 0x0703 0x2A iret :: (t1 ++ t2 ++ t3 ++ t4), ?_, ?_⟩
            · rw [hm]
              show w'.trace = _
              rw [ht4, ht3, ht2, ht1, hinit]
              simp
            · rw [registerWrites_ioctl, registerWrites_append, registerWrites_append,
                registerWrites_append, hr1, hr2, hr3]
              rcases hr4 with h | h
              · rw [h]
                exact Or.inr (Or.inr ⟨w1, w2, resp, hrb, hg1, h5,
                  Or.inl ⟨by rw [hm]; rfl, rfl⟩⟩)
              · rw [h]
                exact Or.inr (Or.inr ⟨w1, w2, resp, hrb, hg1, h5, Or.inr rfl⟩)
          · have hm : main bus fuel w open_ret = Outcome.done 0 w4 := by
              rw [hmain, hrb]
              simp only [Outcome.bind, hg1, ne_eq, h5, not_false_eq_true, if_true, hs, hg2]
            refine ⟨Event.ioctl 0x0703 0x2A iret :: (t1 ++ t2 ++ t3 ++ t4), ?_, ?_⟩
            · rw [hm]
              show w4.trace = _
              rw [ht4, ht3, ht2, ht1, hinit]
              simp
            · rw [registerWrites_ioctl, registerWrites_append, registerWrites_append,
                registerWrites_append, hr1, hr2, hr3, hr4]
              exact Or.inr (Or.inr ⟨w1, w2, resp, hrb, hg1, h5, Or.inr rfl⟩)

theorem main_returns_zero {σ : Type} (bus : Bus σ) (fuel : Nat) (w w' : World σ)
    (open_ret r : Int) (hopen : 0 ≤ open_ret)
    (hdone : main bus fuel w open_ret = Outcome.done r w') : r = 0 := by
  rw [main_eq bus fuel w open_ret hopen] at hdone
  obtain ⟨_, w1, _, hrest⟩ := bind_done _ _ _ _ hdone
  obtain ⟨resp, w2, _, hrest2⟩ := bind_done _ _ _ _ hrest
  by_cases h5 : resp = 5
  · simp only [h5, ne_eq, not_true_eq_false, if_false] at hrest2
    obtain ⟨_, w3, _, hfin⟩ := bind_done _ _ _ _ hrest2
    injection hfin with hr _
    exact hr.symm
  · simp only [ne_eq, h5, not_false_eq_true, if_true] at hrest2
    obtain ⟨_, w3, _, hrest3⟩ := bind_done _ _ _ _ hrest2
    obtain ⟨_, w4, _, hfin⟩ := bind_done _ _ _ _ hrest3
    injection hfin with hr _
    exact hr.symm

theorem main_returns {σ : Type} (bus : Bus σ) (fuel : Nat) (w : World σ)
    (open_ret : Int) (hopen : 0 ≤ open_ret)
    (hterm : ∀ w0, ∃ w1, cci_wait_busy_clear bus fuel w0 = Outcome.done () w1) :
    ∃ w', main bus fuel w open_ret = Outcome.done 0 w' := by
  rw [main_eq bus fuel w open_ret hopen]
  obtain ⟨w1, hrb⟩ := run_returns RunOp.oem_reboot bus fuel (cci_init bus w).2 hterm
  obtain ⟨resp, w2, hg1⟩ := get_returns GetOp.gpio_mode bus fuel w1 hterm
  by_cases h5 : resp = 5
  · obtain ⟨v, w3, hg2⟩ := get_returns GetOp.gpio_mode bus fuel w2 hterm
    refine ⟨w3, ?_⟩
    simp only [hrb, Outcome.bind, hg1, h5, ne_eq, not_true_eq_false, if_false, hg2]
  · obtain ⟨w3, hs⟩ := set_returns SetOp.gpio_mode bus fuel w2 5 hterm
    obtain ⟨v, w4, hg2⟩ := get_returns GetOp.gpio_mode bus fuel w3 hterm
    refine ⟨w4, ?_⟩
    simp only [hrb, Outcome.bind, hg1, ne_eq, h5, not_false_eq_true, if_true, hs, hg2]

/-- C17: once the bus device has been opened, every run of `main`, whether it
reaches its end or is still polling in some handshake, has issued its commands
in the order RUN_REBOOT, GET_GPIO_MODE, then SET_GPIO_MODE(5) only if this first
GET_GPIO_MODE returned a value other than 5, then a last GET_GPIO_MODE: the
register writes made so far are a stage of the sequence without SET_GPIO_MODE
(possible only up to the first GET or when it returned 5) or of the sequence
with DATA_0 <- 5, DATA_0+2 <- 0, COMMAND <- 0x4855, DATA_LENGTH <- 2 (only when
the first GET returned a value other than 5).  So when the first GET returned 5,
COMMAND <- 0x4855 is never written; it is never written twice; a run that
reaches the end has written one of the two full sequences and returns 0; and if
the handshake returns on the bus, `main` reaches its end. -/
theorem main_command_sequence {σ : Type} (bus : Bus σ) (fuel : Nat) (w : World σ)
    (open_ret : Int) (hopen : 0 ≤ open_ret) :
    (∃ t, (main bus fuel w open_ret).world.trace = w.trace ++ t ∧
     (((main bus fuel w open_ret).isDone = false ∧
        (registerWrites t = [] ∨ registerWrites t = [(0x0004, 0x4840)] ∨
          registerWrites t = [(0x0004, 0x4840), (0x0006, 2), (0x0004, 0x4854)])) ∨
      (∃ w1 w2, cc_run_oem_reboot bus fuel (cci_init bus w).2 = Outcome.done () w1 ∧
        cci_get_gpio_mode bus fuel w1 = Outcome.done 5 w2 ∧
        registerWrites t = [(0x0004, 0x4840), (0x0006, 2), (0x0004, 0x4854), (0x0006, 2), (0x0004, 0x4854)]) ∨
      (∃ w1 w2 resp, cc_run_oem_reboot bus fuel (cci_init bus w).2 = Outcome.done () w1 ∧
        cci_get_gpio_mode bus fuel w1 = Outcome.done resp w2 ∧ resp ≠ 5 ∧
        (((main bus fuel w open_ret).isDone = false ∧ registerWrites t =
          [(0x0004, 0x4840), (0x0006, 2), (0x0004, 0x4854),
          (0x0008, 5), (0x000A, 0), (0x0004, 0x4855), (0x0006, 2)]) ∨
         registerWrites t =
          [(0x0004, 0x4840), (0x0006, 2), (0x0004, 0x4854),
          (0x0008, 5), (0x000A, 0), (0x0004, 0x4855), (0x0006, 2),
          (0x0006, 2), (0x0004, 0x4854)]))) ∧
     (∀ w1 w2, cc_run_oem_reboot bus fuel (cci_init bus w).2 = Outcome.done () w1 →
        cci_get_gpio_mode bus fuel w1 = Outcome.done 5 w2 →
        (0x0004, 0x4855) ∉ registerWrites t) ∧
     (registerWrites t).count (0x0004, 0x4855) ≤ 1 ∧
     ((main bus fuel w open_ret).isDone = true →
        registerWrites t = [(0x0004, 0x4840), (0x0006, 2), (0x0004, 0x4854), (0x0006, 2), (0x0004, 0x4854)] ∨
        registerWrites t =
          [(0x0004, 0x4840), (0x0006, 2), (0x0004, 0x4854),
          (0x0008, 5), (0x000A, 0), (0x0004, 0x4855), (0x0006, 2),
          (0x0006, 2), (0x0004, 0x4854)])) ∧
    (∀ r w', main bus fuel w open_ret = Outcome.done r w' → r = 0) ∧
    ((∀ w0, ∃ w1, cci_wait_busy_clear bus fuel w0 = Outcome.done () w1) →
      ∃ w', main bus fuel w open_ret = Outcome.done 0 w') := by
  obtain ⟨t, ht, hst⟩ := main_stages bus fuel w open_ret hopen
  refine ⟨⟨t, ht, hst, ?_, ?_, ?_⟩,
    fun r w' h => main_returns_zero bus fuel w w' open_ret r hopen h,
    fun hterm => main_returns bus fuel w open_ret hopen hterm⟩
  · intro w1 w2 hrb hg
    rcases hst with ⟨_, h | h | h⟩ | ⟨_, _, _, _, h⟩ | ⟨w1', w2', resp, hrb', hg', hne, _⟩
    · rw [h]
      decide
    · rw [h]
      decide
    · rw [h]
      decide
    · rw [h]
      decide
    · rw [hrb] at hrb'
      injection hrb' with _ hw1
      subst hw1
      rw [hg] at hg'
      injection hg' with hresp _
      exact absurd hresp.symm hne
  · rcases hst with ⟨_, h | h | h⟩ | ⟨_, _, _, _, h⟩ | ⟨_, _, _, _, _, _, ⟨_, h⟩ | h⟩
    all_goals
      rw [h]
      decide
  · intro hd
    rcases hst with ⟨hn, _⟩ | ⟨_, _, _, _, h⟩ | ⟨_, _, _, _, _, _, ⟨hn, _⟩ | h⟩
    · rw [hd] at hn
      cases hn
    · exact Or.inl h
    · rw [hd] at hn
      cases hn
    · exact Or.inr h

/-- C17 on the register-file mock.  With GPIO mode 0 in the data registers the
first GET_GPIO_MODE returns 0 and SET_GPIO_MODE(5) is issued once; with 5
there, no SET_GPIO_MODE is issued; in both cases `main` reaches its end. -/
theorem main_command_sequence_witness :
    ((0 : Int) ≤ 3 ∧
      (∀ w0 : World RegFile, ∃ w1, cci_wait_busy_clear regFileBus 1 w0 = Outcome.done () w1)) ∧
    registerWrites (main regFileBus 1 (World.init ⟨fun _ => 0, 0⟩) 3).world.trace =
      [(0x0004, 0x4840), (0x0006, 2), (0x0004, 0x4854),
       (0x0008, 5), (0x000A, 0), (0x0004, 0x4855), (0x0006, 2),
       (0x0006, 2), (0x0004, 0x4854)] ∧
    registerWrites
        (main regFileBus 1 (World.init ⟨fun r => if r = 8 then 5 else 0, 0⟩) 3).world.trace =
      [(0x0004, 0x4840), (0x0006, 2), (0x0004, 0x4854), (0x0006, 2), (0x0004, 0x4854)] ∧
    (∃ w', main regFileBus 1 (World.init ⟨fun _ => 0, 0⟩) 3 = Outcome.done 0 w') ∧
    (∃ w', main regFileBus 1 (World.init ⟨fun r => if r = 8 then 5 else 0, 0⟩) 3 =
      Outcome.done 0 w') :=
  ⟨⟨by decide, regfile_wait_returns 1 (by decide)⟩, rfl, rfl,
   (main_command_sequence regFileBus 1 (World.init ⟨fun _ => 0, 0⟩) 3 (by decide)).2.2
     (regfile_wait_returns 1 (by decide)),
   (main_command_sequence regFileBus 1 (World.init ⟨fun r => if r = 8 then 5 else 0, 0⟩) 3
     (by decide)).2.2 (regfile_wait_returns 1 (by decide))⟩

end Lepton
